import Mathlib

/-!
# cFE Executive Services

A shallow embedding of `fsw/cfe-core/src/inc/cfe_es.h`: the resource
identifiers and the bit-test macros, which the header defines, and the
registry, memory pools, critical data store and generic counters, which it
declares.

`CFE_ES_ResourceID_t` is `typedef uint32`; a value of that type is a natural
number below `2 ^ 32`.  The C type `unsigned long` has a platform-dependent
width of at least 32 bits; the width is an explicit parameter `ulongBits`
of the two conversion functions, and every conversion to an unsigned type
is written as a reduction modulo `2 ^ width`.
-/

namespace CFE

/-- Number of value bits of `uint32`, the type behind `CFE_ES_ResourceID_t`. -/
def UINT32_BITS : Nat := 32

/-- The type `CFE_ES_ResourceID_t` (`typedef uint32 CFE_ES_ResourceID_t;`),
carried as a natural number. -/
abbrev CFE_ES_ResourceID_t : Type := Nat

/-- A natural number is a value of `CFE_ES_ResourceID_t` when it fits in 32 bits. -/
def IsResourceID (id : Nat) : Prop := id < 2 ^ UINT32_BITS

instance (id : Nat) : Decidable (IsResourceID id) := by
  unfold IsResourceID; infer_instance

/-- A natural number is a value of `unsigned long` of width `ulongBits`. -/
def IsULong (ulongBits : Nat) (v : Nat) : Prop := v < 2 ^ ulongBits

instance (ulongBits v : Nat) : Decidable (IsULong ulongBits v) := by
  unfold IsULong; infer_instance

/-- The C cast `(CFE_ES_ResourceID_t)v`, a conversion to `uint32`. -/
def castResourceID (v : Nat) : CFE_ES_ResourceID_t := v % 2 ^ UINT32_BITS

/-- The C cast `(unsigned long)v` for an `unsigned long` of `ulongBits` bits. -/
def castULong (ulongBits : Nat) (v : Nat) : Nat := v % 2 ^ ulongBits

/-- The constant `#define CFE_ES_RESOURCEID_UNDEFINED ((CFE_ES_ResourceID_t)0)`. -/
def CFE_ES_RESOURCEID_UNDEFINED : CFE_ES_ResourceID_t := castResourceID 0

/-- The constant `#define CFE_ES_RESOURCEID_RESERVED ((CFE_ES_ResourceID_t)0xFFFFFFFF)`. -/
def CFE_ES_RESOURCEID_RESERVED : CFE_ES_ResourceID_t := castResourceID 0xFFFFFFFF

/-- The constant `#define CFE_ES_CDS_BAD_HANDLE CFE_ES_RESOURCEID_UNDEFINED`. -/
def CFE_ES_CDS_BAD_HANDLE : CFE_ES_ResourceID_t := CFE_ES_RESOURCEID_UNDEFINED

/-- Inline function `CFE_ES_ResourceID_ToInteger`: `return ((unsigned long)id);` -/
def CFE_ES_ResourceID_ToInteger (ulongBits : Nat) (id : CFE_ES_ResourceID_t) : Nat :=
  castULong ulongBits id

/-- Inline function `CFE_ES_ResourceID_FromInteger`:
`return ((CFE_ES_ResourceID_t)Value);` -/
def CFE_ES_ResourceID_FromInteger (Value : Nat) : CFE_ES_ResourceID_t :=
  castResourceID Value

/-- Inline function `CFE_ES_ResourceID_Equal`: `return (id1 == id2);` -/
def CFE_ES_ResourceID_Equal (id1 id2 : CFE_ES_ResourceID_t) : Bool :=
  id1 == id2

/-- Inline function `CFE_ES_ResourceID_IsDefined`: `return (id != 0);` -/
def CFE_ES_ResourceID_IsDefined (id : CFE_ES_ResourceID_t) : Bool :=
  id != 0

/-- The value a `CFE_ES_ResourceID_t` object holds when its four bytes are
`b0 .. b3` (least significant first); `memset(&id, 0, sizeof(id))` stores
four zero bytes, for which the byte order is immaterial. -/
def resourceIDOfBytes (b0 b1 b2 b3 : Nat) : CFE_ES_ResourceID_t :=
  castResourceID (b0 % 256 + 256 * (b1 % 256) + 65536 * (b2 % 256) + 16777216 * (b3 % 256))

/-!
## Resource identity registry

The header declares `CFE_ES_AppID_ToIndex`, `CFE_ES_LibID_ToIndex` and
`CFE_ES_TaskID_ToIndex` but their bodies, and the allocation and release of
identifiers, are in files of the repository that are outside this source
tree.  The registry below is modelled from sections 3 and 4.1 of the
specification.
-/

/-- Modelled from the spec: the resource kinds listed in section 3 (the kind
tag of a `ResourceID`: "application, task, library, memory-pool, CDS-block,
generic-counter"); the declaration of the kinds is missing from the source. -/
inductive Kind where
  | app
  | lib
  | task
  | counter
  | pool
  | cds
  deriving DecidableEq, Repr, Fintype

/-- Modelled from the spec: width of the slot-index field of a packed
`ResourceID`; the bit layout is missing from the source. -/
def IDX_BITS : Nat := 16

/-- Modelled from the spec: width of the generation-counter field of a packed
`ResourceID`; the bit layout is missing from the source. -/
def GEN_BITS : Nat := 8

/-- Modelled from the spec: width of the kind-tag field of a packed
`ResourceID`; the bit layout is missing from the source.  The three fields
fill the 32 bits of `CFE_ES_ResourceID_t`. -/
def TAG_BITS : Nat := 8

/-- Modelled from the spec: the kind tag encoded in an identifier of each
kind; the tag values are missing from the source.  No tag is all-zero or
all-one, which keeps `UNDEFINED` and `RESERVED` out of the allocated values
(section 3: "never valid results of allocation"). -/
def Kind.tag : Kind → Nat
  | .app => 1
  | .lib => 2
  | .task => 3
  | .counter => 4
  | .pool => 5
  | .cds => 6

/-- Modelled from the spec: the kind that a tag value stands for, if any;
the inverse of `Kind.tag`. -/
def kindOfTag (t : Nat) : Option Kind :=
  if t = 1 then some .app
  else if t = 2 then some .lib
  else if t = 3 then some .task
  else if t = 4 then some .counter
  else if t = 5 then some .pool
  else if t = 6 then some .cds
  else none

/-- Modelled from the spec: the packed identifier "kind tag, slot index,
generation counter" of section 3, each field masked to its width; the
packing code is missing from the source. -/
def packID (tag gen idx : Nat) : CFE_ES_ResourceID_t :=
  (tag % 2 ^ TAG_BITS) * 2 ^ (GEN_BITS + IDX_BITS)
    + (gen % 2 ^ GEN_BITS) * 2 ^ IDX_BITS
    + idx % 2 ^ IDX_BITS

/-- Modelled from the spec: the kind-tag field of an identifier, by shift and
mask. -/
def tagOf (id : CFE_ES_ResourceID_t) : Nat :=
  id / 2 ^ (GEN_BITS + IDX_BITS) % 2 ^ TAG_BITS

/-- Modelled from the spec: the generation field of an identifier, by shift
and mask. -/
def genOf (id : CFE_ES_ResourceID_t) : Nat :=
  id / 2 ^ IDX_BITS % 2 ^ GEN_BITS

/-- Modelled from the spec: the slot-index field of an identifier, by mask. -/
def idxOf (id : CFE_ES_ResourceID_t) : Nat :=
  id % 2 ^ IDX_BITS

/-- Modelled from the spec: one slot of a kind's table, with its occupancy
and the generation stamped by the last allocation of the slot (section 4.1);
the table record is missing from the source. -/
structure Slot where
  occupied : Bool
  gen : Nat
  deriving DecidableEq, Repr

/-- Modelled from the spec: the registry state, one fixed-capacity table of
slots per kind (section 4.1); the tables are missing from the source. -/
abbrev Registry : Type := Kind → List Slot

/-- Modelled from the spec: the registry with table `k` replaced. -/
def Registry.setTable (r : Registry) (k : Kind) (t : List Slot) : Registry :=
  fun k2 => if k2 = k then t else r k2

/-- Modelled from the spec: the registry at startup, every slot of every
table free, with the configured capacity of each kind. -/
def Registry.init (capacity : Kind → Nat) : Registry :=
  fun k => List.replicate (capacity k) (Slot.mk false 0)

/-- Modelled from the spec: every table fits the slot-index field, so that a
slot index is recovered from a packed identifier. -/
def Registry.WF (r : Registry) : Prop :=
  ∀ k : Kind, (r k).length ≤ 2 ^ IDX_BITS

instance (r : Registry) : Decidable r.WF := by
  unfold Registry.WF; infer_instance

/-- Modelled from the spec: index of "the first free slot" of a table
(section 4.1, `Allocate`), `none` when every slot is occupied. -/
def firstFree : List Slot → Option Nat
  | [] => none
  | s :: rest => if s.occupied then (firstFree rest).map (· + 1) else some 0

/-- Modelled from the spec: `Allocate(kind)` of section 4.1, "reserves the
first free slot in that kind's fixed-capacity table, stamps it with a
generation value distinct from the slot's previous occupant (monotonic
per-slot counter, wrapping tolerated), returns the packed ID"; `none` is
`RegistryFull`.  The function is missing from the source. -/
def Registry.Allocate (r : Registry) (k : Kind) :
    Option (CFE_ES_ResourceID_t × Registry) :=
  match firstFree (r k) with
  | none => none
  | some i =>
    let g := (((r k).getD i (Slot.mk false 0)).gen + 1) % 2 ^ GEN_BITS
    some (packID k.tag g i,
          r.setTable k ((r k).set i (Slot.mk true g)))

/-- Modelled from the spec: `Validate(id, expectedKind)` of section 4.1,
"true only if id's kind tag matches expectedKind, the slot is currently
occupied, and the generation matches the slot's current generation".  The
function is missing from the source. -/
def Registry.Validate (r : Registry) (id : CFE_ES_ResourceID_t) (k : Kind) : Bool :=
  tagOf id == k.tag &&
    (match (r k)[idxOf id]? with
     | none => false
     | some s => s.occupied && s.gen == genOf id)

/-- Modelled from the spec: `ToIndex(id, expectedKind)` of section 4.1, "same
validation as above, returns the zero-based slot index"; `none` is the
failure.  The function is missing from the source. -/
def Registry.ToIndex (r : Registry) (id : CFE_ES_ResourceID_t) (k : Kind) : Option Nat :=
  if r.Validate id k then some (idxOf id) else none

/-- Modelled from the spec: `Release(id)` of section 4.1, "marks the slot
free; does not bump the generation itself"; the identifier is validated
first (section 2: "the Registry validates kind and liveness before the owning
component touches its data") and `none` is `HandleInvalid`.  The function is
missing from the source. -/
def Registry.Release (r : Registry) (id : CFE_ES_ResourceID_t) : Option Registry :=
  match kindOfTag (tagOf id) with
  | none => none
  | some k =>
    if r.Validate id k then
      let g := ((r k).getD (idxOf id) (Slot.mk false 0)).gen
      some (r.setTable k ((r k).set (idxOf id) (Slot.mk false g)))
    else none

/-- Modelled from the spec: `ToIndex` for the application kind, declared in the
header as `CFE_ES_AppID_ToIndex(CFE_ES_ResourceID_t AppID, uint32 *Idx)`; its
body is missing from the source.  The result is the value stored through
`Idx` on success, `none` on failure. -/
def CFE_ES_AppID_ToIndex (r : Registry) (AppID : CFE_ES_ResourceID_t) : Option Nat :=
  r.ToIndex AppID .app

/-- Modelled from the spec: `ToIndex` for the library kind, declared in the
header as `CFE_ES_LibID_ToIndex(CFE_ES_ResourceID_t LibID, uint32 *Idx)`; its
body is missing from the source. -/
def CFE_ES_LibID_ToIndex (r : Registry) (LibID : CFE_ES_ResourceID_t) : Option Nat :=
  r.ToIndex LibID .lib

/-- Modelled from the spec: `ToIndex` for the task kind, declared in the header
as `CFE_ES_TaskID_ToIndex(CFE_ES_ResourceID_t TaskID, uint32 *Idx)`; its body
is missing from the source. -/
def CFE_ES_TaskID_ToIndex (r : Registry) (TaskID : CFE_ES_ResourceID_t) : Option Nat :=
  r.ToIndex TaskID .task

/-- Modelled from the spec: one registry operation of a sequence of
"Allocate/Release" (section 8). -/
inductive RegOp where
  | allocate (k : Kind)
  | release (id : CFE_ES_ResourceID_t)
  deriving Repr

/-- Modelled from the spec: the registry after one operation; a failed
operation leaves it as it was. -/
def Registry.step (r : Registry) : RegOp → Registry
  | .allocate k =>
    match r.Allocate k with
    | some (_, r2) => r2
    | none => r
  | .release id =>
    match r.Release id with
    | some r2 => r2
    | none => r

/-- Modelled from the spec: the registry after a sequence of operations. -/
def Registry.run (r : Registry) (ops : List RegOp) : Registry :=
  ops.foldl Registry.step r

/-!
## Bit-test macros

The macros `CFE_ES_DBIT` and `CFE_ES_DTEST` of `cfe_es.h`.  The literal `1L`
has type `long`, whose width `longBits` (at least 32) depends on the
platform.  A `long` is carried as an integer; a left shift whose result does
not fit is reduced to the two's-complement value of that width.
-/

/-- The value of a `long` of `longBits` bits whose bit pattern is that of `v`
(two's complement): `v` reduced into `[-2 ^ (longBits - 1), 2 ^ (longBits - 1))`. -/
def wrapLong (longBits : Nat) (v : Int) : Int :=
  if v % 2 ^ longBits < 2 ^ (longBits - 1) then v % 2 ^ longBits
  else v % 2 ^ longBits - 2 ^ longBits

/-- The bit pattern, as an unsigned number of `longBits` bits, of the integer
`v`; it is what both operands of `&` are brought to by the usual arithmetic
conversions when one of them is a `long`. -/
def bitsOfLong (longBits : Nat) (v : Int) : Nat :=
  (v % 2 ^ longBits).toNat

/-- Macro `#define CFE_ES_DBIT(x) (1L << (x))`. -/
def CFE_ES_DBIT (longBits : Nat) (x : Nat) : Int :=
  wrapLong longBits (1 * 2 ^ x)

/-- Macro `#define CFE_ES_DTEST(i,x) (((i) & CFE_ES_DBIT(x)) != 0)`, for an
unsigned 32-bit operand `i`. -/
def CFE_ES_DTEST (longBits : Nat) (i : Nat) (x : Nat) : Bool :=
  (bitsOfLong longBits (i : Int) &&& bitsOfLong longBits (CFE_ES_DBIT longBits x)) != 0

/-!
## Block memory pool allocator

The header declares the pool functions (`CFE_ES_PoolCreateEx`,
`CFE_ES_GetPoolBuf`, `CFE_ES_PutPoolBuf`, `CFE_ES_GetMemPoolStats`) and the
statistics records; the bodies are in files of the repository that are
outside this source tree.  The allocator below is modelled from sections 3,
4.2 and 7 of the specification and from the notes of the declarations.
-/

/-- Modelled from the spec: the result of an operation, success or one of the
error kinds of section 7; the numeric return codes (`cfe_error.h`) are missing
from the source.  `BadArgument` is `CFE_ES_BAD_ARGUMENT`, `HandleInvalid` is
`CFE_ES_ERR_MEM_HANDLE`, `BlockSizeUnavailable` is `CFE_ES_ERR_MEM_BLOCK_SIZE`,
`CorruptionDetected` covers the header check on free and the integrity check
on restore (`IntegrityCheckFailed`, `CFE_ES_CDS_BLOCK_CRC_ERR`),
`CapacityExceeded` is `RegistryFull`, `NameConflict` is the size conflict of a
CDS re-registration. -/
inductive Status where
  | Success
  | BadArgument
  | HandleInvalid
  | CapacityExceeded
  | BlockSizeUnavailable
  | CorruptionDetected
  | NameConflict
  | NotSupported
  deriving DecidableEq, Repr

/-- The constant `#define CFE_ES_DEFAULT_MEMPOOL_BLOCK_SIZES 17`. -/
def CFE_ES_DEFAULT_MEMPOOL_BLOCK_SIZES : Nat := 17

/-- The constant `#define CFE_ES_NO_MUTEX 0`. -/
def CFE_ES_NO_MUTEX : Nat := 0

/-- The constant `#define CFE_ES_USE_MUTEX 1`. -/
def CFE_ES_USE_MUTEX : Nat := 1

/-- The type `CFE_ES_MemHandle_t` (`typedef CFE_ES_ResourceID_t CFE_ES_MemHandle_t;`). -/
abbrev CFE_ES_MemHandle_t : Type := CFE_ES_ResourceID_t

/-- The type `CFE_ES_MemOffset_t` (`typedef uint32 CFE_ES_MemOffset_t;`),
carried as a natural number. -/
abbrev CFE_ES_MemOffset_t : Type := Nat

/-- Modelled from the spec: bytes of the buffer taken for pool bookkeeping
before any block is carved (note of `CFE_ES_PoolCreateEx`: "168 bytes are used
for internal bookkeeping"). -/
def POOL_BOOKKEEPING_BYTES : Nat := 168

/-- Modelled from the spec: bytes of header in front of each block (note of
`CFE_ES_GetPoolBuf`: "at a minimum, 12 bytes more than requested"). -/
def POOL_BLOCK_OVERHEAD : Nat := 12

/-- Modelled from the spec: one block-size class of a pool, with the number
of blocks carved for it and its free list (the addresses of its free blocks,
most recently freed first); the record is missing from the source. -/
structure SizeClass where
  blockSize : Nat
  numCreated : Nat
  freeList : List Nat
  deriving DecidableEq, Repr

/-- Modelled from the spec: a block as the pool finds it at an address, that
is the address of its bytes and the header in front of them, "owning pool ID,
size-class index, corruption-check value" (section 3); the header layout is
missing from the source. -/
structure Block where
  addr : Nat
  poolId : CFE_ES_ResourceID_t
  classIdx : Nat
  check : Nat
  deriving DecidableEq, Repr

/-- Modelled from the spec: the check value a header must carry, computed
from the owning pool ID, the size-class index and the block address by a
primitive of the platform (section 6); the primitive is a parameter. -/
abbrev HeaderCheck : Type := CFE_ES_ResourceID_t → Nat → Nat → Nat

/-- Modelled from the spec: a pool (section 3), "an ownership record
referencing a caller-supplied backing buffer", with its ordered list of size
classes, the offset `bump` of the first byte never allocated, the use-lock
flag and the running statistics; the record is missing from the source. -/
structure Pool where
  poolId : CFE_ES_MemHandle_t
  poolSize : Nat
  bump : Nat
  classes : List SizeClass
  useMutex : Bool
  numBlocksRequested : Nat
  checkErrCtr : Nat
  deriving DecidableEq, Repr

/-- Modelled from the spec: the class at an index of the class list (an empty
class of size zero outside the list). -/
def classAt (cs : List SizeClass) (i : Nat) : SizeClass :=
  cs.getD i (SizeClass.mk 0 0 [])

/-- Modelled from the spec: index of "the smallest configured class ≥ size"
in a list of class sizes (section 4.2, `Allocate`), the first such index when
several classes have that size, `none` when the size exceeds every class. -/
def selectClass (size : Nat) : List Nat → Option Nat
  | [] => none
  | s :: rest =>
    match selectClass size rest with
    | none => if size ≤ s then some 0 else none
    | some j => if size ≤ s ∧ s ≤ rest.getD j 0 then some 0 else some (j + 1)

/-- Modelled from the spec: the class sizes of a pool, in order. -/
def Pool.sizes (p : Pool) : List Nat :=
  p.classes.map (fun c => c.blockSize)

/-- Modelled from the spec: the block at an address of class `i` with the
header a pool writes when it hands the block out. -/
def Pool.mkBlock (chk : HeaderCheck) (p : Pool) (i a : Nat) : Block :=
  { addr := a, poolId := p.poolId, classIdx := i, check := chk p.poolId i a }

/-- Modelled from the spec: the pool after a recycled block is popped from
the free list of class `i`, `rest` being what remains of the list; the
cumulative allocation count goes up. -/
def Pool.popFree (p : Pool) (i : Nat) (rest : List Nat) : Pool :=
  { p with
    classes := p.classes.set i { classAt p.classes i with freeList := rest }
    numBlocksRequested := p.numBlocksRequested + 1 }

/-- Modelled from the spec: the pool after a new block of class `i` is carved
from the unallocated remainder: the bump offset moves past the header and the
block, the created count of the class and the cumulative allocation count go
up. -/
def Pool.carve (p : Pool) (i : Nat) : Pool :=
  { p with
    bump := p.bump + POOL_BLOCK_OVERHEAD + (classAt p.classes i).blockSize
    classes := p.classes.set i
      { classAt p.classes i with numCreated := (classAt p.classes i).numCreated + 1 }
    numBlocksRequested := p.numBlocksRequested + 1 }

/-- Modelled from the spec: the pool after the block at address `a` is pushed
onto the free list of class `i`. -/
def Pool.pushFree (p : Pool) (i a : Nat) : Pool :=
  { p with
    classes := p.classes.set i
      { classAt p.classes i with freeList := a :: (classAt p.classes i).freeList } }

/-- Modelled from the spec: the pool after its corruption-error counter is
incremented. -/
def Pool.countCheckError (p : Pool) : Pool :=
  { p with checkErrCtr := p.checkErrCtr + 1 }

/-- Modelled from the spec: `Allocate(poolID, size)` of section 4.2 on the
pool that the ID designates (`CFE_ES_GetPoolBuf`): "selects the smallest
configured class ≥ size; if that class's free list is non-empty, pops and
returns a recycled block; otherwise attempts to carve a new block of that
class size from the pool's unallocated remainder (bump pointer) — if
insufficient contiguous remainder exists, fails with BlockSizeUnavailable; if
size exceeds the largest configured class, fails immediately without touching
any list".  The block handed out gets a fresh header.  The function is
missing from the source. -/
def Pool.Allocate (chk : HeaderCheck) (p : Pool) (size : Nat) : Except Status Block × Pool :=
  match selectClass size p.sizes with
  | none => (.error .BlockSizeUnavailable, p)
  | some i =>
    match (classAt p.classes i).freeList with
    | a :: rest => (.ok (p.mkBlock chk i a), p.popFree i rest)
    | [] =>
      if p.bump + POOL_BLOCK_OVERHEAD + (classAt p.classes i).blockSize ≤ p.poolSize then
        (.ok (p.mkBlock chk i (p.bump + POOL_BLOCK_OVERHEAD)), p.carve i)
      else (.error .BlockSizeUnavailable, p)

/-- Modelled from the spec: `Free(poolID, block)` of section 4.2 on the pool
that the ID designates (`CFE_ES_PutPoolBuf`): "recomputes/validates the
block's header check value; on mismatch, increments the pool's
corruption-error counter and fails with CorruptionDetected without linking the
block into any free list; on success, pushes the block onto its class free
list".  The function is missing from the source. -/
def Pool.Free (chk : HeaderCheck) (p : Pool) (b : Block) : Status × Pool :=
  if b.check = chk b.poolId b.classIdx b.addr then
    (.Success, p.pushFree b.classIdx b.addr)
  else
    (.CorruptionDetected, p.countCheckError)

/-- The record `CFE_ES_BlockStats_t` of the header: `BlockSize`, `NumCreated`,
`NumFree`. -/
structure CFE_ES_BlockStats_t where
  BlockSize : CFE_ES_MemOffset_t
  NumCreated : Nat
  NumFree : Nat
  deriving DecidableEq, Repr

/-- The record `CFE_ES_MemPoolStats_t` of the header: `PoolSize`,
`NumBlocksRequested`, `CheckErrCtr`, `NumFreeBytes` and the per-class
`BlockStats`. -/
structure CFE_ES_MemPoolStats_t where
  PoolSize : CFE_ES_MemOffset_t
  NumBlocksRequested : Nat
  CheckErrCtr : Nat
  NumFreeBytes : CFE_ES_MemOffset_t
  BlockStats : List CFE_ES_BlockStats_t
  deriving DecidableEq, Repr

/-- Modelled from the spec: `GetStats(poolID)` of section 4.2 on the pool that
the ID designates (`CFE_ES_GetMemPoolStats`): "total pool size, bytes never
allocated (remaining bump capacity), per-class {size, created count, free
count}, cumulative allocation count, cumulative corruption-error count".  The
function is missing from the source. -/
def Pool.GetStats (p : Pool) : CFE_ES_MemPoolStats_t :=
  { PoolSize := p.poolSize
    NumBlocksRequested := p.numBlocksRequested
    CheckErrCtr := p.checkErrCtr
    NumFreeBytes := p.poolSize - p.bump
    BlockStats := p.classes.map
      (fun c => CFE_ES_BlockStats_t.mk c.blockSize c.numCreated c.freeList.length) }

/-- Modelled from the spec: one pool operation of a sequence, an allocation
of a size or the freeing of a block as found in memory. -/
inductive PoolOp where
  | alloc (size : Nat)
  | free (b : Block)
  deriving Repr

/-- Modelled from the spec: the pool after one operation. -/
def Pool.step (chk : HeaderCheck) (p : Pool) : PoolOp → Pool
  | .alloc size => (p.Allocate chk size).2
  | .free b => (p.Free chk b).2

/-- Modelled from the spec: the pool after a sequence of operations. -/
def Pool.run (chk : HeaderCheck) (p : Pool) (ops : List PoolOp) : Pool :=
  ops.foldl (Pool.step chk) p

/-- Modelled from the spec: the class sizes a new pool gets.  The note of
`CFE_ES_PoolCreateEx` reads: `NumBlockSizes` "If set equal to zero or if
greater than 17, then default block sizes are used"; `BlockSizes` "If the
pointer is equal to NULL, the default block sizes are used".  The default
sizes `CFE_PLATFORM_ES_MEM_BLOCK_SIZE_01` through
`CFE_PLATFORM_ES_MAX_BLOCK_SIZE` are platform configuration missing from the
source and are the parameter `defaults`, read at the indices below 17; a
non-NULL `BlockSizes` is the array read at the indices below `NumBlockSizes`. -/
def poolBlockSizes (defaults : Nat → CFE_ES_MemOffset_t) (NumBlockSizes : Nat)
    (BlockSizes : Option (Nat → CFE_ES_MemOffset_t)) : List CFE_ES_MemOffset_t :=
  match BlockSizes with
  | none => (List.range CFE_ES_DEFAULT_MEMPOOL_BLOCK_SIZES).map defaults
  | some sizes =>
    if NumBlockSizes = 0 ∨ CFE_ES_DEFAULT_MEMPOOL_BLOCK_SIZES < NumBlockSizes then
      (List.range CFE_ES_DEFAULT_MEMPOOL_BLOCK_SIZES).map defaults
    else (List.range NumBlockSizes).map sizes

/-- Modelled from the spec: `CreatePool(buffer, size, classSizes?, guarded)`
of section 4.2, declared in the header as `CFE_ES_PoolCreateEx`: "buffer must
be word-aligned and size an integral number of machine words; ... fails with
BadArgument on misalignment or invalid size; allocates a portion of buffer
for pool bookkeeping ... before any blocks are carved".  The pool ID comes
from the registry, `CapacityExceeded` when it has no free pool slot.  The
function is missing from the source. -/
def CFE_ES_PoolCreateEx (defaults : Nat → CFE_ES_MemOffset_t) (r : Registry)
    (MemPtr : Nat) (Size : CFE_ES_MemOffset_t) (NumBlockSizes : Nat)
    (BlockSizes : Option (Nat → CFE_ES_MemOffset_t)) (UseMutex : Nat) :
    Except Status (CFE_ES_MemHandle_t × Pool × Registry) :=
  if MemPtr % 4 ≠ 0 ∨ Size % 4 ≠ 0 then .error .BadArgument
  else
    match r.Allocate .pool with
    | none => .error .CapacityExceeded
    | some (id, r2) =>
      .ok (id,
           { poolId := id
             poolSize := Size
             bump := POOL_BOOKKEEPING_BYTES
             classes := (poolBlockSizes defaults NumBlockSizes BlockSizes).map
               (fun s => SizeClass.mk s 0 [])
             useMutex := decide (UseMutex = CFE_ES_USE_MUTEX)
             numBlocksRequested := 0
             checkErrCtr := 0 },
           r2)

/-- An example pool for the worked cases: 1024 bytes, the three classes 16, 32
and 64, nothing carved yet. -/
def examplePool : Pool :=
  { poolId := 0x05010000
    poolSize := 1024
    bump := POOL_BOOKKEEPING_BYTES
    classes := [SizeClass.mk 16 0 [], SizeClass.mk 32 0 [], SizeClass.mk 64 0 []]
    useMutex := true
    numBlocksRequested := 0
    checkErrCtr := 0 }

/-- An example header check for the worked cases. -/
def exampleCheck : HeaderCheck :=
  fun poolId classIdx addr => (poolId + 31 * classIdx + addr) % 65536

/-- Modelled from the spec: a block address is outstanding in a pool when it
lies in the part of the buffer already carved (not above the bump offset) and
is linked in no free list, as is a block that has been handed out and not
been returned. -/
def Pool.Outstanding (p : Pool) (a : Nat) : Prop :=
  a ≤ p.bump ∧ ∀ c ∈ p.classes, a ∉ c.freeList

instance (p : Pool) (a : Nat) : Decidable (p.Outstanding a) := by
  unfold Pool.Outstanding; infer_instance

/-!
## Critical data store

The header declares `CFE_ES_RegisterCDS`, `CFE_ES_CopyToCDS` and
`CFE_ES_RestoreFromCDS`; the bodies are in files of the repository that are
outside this source tree.  The store below is modelled from sections 3, 4.3
and 6 of the specification.
-/

/-- The type `CFE_ES_CDSHandle_t` (`typedef CFE_ES_ResourceID_t CFE_ES_CDSHandle_t;`). -/
abbrev CFE_ES_CDSHandle_t : Type := CFE_ES_ResourceID_t

/-- Modelled from the spec: the integrity code of a payload, computed by "a
CRC/checksum primitive" consumed from the platform (section 6); the primitive
is a parameter. -/
abbrev IntegrityCode : Type := List Nat → Nat

/-- Modelled from the spec: a CDS entry (section 3), "a name ..., a byte size
fixed at registration time, a location in non-volatile backing storage, and
an integrity code computed over the stored payload"; the backing storage of
the entry is carried as its payload bytes.  The record is missing from the
source. -/
structure CDSEntry where
  name : String
  size : Nat
  payload : List Nat
  code : Nat
  deriving DecidableEq, Repr

/-- Modelled from the spec: the critical data store, its handles issued by
the registry (kind CDS-block) and one entry per slot of that kind, with the
bound on the length of a name (`CFE_MISSION_ES_CDS_MAX_NAME_LENGTH`, platform
configuration missing from the source). -/
structure CDS where
  reg : Registry
  entries : Nat → CDSEntry
  maxNameLen : Nat

/-- Modelled from the spec: the entry table with slot `i` replaced. -/
def setEntry (entries : Nat → CDSEntry) (i : Nat) (e : CDSEntry) : Nat → CDSEntry :=
  fun j => if j = i then e else entries j

/-- Modelled from the spec: slot `i` is occupied by an entry with this name. -/
def CDS.holdsName (s : CDS) (name : String) (i : Nat) : Bool :=
  ((s.reg .cds).getD i (Slot.mk false 0)).occupied && (s.entries i).name == name

/-- Modelled from the spec: the slot of the registered entry with a name, if
any (section 3: "Registry maps name → handle"). -/
def CDS.findSlot (s : CDS) (name : String) : Option Nat :=
  (List.range (s.reg .cds).length).find? (s.holdsName name)

/-- Modelled from the spec: the handle of the entry in slot `i`, the packed
ID of that slot with its current generation. -/
def CDS.handleOf (s : CDS) (i : Nat) : CFE_ES_CDSHandle_t :=
  packID Kind.cds.tag ((s.reg .cds).getD i (Slot.mk false 0)).gen i

/-- Modelled from the spec: `Register(name, size)` of section 4.3
(`CFE_ES_RegisterCDS`): "name bounded length ...; if an entry with this exact
name already exists ... and its stored size equals size, returns the existing
handle and existing payload untouched; if the name exists with a different
size, fails InvalidSize/conflict; if the registry table is full, fails
RegistryFull".  A new entry starts with a payload of zero bytes.  The
function is missing from the source. -/
def CDS.Register (crc : IntegrityCode) (s : CDS) (name : String) (size : Nat) :
    Except Status CFE_ES_CDSHandle_t × CDS :=
  if s.maxNameLen < name.length then (.error .BadArgument, s)
  else
    match s.findSlot name with
    | some i =>
      if (s.entries i).size = size then (.ok (s.handleOf i), s)
      else (.error .NameConflict, s)
    | none =>
      match s.reg.Allocate .cds with
      | none => (.error .CapacityExceeded, s)
      | some (h, r2) =>
        (.ok h,
         { s with
           reg := r2
           entries := setEntry s.entries (idxOf h)
             { name := name
               size := size
               payload := List.replicate size 0
               code := crc (List.replicate size 0) } })

/-- Modelled from the spec: `Save(handle, data)` of section 4.3
(`CFE_ES_CopyToCDS`): "writes data (exactly the registered size) to the
backing non-volatile region and (re)computes and stores an integrity code
over the written bytes"; the handle is validated first.  The function is
missing from the source. -/
def CDS.Save (crc : IntegrityCode) (s : CDS) (h : CFE_ES_CDSHandle_t) (data : List Nat) :
    Status × CDS :=
  match s.reg.ToIndex h .cds with
  | none => (.HandleInvalid, s)
  | some i =>
    if data.length = (s.entries i).size then
      (.Success,
       { s with
         entries := setEntry s.entries i
           { s.entries i with payload := data, code := crc data } })
    else (.BadArgument, s)

/-- Modelled from the spec: `Restore(handle, buffer)` of section 4.3
(`CFE_ES_RestoreFromCDS`): "copies the stored bytes into buffer
unconditionally, then validates the stored integrity code against the bytes
found; returns success if it matches, otherwise returns IntegrityCheckFailed
while still having copied out whatever was stored"; the handle is validated
first.  The second component is what was copied into the buffer.  The
function is missing from the source. -/
def CDS.Restore (crc : IntegrityCode) (s : CDS) (h : CFE_ES_CDSHandle_t) :
    Status × Option (List Nat) :=
  match s.reg.ToIndex h .cds with
  | none => (.HandleInvalid, none)
  | some i =>
    (if crc (s.entries i).payload = (s.entries i).code then .Success
     else .CorruptionDetected,
     some (s.entries i).payload)

/-- Modelled from the spec: the bytes `d` with bit `k` of byte `j` flipped. -/
def flipBit (d : List Nat) (j k : Nat) : List Nat :=
  d.set j (d.getD j 0 ^^^ 2 ^ k)

/-- Modelled from the spec: the store after bit `k` of byte `j` of the stored
payload of slot `i` is flipped in the backing storage, behind the back of the
store ("Flipping one stored bit", section 8). -/
def CDS.flipStoredBit (s : CDS) (i j k : Nat) : CDS :=
  { s with
    entries := setEntry s.entries i
      { s.entries i with payload := flipBit (s.entries i).payload j k } }

/-- Modelled from the spec: an integrity code detects single-bit flips when
flipping one of the eight bits of one byte of a payload always changes the
code. -/
def DetectsSingleBitFlips (crc : IntegrityCode) : Prop :=
  ∀ (d : List Nat) (j k : Nat), j < d.length → k < 8 → crc (flipBit d j k) ≠ crc d

/-- Modelled from the spec: one shift of a CRC-16 register (reflected
polynomial `0xA001`), an instance of the CRC primitive that
`CFE_ES_CalculateCRC` documents as "a CRC-16 algorithm". -/
def crc16Step (c : Nat) : Nat :=
  if c % 2 = 1 then (c / 2) ^^^ 0xA001 else c / 2

/-- Modelled from the spec: the CRC-16 register after one more byte. -/
def crc16Byte (c b : Nat) : Nat :=
  crc16Step^[8] (c ^^^ (b % 256))

/-- Modelled from the spec: the CRC-16 of a list of bytes, from the initial
register 0. -/
def crc16 : IntegrityCode :=
  fun d => d.foldl crc16Byte 0

/-- Modelled from the spec: a store is well formed when the registry tables
fit the index field and the generations of the CDS slots fit the generation
field, as they do from startup on. -/
def CDS.WF (s : CDS) : Prop :=
  s.reg.WF ∧ ∀ sl ∈ s.reg .cds, sl.gen < 2 ^ GEN_BITS

instance (s : CDS) : Decidable s.WF := by
  unfold CDS.WF; infer_instance

/-- Modelled from the spec: a name is registered with a handle and a size when
the slot found for the name has that handle and holds an entry of that size,
and the name is within the length bound. -/
def CDS.Registered (s : CDS) (name : String) (h : CFE_ES_CDSHandle_t) (size : Nat) : Prop :=
  ∃ i, s.findSlot name = some i ∧ s.handleOf i = h ∧ (s.entries i).size = size ∧
    name.length ≤ s.maxNameLen

/-- Modelled from the spec: one operation on the store: a registration, a
save, or the flip of a stored bit in the backing storage. -/
inductive CDSOp where
  | register (name : String) (size : Nat)
  | save (h : CFE_ES_CDSHandle_t) (data : List Nat)
  | flip (i j k : Nat)
  deriving Repr

/-- Modelled from the spec: the store after one operation. -/
def CDS.step (crc : IntegrityCode) (s : CDS) : CDSOp → CDS
  | .register name size => (s.Register crc name size).2
  | .save h data => (s.Save crc h data).2
  | .flip i j k => s.flipStoredBit i j k

/-- Modelled from the spec: the store after a sequence of operations. -/
def CDS.run (crc : IntegrityCode) (s : CDS) (ops : List CDSOp) : CDS :=
  ops.foldl (CDS.step crc) s

/-- An example store for the worked cases: no entry registered, room for two,
names of at most 16 characters. -/
def exampleCDS : CDS :=
  { reg := Registry.init (fun _ => 2)
    entries := fun _ => CDSEntry.mk "" 0 [] 0
    maxNameLen := 16 }

/-!
## Generic counters

The header declares the counter functions (`CFE_ES_RegisterGenCounter`,
`CFE_ES_DeleteGenCounter`, `CFE_ES_IncrementGenCounter`, `CFE_ES_SetGenCount`,
`CFE_ES_GetGenCount`, `CFE_ES_GetGenCounterIDByName`) with the two results
`CFE_SUCCESS` and `CFE_ES_BAD_ARGUMENT`; the bodies are in files of the
repository that are outside this source tree.  The counters below are
modelled from sections 3 and 4.4 of the specification.
-/

/-- Modelled from the spec: a generic counter (section 3), "a name and a
32-bit unsigned value"; the record is missing from the source. -/
structure GenCounter where
  name : String
  count : Nat
  deriving DecidableEq, Repr

/-- Modelled from the spec: the generic counters, "a small registry-backed
table" (section 4.4): the registry that issues the counter IDs and one record
per slot of the counter kind. -/
structure GenCounters where
  reg : Registry
  table : Nat → GenCounter

/-- Modelled from the spec: the counter table with slot `i` replaced. -/
def setCounter (table : Nat → GenCounter) (i : Nat) (c : GenCounter) : Nat → GenCounter :=
  fun j => if j = i then c else table j

/-- Modelled from the spec: `Register(name) -> CounterID` of section 4.4,
declared as `CFE_ES_RegisterGenCounter(CounterIdPtr, CounterName)`; the new
counter starts at zero, and `CFE_ES_BAD_ARGUMENT` is returned when no slot is
free.  The function is missing from the source. -/
def CFE_ES_RegisterGenCounter (s : GenCounters) (CounterName : String) :
    Except Status CFE_ES_ResourceID_t × GenCounters :=
  match s.reg.Allocate .counter with
  | none => (.error .BadArgument, s)
  | some (id, r2) =>
    (.ok id, { reg := r2, table := setCounter s.table (idxOf id) (GenCounter.mk CounterName 0) })

/-- Modelled from the spec: `Delete` of section 4.4, declared as
`CFE_ES_DeleteGenCounter(CounterId)`: the ID is validated, then its slot is
released.  The function is missing from the source. -/
def CFE_ES_DeleteGenCounter (s : GenCounters) (CounterId : CFE_ES_ResourceID_t) :
    Status × GenCounters :=
  match s.reg.ToIndex CounterId .counter with
  | none => (.BadArgument, s)
  | some _ =>
    match s.reg.Release CounterId with
    | none => (.BadArgument, s)
    | some r2 => (.Success, { s with reg := r2 })

/-- Modelled from the spec: `Increment` of section 4.4, declared as
`CFE_ES_IncrementGenCounter(CounterId)`: "all operations validate the ID via
§4.1 before touching the counter value"; the value is a `uint32` and wraps.
The function is missing from the source. -/
def CFE_ES_IncrementGenCounter (s : GenCounters) (CounterId : CFE_ES_ResourceID_t) :
    Status × GenCounters :=
  match s.reg.ToIndex CounterId .counter with
  | none => (.BadArgument, s)
  | some i =>
    (.Success,
     { s with
       table := setCounter s.table i
         { s.table i with count := ((s.table i).count + 1) % 2 ^ 32 } })

/-- Modelled from the spec: `Set(value)` of section 4.4, declared as
`CFE_ES_SetGenCount(CounterId, uint32 Count)`.  The function is missing from
the source. -/
def CFE_ES_SetGenCount (s : GenCounters) (CounterId : CFE_ES_ResourceID_t) (Count : Nat) :
    Status × GenCounters :=
  match s.reg.ToIndex CounterId .counter with
  | none => (.BadArgument, s)
  | some i =>
    (.Success,
     { s with table := setCounter s.table i { s.table i with count := Count % 2 ^ 32 } })

/-- Modelled from the spec: `Get() -> value` of section 4.4, declared as
`CFE_ES_GetGenCount(CounterId, uint32 *Count)`; the second component is the
value stored through `Count`.  The function is missing from the source. -/
def CFE_ES_GetGenCount (s : GenCounters) (CounterId : CFE_ES_ResourceID_t) :
    Status × Option Nat :=
  match s.reg.ToIndex CounterId .counter with
  | none => (.BadArgument, none)
  | some i => (.Success, some ((s.table i).count % 2 ^ 32))

/-- Modelled from the spec: `LookupByName(name) -> CounterID` of section 4.4,
declared as `CFE_ES_GetGenCounterIDByName(CounterIdPtr, CounterName)`: the ID
of the first live counter with the name.  The function is missing from the
source. -/
def CFE_ES_GetGenCounterIDByName (s : GenCounters) (CounterName : String) :
    Status × Option CFE_ES_ResourceID_t :=
  match (List.range (s.reg .counter).length).find?
      (fun i => ((s.reg .counter).getD i (Slot.mk false 0)).occupied &&
        (s.table i).name == CounterName) with
  | none => (.BadArgument, none)
  | some i =>
    (.Success,
     some (packID Kind.counter.tag ((s.reg .counter).getD i (Slot.mk false 0)).gen i))

/-- An example counter table for the worked cases: no counter registered,
room for two. -/
def exampleCounters : GenCounters :=
  { reg := Registry.init (fun _ => 2)
    table := fun _ => GenCounter.mk "" 0 }

/-!
## Long bit masks and the full CDS name length

The macros `CFE_ES_TEST_LONG_MASK` and `CFE_ES_CDS_MAX_FULL_NAME_LEN` of
`cfe_es.h`.  The mission configuration constants `CFE_MISSION_MAX_API_LEN` and
`CFE_MISSION_ES_CDS_MAX_NAME_LENGTH` (`cfe_mission_cfg.h`) are missing from the
source and are parameters.
-/

/-- Macro `#define CFE_ES_TEST_LONG_MASK(m,s) (CFE_ES_DTEST(m[(s)/32],(s)%32))`
for an array `m` of unsigned 32-bit words and a bit number `s` that is not
negative; `none` when the word index `s / 32` is outside the array. -/
def CFE_ES_TEST_LONG_MASK (longBits : Nat) (m : List Nat) (s : Nat) : Option Bool :=
  match m[s / 32]? with
  | none => none
  | some w => some (CFE_ES_DTEST longBits w (s % 32))

/-- The word index and the bit index that `CFE_ES_TEST_LONG_MASK(m,s)` uses:
`(s)/32` and `(s)%32`. -/
def longMaskPosition (s : Nat) : Nat × Nat :=
  (s / 32, s % 32)

/-- Macro `#define CFE_ES_CDS_MAX_FULL_NAME_LEN
(CFE_MISSION_ES_CDS_MAX_NAME_LENGTH + CFE_MISSION_MAX_API_LEN + 2)`. -/
def CFE_ES_CDS_MAX_FULL_NAME_LEN (CFE_MISSION_ES_CDS_MAX_NAME_LENGTH : Nat)
    (CFE_MISSION_MAX_API_LEN : Nat) : Nat :=
  CFE_MISSION_ES_CDS_MAX_NAME_LENGTH + CFE_MISSION_MAX_API_LEN + 2

/-- The full name of a CDS, as the comment of the macro gives it:
"AppName.CDSName". -/
def cdsFullName (AppName CDSName : String) : String :=
  AppName ++ "." ++ CDSName

/-- The bytes a C string occupies: its characters (one byte each) and the
terminating NUL. -/
def cStringBytes (s : String) : Nat :=
  s.length + 1

/-!
## Software bus message identifiers

The functions of `fsw/cfe-core/src/sb/cfe_sb_msg_id_util.c` and the types and
macros of `cfe_sb_extern_typedefs.h`.  The constants and macros of `cfe_sb.h`,
`cfe_sb_priv.h`, `cfe_sb_msg_id_util.h` and `cfe_platform_cfg.h` that the
functions use are missing from the source and are the fields of a
configuration record.
-/

/-- The build configuration of the software bus: whether
`MESSAGE_FORMAT_IS_CCSDS_VER_2` is defined, and the constants and macros the
functions use that are missing from the source
(`CFE_SB_INVALID_MSG_ID`, `CFE_PLATFORM_SB_HIGHEST_VALID_MSGID`, the three
`CFE_SB_PKTTYPE_` values, the macro `CFE_SB_RD_TYPE_FROM_MSGID`, and the
number of bits of the integer type held in a `CFE_SB_MsgKey_t`). -/
structure SBConfig where
  MESSAGE_FORMAT_IS_CCSDS_VER_2 : Bool
  CFE_SB_INVALID_MSG_ID : Nat
  CFE_PLATFORM_SB_HIGHEST_VALID_MSGID : Nat
  CFE_SB_PKTTYPE_CMD : Nat
  CFE_SB_PKTTYPE_TLM : Nat
  CFE_SB_PKTTYPE_INVALID : Nat
  CFE_SB_RD_TYPE_FROM_MSGID : Nat → Nat
  msgKeyBits : Nat

/-- The width of `CFE_SB_MsgId_Atom_t`: `typedef uint32` when
`MESSAGE_FORMAT_IS_CCSDS_VER_2` is defined, `typedef uint16` otherwise. -/
def SBConfig.atomBits (cfg : SBConfig) : Nat :=
  if cfg.MESSAGE_FORMAT_IS_CCSDS_VER_2 then 32 else 16

/-- The type `CFE_SB_MsgId_t`, which holds a `CFE_SB_MsgId_Atom_t` (directly,
or in the field `Value` when `CFE_SB_OPAQUE_MSGIDS` is defined); carried as a
natural number. -/
abbrev CFE_SB_MsgId_t : Type := Nat

/-- A natural number is a value of `CFE_SB_MsgId_t` when it fits the width of
`CFE_SB_MsgId_Atom_t`. -/
def SBConfig.IsMsgId (cfg : SBConfig) (m : Nat) : Prop :=
  m < 2 ^ cfg.atomBits

instance (cfg : SBConfig) (m : Nat) : Decidable (cfg.IsMsgId m) := by
  unfold SBConfig.IsMsgId; infer_instance

/-- Macro `#define CFE_SB_MSGID_WRAP_VALUE(val) ((CFE_SB_MsgId_t)(val))`. -/
def CFE_SB_MSGID_WRAP_VALUE (cfg : SBConfig) (val : Nat) : CFE_SB_MsgId_t :=
  val % 2 ^ cfg.atomBits

/-- Macro `#define CFE_SB_MSGID_UNWRAP_VALUE(mid) ((CFE_SB_MsgId_Atom_t)(mid))`. -/
def CFE_SB_MSGID_UNWRAP_VALUE (cfg : SBConfig) (mid : CFE_SB_MsgId_t) : Nat :=
  mid % 2 ^ cfg.atomBits

/-- Modelled from the spec: the inline function `CFE_SB_MsgIdToValue` of
`cfe_sb.h`, missing from the source; the numeric value of a message ID, which
the macro `CFE_SB_MSGID_UNWRAP_VALUE` of the source gives. -/
def CFE_SB_MsgIdToValue (cfg : SBConfig) (MsgId : CFE_SB_MsgId_t) : Nat :=
  CFE_SB_MSGID_UNWRAP_VALUE cfg MsgId

/-- Modelled from the spec: the inline function `CFE_SB_MsgId_Equal` of
`cfe_sb.h`, missing from the source; equality of the numeric values of two
message IDs. -/
def CFE_SB_MsgId_Equal (cfg : SBConfig) (MsgId1 MsgId2 : CFE_SB_MsgId_t) : Bool :=
  CFE_SB_MSGID_UNWRAP_VALUE cfg MsgId1 == CFE_SB_MSGID_UNWRAP_VALUE cfg MsgId2

/-- Modelled from the spec: the type `CFE_SB_MsgKey_t` of `cfe_sb_priv.h`,
missing from the source; a key holds one unsigned integer. -/
structure CFE_SB_MsgKey_t where
  KeyIdx : Nat
  deriving DecidableEq, Repr

/-- Modelled from the spec: the inline function `CFE_SB_ValueToMsgKey` of
`cfe_sb_priv.h`, missing from the source; it stores the value, converted to
the integer type of the key, in a key. -/
def CFE_SB_ValueToMsgKey (cfg : SBConfig) (KeyIdx : Nat) : CFE_SB_MsgKey_t :=
  { KeyIdx := KeyIdx % 2 ^ cfg.msgKeyBits }

/-- Modelled from the spec: the macro `CFE_TST(i,x)`, missing from the source;
the test of bit `x` of `i` against the mask `1 << x`, as the macro
`CFE_ES_DTEST` of `cfe_es.h` does with `1L << x`. -/
def CFE_TST (i x : Nat) : Bool :=
  (i &&& 1 <<< x) != 0

/-- Function `CFE_SB_ConvertMsgIdtoMsgKey`:
`return CFE_SB_ValueToMsgKey(CFE_SB_MsgIdToValue(MsgId));` -/
def CFE_SB_ConvertMsgIdtoMsgKey (cfg : SBConfig) (MsgId : CFE_SB_MsgId_t) : CFE_SB_MsgKey_t :=
  CFE_SB_ValueToMsgKey cfg (CFE_SB_MsgIdToValue cfg MsgId)

/-- Function `CFE_SB_IsValidMsgId`:
`return (!CFE_SB_MsgId_Equal(MsgId, CFE_SB_INVALID_MSG_ID) &&
CFE_SB_MsgIdToValue(MsgId) <= CFE_PLATFORM_SB_HIGHEST_VALID_MSGID);` -/
def CFE_SB_IsValidMsgId (cfg : SBConfig) (MsgId : CFE_SB_MsgId_t) : Bool :=
  !CFE_SB_MsgId_Equal cfg MsgId cfg.CFE_SB_INVALID_MSG_ID &&
    decide (CFE_SB_MsgIdToValue cfg MsgId ≤ cfg.CFE_PLATFORM_SB_HIGHEST_VALID_MSGID)

/-- The value the local `uint8 PktType` of `CFE_SB_GetPktType` is assigned:
the packet type constant of the branch taken. -/
def pktTypeOf (cfg : SBConfig) (MsgId : CFE_SB_MsgId_t) : Nat :=
  if CFE_SB_IsValidMsgId cfg MsgId then
    if !cfg.MESSAGE_FORMAT_IS_CCSDS_VER_2 then
      if CFE_TST (CFE_SB_MsgIdToValue cfg MsgId) 12 then cfg.CFE_SB_PKTTYPE_CMD
      else cfg.CFE_SB_PKTTYPE_TLM
    else
      if cfg.CFE_SB_RD_TYPE_FROM_MSGID (CFE_SB_MsgIdToValue cfg MsgId) = 1 then
        cfg.CFE_SB_PKTTYPE_CMD
      else cfg.CFE_SB_PKTTYPE_TLM
  else cfg.CFE_SB_PKTTYPE_INVALID

/-- Function `CFE_SB_GetPktType`: the constant of the branch taken is stored
in the local `uint8 PktType` and returned as `uint32`. -/
def CFE_SB_GetPktType (cfg : SBConfig) (MsgId : CFE_SB_MsgId_t) : Nat :=
  (pktTypeOf cfg MsgId % 2 ^ 8) % 2 ^ 32

/-- An example configuration for the worked cases: the default message
format, message IDs up to `0x1FFF` valid, `0xFFFF` the invalid ID, a 32-bit
key. -/
def exampleSBConfig : SBConfig :=
  { MESSAGE_FORMAT_IS_CCSDS_VER_2 := false
    CFE_SB_INVALID_MSG_ID := 0xFFFF
    CFE_PLATFORM_SB_HIGHEST_VALID_MSGID := 0x1FFF
    CFE_SB_PKTTYPE_CMD := 1
    CFE_SB_PKTTYPE_TLM := 2
    CFE_SB_PKTTYPE_INVALID := 0
    CFE_SB_RD_TYPE_FROM_MSGID := fun v => v / 128 % 2
    msgKeyBits := 32 }

end CFE

/-!
## Theorems: identifier conversions and tests
-/

namespace CFE

theorem castResourceID_of_lt {v : Nat} (h : v < 2 ^ 32) : castResourceID v = v := by
  unfold castResourceID UINT32_BITS
  exact Nat.mod_eq_of_lt h

theorem castULong_of_lt {w v : Nat} (hw : 32 ≤ w) (h : v < 2 ^ 32) : castULong w v = v := by
  unfold castULong
  apply Nat.mod_eq_of_lt
  exact lt_of_lt_of_le h (Nat.pow_le_pow_right (by decide) hw)

theorem RESERVED_eq : CFE_ES_RESOURCEID_RESERVED = 4294967295 := by
  unfold CFE_ES_RESOURCEID_RESERVED
  exact castResourceID_of_lt (by norm_num)

theorem UNDEFINED_eq : CFE_ES_RESOURCEID_UNDEFINED = 0 := by
  unfold CFE_ES_RESOURCEID_UNDEFINED
  exact castResourceID_of_lt (by norm_num)

/-- C1: for every 32-bit resource ID value `x`, whatever the width (at least
32 bits) of `unsigned long`, `CFE_ES_ResourceID_FromInteger` applied to
`CFE_ES_ResourceID_ToInteger x` gives back `x`. -/
theorem C1_FromInteger_ToInteger (ulongBits : Nat) (hw : 32 ≤ ulongBits)
    (x : CFE_ES_ResourceID_t) (hx : IsResourceID x) :
    CFE_ES_ResourceID_FromInteger (CFE_ES_ResourceID_ToInteger ulongBits x) = x := by
  have hx2 : x < 2 ^ 32 := hx
  unfold CFE_ES_ResourceID_FromInteger CFE_ES_ResourceID_ToInteger
  rw [castULong_of_lt hw hx2, castResourceID_of_lt hx2]

/-- Witness of C1 at `CFE_ES_RESOURCEID_RESERVED` with a 64-bit `unsigned long`. -/
theorem C1_FromInteger_ToInteger_witness :
    IsResourceID CFE_ES_RESOURCEID_RESERVED ∧
    CFE_ES_ResourceID_FromInteger
      (CFE_ES_ResourceID_ToInteger 64 CFE_ES_RESOURCEID_RESERVED)
      = CFE_ES_RESOURCEID_RESERVED :=
  ⟨by decide, C1_FromInteger_ToInteger 64 (by decide) CFE_ES_RESOURCEID_RESERVED (by decide)⟩

/-- C2, counterexample: with a 64-bit `unsigned long` the value `2 ^ 32` is a
legal argument of `CFE_ES_ResourceID_FromInteger`, and converting it to an ID
and back yields `0`, not `2 ^ 32`. -/
theorem C2_ToInteger_FromInteger_counterexample :
    IsULong 64 4294967296 ∧
    CFE_ES_ResourceID_ToInteger 64 (CFE_ES_ResourceID_FromInteger 4294967296) = 0 ∧
    CFE_ES_ResourceID_ToInteger 64 (CFE_ES_ResourceID_FromInteger 4294967296)
      ≠ 4294967296 := by
  refine ⟨by decide, by decide, by decide⟩

/-- C2, amended: for every `unsigned long` value `v` (of any width of at
least 32 bits), `CFE_ES_ResourceID_ToInteger (CFE_ES_ResourceID_FromInteger v)`
is `v` reduced modulo `2 ^ 32`; it equals `v` exactly when `v` is below
`2 ^ 32`, which is every `v` where `unsigned long` is 32 bits wide. -/
theorem C2_ToInteger_FromInteger_amended (ulongBits : Nat) (hw : 32 ≤ ulongBits)
    (v : Nat) (hv : IsULong ulongBits v) :
    CFE_ES_ResourceID_ToInteger ulongBits (CFE_ES_ResourceID_FromInteger v) = v % 2 ^ 32 ∧
    (CFE_ES_ResourceID_ToInteger ulongBits (CFE_ES_ResourceID_FromInteger v) = v
      ↔ v < 2 ^ 32) ∧
    (ulongBits = 32 →
      CFE_ES_ResourceID_ToInteger ulongBits (CFE_ES_ResourceID_FromInteger v) = v) := by
  have hm : v % 2 ^ 32 < 2 ^ 32 := Nat.mod_lt _ (by norm_num)
  have h1 : CFE_ES_ResourceID_ToInteger ulongBits (CFE_ES_ResourceID_FromInteger v)
      = v % 2 ^ 32 := by
    unfold CFE_ES_ResourceID_ToInteger CFE_ES_ResourceID_FromInteger
    have : castResourceID v = v % 2 ^ 32 := rfl
    rw [this, castULong_of_lt hw hm]
  refine ⟨h1, ?_, ?_⟩
  · rw [h1]
    constructor
    · intro h
      rw [← h]
      exact hm
    · intro h
      exact Nat.mod_eq_of_lt h
  · intro h32
    rw [h1]
    apply Nat.mod_eq_of_lt
    have hv2 : v < 2 ^ ulongBits := hv
    rw [h32] at hv2
    exact hv2

/-- Witness of the amended C2 at `v = 0xFFFFFFFF` with a 64-bit
`unsigned long`. -/
theorem C2_ToInteger_FromInteger_amended_witness :
    IsULong 64 4294967295 ∧
    CFE_ES_ResourceID_ToInteger 64 (CFE_ES_ResourceID_FromInteger 4294967295)
      = 4294967295 % 2 ^ 32 :=
  ⟨by decide, (C2_ToInteger_FromInteger_amended 64 (by decide) 4294967295 (by decide)).1⟩

theorem Equal_iff_eq (a b : Nat) : CFE_ES_ResourceID_Equal a b = true ↔ a = b := by
  unfold CFE_ES_ResourceID_Equal
  simp

/-- C3: `CFE_ES_ResourceID_Equal a b` is true exactly when `a` and `b` are the
same ID value; hence it is reflexive, symmetric and transitive. -/
theorem C3_Equal_iff_eq (a b : CFE_ES_ResourceID_t) :
    (CFE_ES_ResourceID_Equal a b = true ↔ a = b) ∧
    CFE_ES_ResourceID_Equal a a = true ∧
    CFE_ES_ResourceID_Equal a b = CFE_ES_ResourceID_Equal b a ∧
    (∀ c : CFE_ES_ResourceID_t,
      CFE_ES_ResourceID_Equal a b = true → CFE_ES_ResourceID_Equal b c = true →
        CFE_ES_ResourceID_Equal a c = true) := by
  unfold CFE_ES_ResourceID_Equal
  refine ⟨by simp, by simp, ?_, ?_⟩
  · by_cases h : a = b
    · subst h; rfl
    · have h2 : ¬ b = a := fun e => h e.symm
      simp [h, h2]
  · intro c hab hbc
    simp only [beq_iff_eq] at hab hbc ⊢
    exact hab.trans hbc

/-- C4: `CFE_ES_ResourceID_IsDefined id` is false exactly when `id` is
`CFE_ES_RESOURCEID_UNDEFINED`; it is false for `CFE_ES_RESOURCEID_UNDEFINED`,
for `CFE_ES_CDS_BAD_HANDLE` and for an ID whose four bytes were zeroed. -/
theorem C4_IsDefined_false_iff_undefined (id : CFE_ES_ResourceID_t) :
    (CFE_ES_ResourceID_IsDefined id = false ↔ id = CFE_ES_RESOURCEID_UNDEFINED) ∧
    CFE_ES_ResourceID_IsDefined CFE_ES_RESOURCEID_UNDEFINED = false ∧
    CFE_ES_ResourceID_IsDefined CFE_ES_CDS_BAD_HANDLE = false ∧
    CFE_ES_ResourceID_IsDefined (resourceIDOfBytes 0 0 0 0) = false := by
  refine ⟨?_, by decide, by decide, by decide⟩
  rw [UNDEFINED_eq]
  unfold CFE_ES_ResourceID_IsDefined
  simp

/-- C5, counterexample: `CFE_ES_ResourceID_IsDefined` does not return false
for `CFE_ES_RESOURCEID_RESERVED`, an ID that is valid for no resource type. -/
theorem C5_IsDefined_reserved_counterexample :
    ¬ (CFE_ES_ResourceID_IsDefined CFE_ES_RESOURCEID_RESERVED = false) := by
  decide

/-- C5, amended: `CFE_ES_ResourceID_IsDefined` tests only against the
undefined value: it returns true for every ID other than
`CFE_ES_RESOURCEID_UNDEFINED`, and so for `CFE_ES_RESOURCEID_RESERVED`, which
is not a valid value for any resource type. -/
theorem C5_IsDefined_true_of_ne_undefined (id : CFE_ES_ResourceID_t)
    (h : id ≠ CFE_ES_RESOURCEID_UNDEFINED) :
    CFE_ES_ResourceID_IsDefined id = true ∧
    CFE_ES_ResourceID_IsDefined CFE_ES_RESOURCEID_RESERVED = true := by
  refine ⟨?_, by decide⟩
  rw [UNDEFINED_eq] at h
  unfold CFE_ES_ResourceID_IsDefined
  simpa using h

/-- Witness of the amended C5 at `CFE_ES_RESOURCEID_RESERVED`. -/
theorem C5_IsDefined_true_of_ne_undefined_witness :
    CFE_ES_RESOURCEID_RESERVED ≠ CFE_ES_RESOURCEID_UNDEFINED ∧
    CFE_ES_ResourceID_IsDefined CFE_ES_RESOURCEID_RESERVED = true :=
  ⟨by decide, (C5_IsDefined_true_of_ne_undefined CFE_ES_RESOURCEID_RESERVED (by decide)).1⟩

/-- C6: `CFE_ES_RESOURCEID_UNDEFINED` converts to the integer 0 and
`CFE_ES_RESOURCEID_RESERVED` to `0xFFFFFFFF`, every 32-bit ID lies between the
two, and `CFE_ES_ResourceID_Equal` of the two is false. -/
theorem C6_reserved_values (ulongBits : Nat) (hw : 32 ≤ ulongBits) :
    CFE_ES_ResourceID_ToInteger ulongBits CFE_ES_RESOURCEID_UNDEFINED = 0 ∧
    CFE_ES_ResourceID_ToInteger ulongBits CFE_ES_RESOURCEID_RESERVED = 0xFFFFFFFF ∧
    (∀ x : CFE_ES_ResourceID_t, IsResourceID x →
      CFE_ES_RESOURCEID_UNDEFINED ≤ x ∧ x ≤ CFE_ES_RESOURCEID_RESERVED) ∧
    CFE_ES_ResourceID_Equal CFE_ES_RESOURCEID_UNDEFINED CFE_ES_RESOURCEID_RESERVED
      = false := by
  refine ⟨?_, ?_, ?_, by decide⟩
  · rw [UNDEFINED_eq]
    exact castULong_of_lt hw (by norm_num)
  · rw [RESERVED_eq]
    exact castULong_of_lt hw (by norm_num)
  · intro x hx
    have hx2 : x < 4294967296 := hx
    rw [UNDEFINED_eq, RESERVED_eq]
    exact ⟨Nat.zero_le x, Nat.le_of_lt_succ hx2⟩

/-- Witness of C6 with a 32-bit `unsigned long`. -/
theorem C6_reserved_values_witness :
    CFE_ES_ResourceID_ToInteger 32 CFE_ES_RESOURCEID_UNDEFINED = 0 ∧
    CFE_ES_ResourceID_ToInteger 32 CFE_ES_RESOURCEID_RESERVED = 0xFFFFFFFF :=
  ⟨(C6_reserved_values 32 (by decide)).1, (C6_reserved_values 32 (by decide)).2.1⟩

/-!
## Theorems: resource identity registry
-/

theorem fields_packID (t g i : Nat) :
    tagOf (packID t g i) = t % 256 ∧ genOf (packID t g i) = g % 256 ∧
    idxOf (packID t g i) = i % 65536 := by
  unfold tagOf genOf idxOf packID TAG_BITS GEN_BITS IDX_BITS
  norm_num
  omega

theorem packID_fields (id : Nat) (h : id < 4294967296) :
    packID (tagOf id) (genOf id) (idxOf id) = id := by
  unfold tagOf genOf idxOf packID TAG_BITS GEN_BITS IDX_BITS
  dsimp only [CFE_ES_ResourceID_t]
  norm_num
  omega

theorem packID_lt (t g i : Nat) : packID t g i < 4294967296 := by
  unfold packID TAG_BITS GEN_BITS IDX_BITS
  dsimp only [CFE_ES_ResourceID_t]
  norm_num
  omega

theorem Kind.tag_pos_lt (k : Kind) : 1 ≤ k.tag ∧ k.tag ≤ 6 := by
  cases k <;> decide

theorem kindOfTag_tag (k : Kind) : kindOfTag k.tag = some k := by
  cases k <;> rfl

theorem kindOfTag_eq_some {t : Nat} {k : Kind} (h : kindOfTag t = some k) : t = k.tag := by
  unfold kindOfTag at h
  split_ifs at h with h1 h2 h3 h4 h5 h6 <;> simp at h <;> subst h <;> simp [Kind.tag, *]

theorem firstFree_spec : ∀ (t : List Slot) (i : Nat), firstFree t = some i →
    ∃ s, t[i]? = some s ∧ s.occupied = false
  | [], i, h => by simp [firstFree] at h
  | s :: rest, i, h => by
    unfold firstFree at h
    cases ho : s.occupied with
    | true =>
      simp only [ho, if_true, Option.map_eq_some'] at h
      obtain ⟨j, hj, rfl⟩ := h
      obtain ⟨s2, h2, h3⟩ := firstFree_spec rest j hj
      exact ⟨s2, by simpa using h2, h3⟩
    | false =>
      simp only [ho, Bool.false_eq_true, if_false, Option.some.injEq] at h
      subst h
      exact ⟨s, by simp, ho⟩

theorem setTable_same (r : Registry) (k : Kind) (t : List Slot) :
    (r.setTable k t) k = t := by
  simp [Registry.setTable]

theorem setTable_other (r : Registry) {k k2 : Kind} (t : List Slot) (h : k2 ≠ k) :
    (r.setTable k t) k2 = r k2 := by
  simp [Registry.setTable, h]

theorem Allocate_spec {r : Registry} {k : Kind} {id : Nat} {r2 : Registry}
    (h : r.Allocate k = some (id, r2)) :
    ∃ i s, (r k)[i]? = some s ∧ s.occupied = false ∧
      id = packID k.tag ((s.gen + 1) % 256) i ∧
      r2 = r.setTable k ((r k).set i (Slot.mk true ((s.gen + 1) % 256))) := by
  unfold Registry.Allocate at h
  cases hf : firstFree (r k) with
  | none => simp [hf] at h
  | some i =>
    obtain ⟨s, hs, ho⟩ := firstFree_spec _ _ hf
    have hg : ((r k).getD i (Slot.mk false 0)) = s := by
      rw [List.getD_eq_getElem?_getD, hs]; rfl
    simp only [hf, hg, Option.some.injEq, Prod.mk.injEq] at h
    refine ⟨i, s, hs, ho, ?_, ?_⟩
    · rw [← h.1]; rfl
    · rw [← h.2]; rfl

theorem Validate_iff {r : Registry} {id : Nat} {k : Kind} :
    r.Validate id k = true ↔
      tagOf id = k.tag ∧
      ∃ s, (r k)[idxOf id]? = some s ∧ s.occupied = true ∧ s.gen = genOf id := by
  unfold Registry.Validate
  cases (r k)[idxOf id]? <;> simp

theorem ToIndex_of_valid {r : Registry} {id : Nat} {k : Kind}
    (h : r.Validate id k = true) : r.ToIndex id k = some (idxOf id) := by
  simp [Registry.ToIndex, h]

theorem ToIndex_of_invalid {r : Registry} {id : Nat} {k : Kind}
    (h : r.Validate id k = false) : r.ToIndex id k = none := by
  simp [Registry.ToIndex, h]

theorem Allocate_length {r : Registry} {k : Kind} {id : Nat} {r2 : Registry}
    (h : r.Allocate k = some (id, r2)) (k2 : Kind) : (r2 k2).length = (r k2).length := by
  obtain ⟨i, s, -, -, -, rfl⟩ := Allocate_spec h
  by_cases hk : k2 = k
  · subst hk; rw [setTable_same]; simp
  · rw [setTable_other _ _ hk]

theorem Release_length {r : Registry} {id : Nat} {r2 : Registry}
    (h : r.Release id = some r2) (k2 : Kind) : (r2 k2).length = (r k2).length := by
  unfold Registry.Release at h
  cases hk : kindOfTag (tagOf id) with
  | none => simp [hk] at h
  | some k =>
    simp only [hk] at h
    split_ifs at h with hv
    simp only [Option.some.injEq] at h
    subst h
    by_cases hk2 : k2 = k
    · subst hk2; rw [setTable_same]; simp
    · rw [setTable_other _ _ hk2]

theorem step_length (r : Registry) (op : RegOp) (k : Kind) :
    ((r.step op) k).length = (r k).length := by
  cases op with
  | allocate k2 =>
    simp only [Registry.step]
    cases h : r.Allocate k2 with
    | none => rfl
    | some p =>
      obtain ⟨id, r2⟩ := p
      exact Allocate_length h k
  | release id =>
    simp only [Registry.step]
    cases h : r.Release id with
    | none => rfl
    | some r2 => exact Release_length h k

theorem run_length : ∀ (ops : List RegOp) (r : Registry) (k : Kind),
    ((r.run ops) k).length = (r k).length
  | [], _, _ => rfl
  | op :: ops, r, k => by
    show (((r.step op).run ops) k).length = _
    rw [run_length ops (r.step op) k, step_length]

theorem run_WF {r : Registry} (h : r.WF) (ops : List RegOp) : (r.run ops).WF := by
  intro k
  rw [run_length]
  exact h k

theorem valid_idx_ne {r : Registry} {k : Kind} {id1 id2 : Nat}
    (h1 : id1 < 4294967296) (h2 : id2 < 4294967296)
    (v1 : r.Validate id1 k = true) (v2 : r.Validate id2 k = true) (hne : id1 ≠ id2) :
    idxOf id1 ≠ idxOf id2 := by
  intro he
  obtain ⟨t1, s1, hs1, -, g1⟩ := Validate_iff.1 v1
  obtain ⟨t2, s2, hs2, -, g2⟩ := Validate_iff.1 v2
  rw [he, hs2] at hs1
  cases hs1
  apply hne
  rw [← packID_fields id1 h1, ← packID_fields id2 h2, t1, t2, ← g1, ← g2, he]

theorem Allocate_fields {r : Registry} (hwf : r.WF) {k : Kind} {id : Nat} {r2 : Registry}
    (h : r.Allocate k = some (id, r2)) :
    ∃ s, (r k)[idxOf id]? = some s ∧ s.occupied = false ∧ tagOf id = k.tag ∧
      genOf id = (s.gen + 1) % 256 ∧ id < 4294967296 ∧
      r2 = r.setTable k ((r k).set (idxOf id) (Slot.mk true (genOf id))) := by
  obtain ⟨i, s, hs, ho, hid, hr2⟩ := Allocate_spec h
  have hi : i < (r k).length := by
    rcases List.getElem?_eq_some.1 hs with ⟨hlt, -⟩
    exact hlt
  have hcap : (r k).length ≤ 65536 := hwf k
  obtain ⟨ft, fg, fi⟩ := fields_packID k.tag ((s.gen + 1) % 256) i
  rw [← hid] at ft fg fi
  have hk := Kind.tag_pos_lt k
  have ei : idxOf id = i := by omega
  have eg : genOf id = (s.gen + 1) % 256 := by omega
  have et : tagOf id = k.tag := by omega
  refine ⟨s, by rw [ei]; exact hs, ho, et, eg, ?_, ?_⟩
  · rw [hid]; exact packID_lt _ _ _
  · rw [ei, eg]; exact hr2

theorem Validate_after_Allocate_new {r : Registry} (hwf : r.WF) {k : Kind} {id : Nat}
    {r2 : Registry} (h : r.Allocate k = some (id, r2)) :
    r.Validate id k = false ∧ r2.Validate id k = true := by
  obtain ⟨s, hs, ho, et, eg, hlt, hr2⟩ := Allocate_fields hwf h
  constructor
  · cases hv : r.Validate id k with
    | false => rfl
    | true =>
      obtain ⟨-, s2, hs2, ho2, -⟩ := Validate_iff.1 hv
      rw [hs] at hs2
      cases hs2
      rw [ho] at ho2
      cases ho2
  · apply Validate_iff.2
    refine ⟨et, Slot.mk true (genOf id), ?_, rfl, rfl⟩
    have hi : idxOf id < (r k).length := by
      rcases List.getElem?_eq_some.1 hs with ⟨hlt2, -⟩
      exact hlt2
    rw [hr2, setTable_same]
    simp [hi]

theorem Validate_after_Allocate_old {r : Registry} (hwf : r.WF) {k : Kind} {id : Nat}
    {r2 : Registry} (h : r.Allocate k = some (id, r2)) {id0 : Nat} {k0 : Kind}
    (hv : r.Validate id0 k0 = true) :
    r2.Validate id0 k0 = true ∧ (k0 = k → idxOf id0 ≠ idxOf id) := by
  obtain ⟨s, hs, ho, et, eg, hlt, hr2⟩ := Allocate_fields hwf h
  obtain ⟨t0, s0, hs0, ho0, g0⟩ := Validate_iff.1 hv
  have hne : k0 = k → idxOf id0 ≠ idxOf id := by
    intro hk he
    subst hk
    rw [he, hs] at hs0
    cases hs0
    rw [ho] at ho0
    cases ho0
  refine ⟨?_, hne⟩
  apply Validate_iff.2
  refine ⟨t0, s0, ?_, ho0, g0⟩
  by_cases hk : k0 = k
  · have hne2 := hne hk
    subst hk
    rw [hr2, setTable_same, List.getElem?_set_ne (Ne.symm hne2)]
    exact hs0
  · rw [hr2, setTable_other _ _ hk]
    exact hs0

theorem ToIndex_injective {r : Registry} {k : Kind} {id1 id2 : Nat}
    (h1 : id1 < 4294967296) (h2 : id2 < 4294967296)
    (v1 : r.Validate id1 k = true) (v2 : r.Validate id2 k = true)
    (he : r.ToIndex id1 k = r.ToIndex id2 k) : id1 = id2 := by
  by_contra hne
  rw [ToIndex_of_valid v1, ToIndex_of_valid v2] at he
  exact valid_idx_ne h1 h2 v1 v2 hne (Option.some.inj he)

/-- C7: after every sequence of allocate and release operations (from any
registry whose tables fit the index field), for every kind: `ToIndex`
succeeds on each valid 32-bit ID and is injective on the valid IDs, so two
different valid IDs have different indices; an ID returned by a further
`Allocate` was not valid before, leaves every valid ID valid, and differs
from each of them both as a value (`CFE_ES_ResourceID_Equal` is false) and
in its index.  The same holds of `CFE_ES_AppID_ToIndex`,
`CFE_ES_LibID_ToIndex` and `CFE_ES_TaskID_ToIndex`. -/
theorem C7_valid_ids_distinct (r0 : Registry) (h0 : r0.WF) (ops : List RegOp) :
    (∀ (k : Kind) (id1 id2 : CFE_ES_ResourceID_t), IsResourceID id1 → IsResourceID id2 →
      (r0.run ops).Validate id1 k = true → (r0.run ops).Validate id2 k = true →
        (r0.run ops).ToIndex id1 k = some (idxOf id1) ∧
        (r0.run ops).ToIndex id2 k = some (idxOf id2) ∧
        ((r0.run ops).ToIndex id1 k = (r0.run ops).ToIndex id2 k → id1 = id2) ∧
        (CFE_ES_ResourceID_Equal id1 id2 = false →
          (r0.run ops).ToIndex id1 k ≠ (r0.run ops).ToIndex id2 k)) ∧
    (∀ (k : Kind) (id : CFE_ES_ResourceID_t) (r2 : Registry),
      (r0.run ops).Allocate k = some (id, r2) →
        IsResourceID id ∧ (r0.run ops).Validate id k = false ∧ r2.Validate id k = true ∧
        ∀ id0 : CFE_ES_ResourceID_t, (r0.run ops).Validate id0 k = true →
          r2.Validate id0 k = true ∧ CFE_ES_ResourceID_Equal id id0 = false ∧
          r2.ToIndex id k ≠ r2.ToIndex id0 k) ∧
    (∀ id1 id2 : CFE_ES_ResourceID_t, IsResourceID id1 → IsResourceID id2 →
      CFE_ES_ResourceID_Equal id1 id2 = false →
      ((r0.run ops).Validate id1 .app = true → (r0.run ops).Validate id2 .app = true →
        CFE_ES_AppID_ToIndex (r0.run ops) id1 ≠ CFE_ES_AppID_ToIndex (r0.run ops) id2) ∧
      ((r0.run ops).Validate id1 .lib = true → (r0.run ops).Validate id2 .lib = true →
        CFE_ES_LibID_ToIndex (r0.run ops) id1 ≠ CFE_ES_LibID_ToIndex (r0.run ops) id2) ∧
      ((r0.run ops).Validate id1 .task = true → (r0.run ops).Validate id2 .task = true →
        CFE_ES_TaskID_ToIndex (r0.run ops) id1 ≠ CFE_ES_TaskID_ToIndex (r0.run ops) id2)) := by
  have hwf : (r0.run ops).WF := run_WF h0 ops
  have key : ∀ (k : Kind) (id1 id2 : Nat), IsResourceID id1 → IsResourceID id2 →
      CFE_ES_ResourceID_Equal id1 id2 = false →
      (r0.run ops).Validate id1 k = true → (r0.run ops).Validate id2 k = true →
      (r0.run ops).ToIndex id1 k ≠ (r0.run ops).ToIndex id2 k := by
    intro k id1 id2 h1 h2 hne v1 v2 he
    have heq := ToIndex_injective h1 h2 v1 v2 he
    rw [(Equal_iff_eq id1 id2).2 heq] at hne
    cases hne
  refine ⟨?_, ?_, ?_⟩
  · intro k id1 id2 h1 h2 v1 v2
    exact ⟨ToIndex_of_valid v1, ToIndex_of_valid v2, ToIndex_injective h1 h2 v1 v2,
      fun hne => key k id1 id2 h1 h2 hne v1 v2⟩
  · intro k id r2 hA
    obtain ⟨hnew1, hnew2⟩ := Validate_after_Allocate_new hwf hA
    obtain ⟨s, -, -, -, -, hlt, -⟩ := Allocate_fields hwf hA
    refine ⟨hlt, hnew1, hnew2, ?_⟩
    intro id0 hv0
    obtain ⟨hv2, hidx⟩ := Validate_after_Allocate_old hwf hA hv0
    have hidx2 := hidx rfl
    refine ⟨hv2, ?_, ?_⟩
    · cases hE : CFE_ES_ResourceID_Equal id id0 with
      | false => rfl
      | true =>
        have : id = id0 := (Equal_iff_eq id id0).1 hE
        rw [this] at hidx2
        exact absurd rfl hidx2
    · rw [ToIndex_of_valid hnew2, ToIndex_of_valid hv2]
      intro he
      exact hidx2 (Option.some.inj he).symm
  · intro id1 id2 h1 h2 hne
    exact ⟨key .app id1 id2 h1 h2 hne, key .lib id1 id2 h1 h2 hne, key .task id1 id2 h1 h2 hne⟩

/-- Witness of C7: capacity 2 per kind; two tasks are created, the first is
deleted and a third created in its slot.  The two live task IDs,
`0x03020000` and `0x03010001`, have different indices. -/
theorem C7_valid_ids_distinct_witness :
    (Registry.init (fun _ => 2)).WF ∧
    ((Registry.init (fun _ => 2)).run
        [.allocate .task, .allocate .task, .release 0x03010000, .allocate .task]).Validate
      0x03020000 .task = true ∧
    ((Registry.init (fun _ => 2)).run
        [.allocate .task, .allocate .task, .release 0x03010000, .allocate .task]).Validate
      0x03010001 .task = true ∧
    CFE_ES_TaskID_ToIndex ((Registry.init (fun _ => 2)).run
        [.allocate .task, .allocate .task, .release 0x03010000, .allocate .task]) 0x03020000
      ≠ CFE_ES_TaskID_ToIndex ((Registry.init (fun _ => 2)).run
        [.allocate .task, .allocate .task, .release 0x03010000, .allocate .task]) 0x03010001 :=
  ⟨by decide, by decide, by decide,
    ((C7_valid_ids_distinct (Registry.init (fun _ => 2)) (by decide)
        [.allocate .task, .allocate .task, .release 0x03010000, .allocate .task]).2.2
      0x03020000 0x03010001 (by decide) (by decide) (by decide)).2.2 (by decide) (by decide)⟩

theorem genOf_lt (id : Nat) : genOf id < 256 := by
  unfold genOf GEN_BITS IDX_BITS
  omega

theorem Kind.tag_injective {k k2 : Kind} (h : k.tag = k2.tag) : k = k2 := by
  have h1 := kindOfTag_tag k
  rw [h, kindOfTag_tag] at h1
  exact (Option.some.inj h1).symm

theorem Release_spec {r : Registry} {id : Nat} {r2 : Registry}
    (h : r.Release id = some r2) :
    ∃ k, tagOf id = k.tag ∧ r.Validate id k = true ∧
      r2 = r.setTable k ((r k).set (idxOf id) (Slot.mk false (genOf id))) := by
  unfold Registry.Release at h
  cases hk : kindOfTag (tagOf id) with
  | none => simp [hk] at h
  | some k =>
    simp only [hk] at h
    split_ifs at h with hv
    obtain ⟨-, s, hs, -, hg⟩ := Validate_iff.1 hv
    have hd : ((r k).getD (idxOf id) (Slot.mk false 0)) = s := by
      rw [List.getD_eq_getElem?_getD, hs]; rfl
    simp only [hd, hg, Option.some.injEq] at h
    exact ⟨k, kindOfTag_eq_some hk, hv, h.symm⟩

theorem idxOf_lt_of_valid {r : Registry} {id : Nat} {k : Kind}
    (h : r.Validate id k = true) : idxOf id < (r k).length := by
  obtain ⟨-, s, hs, -, -⟩ := Validate_iff.1 h
  rcases List.getElem?_eq_some.1 hs with ⟨hlt, -⟩
  exact hlt

theorem WF_of_length {r r2 : Registry} (h : r.WF) (hl : ∀ k, (r2 k).length = (r k).length) :
    r2.WF := by
  intro k
  rw [hl k]
  exact h k

/-- C8: an ID obtained from `Allocate` and later released fails validation
at once; when, with the slot still as the release left it, a new `Allocate`
of the kind reuses that slot, the old ID fails `Validate` and `ToIndex`
against the new state, and `CFE_ES_ResourceID_Equal` of the old and the newly
issued ID is false, while the new ID is valid with the same index. -/
theorem C8_stale_id_rejected (r0 : Registry) (h0 : r0.WF) (k : Kind)
    (id : CFE_ES_ResourceID_t) (r1 : Registry) (hA : r0.Allocate k = some (id, r1))
    (ops1 : List RegOp) (r2 : Registry) (hR : (r1.run ops1).Release id = some r2)
    (ops2 : List RegOp)
    (hF : ((r2.run ops2) k)[idxOf id]? = (r2 k)[idxOf id]?)
    (id2 : CFE_ES_ResourceID_t) (r3 : Registry)
    (hA2 : (r2.run ops2).Allocate k = some (id2, r3))
    (hsame : idxOf id2 = idxOf id) :
    r2.Validate id k = false ∧ r2.ToIndex id k = none ∧
    r3.Validate id k = false ∧ r3.ToIndex id k = none ∧
    CFE_ES_ResourceID_Equal id id2 = false ∧
    r3.Validate id2 k = true ∧ r3.ToIndex id2 k = some (idxOf id) := by
  have w1 : r1.WF := WF_of_length h0 (Allocate_length hA)
  have w1b : (r1.run ops1).WF := run_WF w1 ops1
  have w2 : r2.WF := WF_of_length w1b (Release_length hR)
  have w2b : (r2.run ops2).WF := run_WF w2 ops2
  obtain ⟨-, -, -, et, -, -, -⟩ := Allocate_fields h0 hA
  obtain ⟨k2, et2, hv, hr2⟩ := Release_spec hR
  have hk : k2 = k := Kind.tag_injective (et2.symm.trans et)
  subst hk
  have hi := idxOf_lt_of_valid hv
  have hslot : (r2 k2)[idxOf id]? = some (Slot.mk false (genOf id)) := by
    rw [hr2, setTable_same]
    simp [hi]
  have hinv2 : r2.Validate id k2 = false := by
    cases hv2 : r2.Validate id k2 with
    | false => rfl
    | true =>
      obtain ⟨-, s, hs, ho, -⟩ := Validate_iff.1 hv2
      rw [hslot] at hs
      cases hs
      cases ho
  obtain ⟨s, hs, -, -, eg, -, hr3⟩ := Allocate_fields w2b hA2
  obtain ⟨-, hnew⟩ := Validate_after_Allocate_new w2b hA2
  rw [hsame, hF, hslot] at hs
  cases hs
  have hglt := genOf_lt id
  have hgne : genOf id2 ≠ genOf id := by
    rw [eg]
    show (genOf id + 1) % 256 ≠ genOf id
    omega
  have hi2 : idxOf id < ((r2.run ops2) k2).length := by
    rw [run_length]
    rw [hr2, setTable_same]
    simpa using hi
  have hslot3 : (r3 k2)[idxOf id]? = some (Slot.mk true (genOf id2)) := by
    rw [hr3, setTable_same, hsame]
    simp [hi2]
  have hinv3 : r3.Validate id k2 = false := by
    cases hv3 : r3.Validate id k2 with
    | false => rfl
    | true =>
      obtain ⟨-, s, hs, -, hg⟩ := Validate_iff.1 hv3
      rw [hslot3] at hs
      cases hs
      exact absurd hg hgne
  refine ⟨hinv2, ToIndex_of_invalid hinv2, hinv3, ToIndex_of_invalid hinv3, ?_, hnew, ?_⟩
  · cases hE : CFE_ES_ResourceID_Equal id id2 with
    | false => rfl
    | true =>
      have : id = id2 := (Equal_iff_eq id id2).1 hE
      rw [this] at hgne
      exact absurd rfl hgne
  · rw [ToIndex_of_valid hnew, hsame]

/-- Witness of C8: capacity 2 per kind; application `0x01010000` is created
in slot 0, a second application is created, the first is deleted, a task is
created, and a new application reuses slot 0 as `0x01020000`. -/
theorem C8_stale_id_rejected_witness :
    (Registry.init (fun _ => 2)).WF ∧
    (Registry.init (fun _ => 2)).Allocate .app
      = some (0x01010000, (Registry.init (fun _ => 2)).run [.allocate .app]) ∧
    idxOf 0x01020000 = idxOf 0x01010000 ∧
    ((Registry.init (fun _ => 2)).run
        [.allocate .app, .allocate .app, .release 0x01010000, .allocate .task,
         .allocate .app]).Validate 0x01010000 .app = false ∧
    ((Registry.init (fun _ => 2)).run
        [.allocate .app, .allocate .app, .release 0x01010000, .allocate .task,
         .allocate .app]).ToIndex 0x01010000 .app = none ∧
    CFE_ES_ResourceID_Equal 0x01010000 0x01020000 = false ∧
    ((Registry.init (fun _ => 2)).run
        [.allocate .app, .allocate .app, .release 0x01010000, .allocate .task,
         .allocate .app]).Validate 0x01020000 .app = true :=
  have h := C8_stale_id_rejected (Registry.init (fun _ => 2))
    (by decide) .app 0x01010000
    ((Registry.init (fun _ => 2)).run [.allocate .app]) rfl
    [.allocate .app]
    ((Registry.init (fun _ => 2)).run [.allocate .app, .allocate .app, .release 0x01010000])
    rfl
    [.allocate .task] (by decide) 0x01020000
    ((Registry.init (fun _ => 2)).run
        [.allocate .app, .allocate .app, .release 0x01010000, .allocate .task,
         .allocate .app])
    rfl (by decide)
  ⟨by decide, rfl, by decide, h.2.2.1, h.2.2.2.1, h.2.2.2.2.1,
    h.2.2.2.2.2.1⟩

/-- C9: in every registry state and for every kind, an ID returned by a
successful `Allocate` is a 32-bit value that is neither
`CFE_ES_RESOURCEID_UNDEFINED` (0) nor `CFE_ES_RESOURCEID_RESERVED`
(`0xFFFFFFFF`), so `CFE_ES_ResourceID_IsDefined` is true of it. -/
theorem C9_Allocate_not_reserved (r : Registry) (k : Kind) (id : CFE_ES_ResourceID_t)
    (r2 : Registry) (h : r.Allocate k = some (id, r2)) :
    IsResourceID id ∧
    id ≠ CFE_ES_RESOURCEID_UNDEFINED ∧ id ≠ CFE_ES_RESOURCEID_RESERVED ∧
    CFE_ES_ResourceID_Equal id CFE_ES_RESOURCEID_UNDEFINED = false ∧
    CFE_ES_ResourceID_Equal id CFE_ES_RESOURCEID_RESERVED = false ∧
    CFE_ES_ResourceID_IsDefined id = true := by
  obtain ⟨i, s, -, -, hid, -⟩ := Allocate_spec h
  have hk := Kind.tag_pos_lt k
  have hlo : 16777216 ≤ id ∧ id < 117440512 := by
    rw [hid]
    unfold packID TAG_BITS GEN_BITS IDX_BITS
    dsimp only [CFE_ES_ResourceID_t]
    norm_num
    omega
  dsimp only [CFE_ES_ResourceID_t] at hlo
  have h0 : id ≠ 0 := by
    intro e
    rw [e] at hlo
    omega
  have h1 : id ≠ 4294967295 := by
    intro e
    rw [e] at hlo
    omega
  rw [UNDEFINED_eq, RESERVED_eq]
  refine ⟨?_, h0, h1, ?_, ?_, ?_⟩
  · show id < 2 ^ 32
    exact lt_trans hlo.2 (by norm_num)
  · cases hE : CFE_ES_ResourceID_Equal id 0 with
    | false => rfl
    | true => exact absurd ((Equal_iff_eq id 0).1 hE) h0
  · cases hE : CFE_ES_ResourceID_Equal id 4294967295 with
    | false => rfl
    | true => exact absurd ((Equal_iff_eq id 4294967295).1 hE) h1
  · unfold CFE_ES_ResourceID_IsDefined
    simpa using h0

/-- Witness of C9: the first counter allocated from an empty registry of
capacity 1 per kind is `0x04010000`. -/
theorem C9_Allocate_not_reserved_witness :
    (Registry.init (fun _ => 1)).Allocate .counter
      = some (0x04010000, (Registry.init (fun _ => 1)).run [.allocate .counter]) ∧
    (0x04010000 : CFE_ES_ResourceID_t) ≠ CFE_ES_RESOURCEID_UNDEFINED ∧
    (0x04010000 : CFE_ES_ResourceID_t) ≠ CFE_ES_RESOURCEID_RESERVED ∧
    CFE_ES_ResourceID_IsDefined 0x04010000 = true :=
  have h := C9_Allocate_not_reserved (Registry.init (fun _ => 1)) .counter 0x04010000
    ((Registry.init (fun _ => 1)).run [.allocate .counter]) rfl
  ⟨rfl, h.2.1, h.2.2.1, h.2.2.2.2.2⟩

theorem Validate_kind_mismatch (r : Registry) (id : Nat) (k : Kind)
    (h : tagOf id ≠ k.tag) : r.Validate id k = false := by
  cases hv : r.Validate id k with
  | false => rfl
  | true => exact absurd (Validate_iff.1 hv).1 h

/-- C10: in every registry state, for every ID whose encoded kind is not the
kind asserted by the caller, validation fails and `ToIndex` produces no
index; so do `CFE_ES_AppID_ToIndex`, `CFE_ES_LibID_ToIndex` and
`CFE_ES_TaskID_ToIndex` when they are the operation used.  In particular an
ID allocated for another kind, such as an application ID, passed to
`CFE_ES_TaskID_ToIndex` yields no index. -/
theorem C10_ToIndex_kind_mismatch (r : Registry) (id : CFE_ES_ResourceID_t) (k : Kind)
    (h : kindOfTag (tagOf id) ≠ some k) :
    r.Validate id k = false ∧ r.ToIndex id k = none ∧
    (k = .app → CFE_ES_AppID_ToIndex r id = none) ∧
    (k = .lib → CFE_ES_LibID_ToIndex r id = none) ∧
    (k = .task → CFE_ES_TaskID_ToIndex r id = none) ∧
    (∀ (r0 r1 : Registry) (k0 : Kind) (id0 : CFE_ES_ResourceID_t),
      r0.Allocate k0 = some (id0, r1) → k0 ≠ .task → CFE_ES_TaskID_ToIndex r id0 = none) := by
  have ht : tagOf id ≠ k.tag := by
    intro e
    apply h
    rw [e]
    exact kindOfTag_tag k
  have hv := Validate_kind_mismatch r id k ht
  have hi := ToIndex_of_invalid hv
  refine ⟨hv, hi, ?_, ?_, ?_, ?_⟩
  · intro e; subst e; exact hi
  · intro e; subst e; exact hi
  · intro e; subst e; exact hi
  · intro r0 r1 k0 id0 hA hk
    obtain ⟨i, s, -, -, hid, -⟩ := Allocate_spec hA
    obtain ⟨ft, -, -⟩ := fields_packID k0.tag ((s.gen + 1) % 256) i
    rw [← hid] at ft
    have hk0 := Kind.tag_pos_lt k0
    have ht0 : tagOf id0 ≠ Kind.task.tag := by
      intro e
      apply hk
      apply Kind.tag_injective
      rw [← e, ft]
      omega
    exact ToIndex_of_invalid (Validate_kind_mismatch r id0 .task ht0)

/-- Witness of C10: the application ID `0x01010000`, valid as an application
after one allocation, yields no index from `CFE_ES_TaskID_ToIndex`. -/
theorem C10_ToIndex_kind_mismatch_witness :
    kindOfTag (tagOf 0x01010000) ≠ some Kind.task ∧
    CFE_ES_AppID_ToIndex ((Registry.init (fun _ => 2)).run [.allocate .app, .allocate .task])
      0x01010000 = some 0 ∧
    CFE_ES_TaskID_ToIndex ((Registry.init (fun _ => 2)).run [.allocate .app, .allocate .task])
      0x01010000 = none :=
  ⟨by decide, by decide,
    (C10_ToIndex_kind_mismatch
      ((Registry.init (fun _ => 2)).run [.allocate .app, .allocate .task])
      0x01010000 .task (by decide)).2.2.2.2.1 rfl⟩

/-!
## Theorems: bit-test macros
-/

theorem two_pow_lt_two_pow_int {x w : Nat} (h : x < w) : (2 : Int) ^ x < 2 ^ w := by
  exact_mod_cast Nat.pow_lt_pow_right (by decide) h

theorem bitsOfLong_DBIT (longBits x : Nat) (hx : x < longBits) :
    bitsOfLong longBits (CFE_ES_DBIT longBits x) = 2 ^ x := by
  have hlt := two_pow_lt_two_pow_int hx
  have hpos : (0 : Int) ≤ 2 ^ x := by positivity
  have hm : (1 * 2 ^ x : Int) % 2 ^ longBits = 2 ^ x := by
    rw [one_mul]
    exact Int.emod_eq_of_lt hpos hlt
  unfold bitsOfLong CFE_ES_DBIT wrapLong
  rw [hm]
  split_ifs with h
  · rw [Int.emod_eq_of_lt hpos hlt]
    exact_mod_cast Int.toNat_natCast (2 ^ x)
  · rw [Int.sub_emod, Int.emod_self, sub_zero, Int.emod_emod, Int.emod_eq_of_lt hpos hlt]
    exact_mod_cast Int.toNat_natCast (2 ^ x)

theorem DBIT_of_lt (longBits x : Nat) (hx : x + 1 < longBits) :
    CFE_ES_DBIT longBits x = 2 ^ x := by
  have hlt : (2 : Int) ^ x < 2 ^ longBits := two_pow_lt_two_pow_int (by omega)
  have hlt2 : (2 : Int) ^ x < 2 ^ (longBits - 1) := two_pow_lt_two_pow_int (by omega)
  have hpos : (0 : Int) ≤ 2 ^ x := by positivity
  unfold CFE_ES_DBIT wrapLong
  rw [one_mul, Int.emod_eq_of_lt hpos hlt, if_pos hlt2]

theorem bitsOfLong_natCast (longBits i : Nat) (hi : i < 2 ^ longBits) :
    bitsOfLong longBits (i : Int) = i := by
  unfold bitsOfLong
  have h1 : (0 : Int) ≤ i := by positivity
  have h2 : (i : Int) < 2 ^ longBits := by exact_mod_cast hi
  rw [Int.emod_eq_of_lt h1 h2]
  exact Int.toNat_natCast i

/-- C19, counterexample: where `long` is 32 bits wide, `CFE_ES_DBIT(31)` is
the negative value `-2 ^ 31`, not `2 ^ 31`. -/
theorem C19_DBIT_counterexample :
    CFE_ES_DBIT 32 31 = -2147483648 ∧ CFE_ES_DBIT 32 31 ≠ 2 ^ 31 := by
  constructor <;> decide

/-- C19, amended: for every `x` from 0 to 31 and every width of `long` of at
least 32 bits, the bit pattern of `CFE_ES_DBIT(x)` has a one at position `x`
and zeros at every other position; its value is `2 ^ x` when `x` is below the
sign bit of `long` (every `x` up to 30, and `x = 31` where `long` is wider
than 32 bits), and it is `-2 ^ 31` for `x = 31` where `long` is 32 bits wide. -/
theorem C19_DBIT_amended (longBits : Nat) (hw : 32 ≤ longBits) (x : Nat) (hx : x ≤ 31) :
    bitsOfLong longBits (CFE_ES_DBIT longBits x) = 2 ^ x ∧
    (∀ j : Nat, (bitsOfLong longBits (CFE_ES_DBIT longBits x)).testBit j = decide (x = j)) ∧
    (x + 1 < longBits → CFE_ES_DBIT longBits x = 2 ^ x) ∧
    (longBits = 32 → x = 31 → CFE_ES_DBIT longBits x = -2 ^ 31) := by
  have hb := bitsOfLong_DBIT longBits x (by omega)
  refine ⟨hb, ?_, DBIT_of_lt longBits x, ?_⟩
  · intro j
    rw [hb]
    exact Nat.testBit_two_pow
  · intro h32 h31
    subst h32
    subst h31
    decide

/-- Witness of the amended C19 at `x = 31` with a 64-bit `long`. -/
theorem C19_DBIT_amended_witness :
    bitsOfLong 64 (CFE_ES_DBIT 64 31) = 2 ^ 31 ∧ CFE_ES_DBIT 64 31 = 2 ^ 31 :=
  ⟨(C19_DBIT_amended 64 (by decide) 31 (by decide)).1,
   (C19_DBIT_amended 64 (by decide) 31 (by decide)).2.2.1 (by decide)⟩

/-- C20: for every unsigned 32-bit value `i`, every `x` from 0 to 31 and every
width of `long` of at least 32 bits, `CFE_ES_DTEST(i, x)` is true exactly when
bit `x` of `i` is set. -/
theorem C20_DTEST_iff_bit (longBits : Nat) (hw : 32 ≤ longBits) (i : Nat)
    (hi : i < 2 ^ 32) (x : Nat) (hx : x ≤ 31) :
    CFE_ES_DTEST longBits i x = i.testBit x := by
  have hi2 : i < 2 ^ longBits :=
    lt_of_lt_of_le hi (Nat.pow_le_pow_right (by decide) hw)
  unfold CFE_ES_DTEST
  rw [bitsOfLong_natCast longBits i hi2, bitsOfLong_DBIT longBits x (by omega),
    Nat.and_two_pow]
  cases h : i.testBit x with
  | false => simp
  | true => simp

/-- Witness of C20: bit 31 of `0x80000000` is found set where `long` is 32
bits wide, and bit 30 is found clear. -/
theorem C20_DTEST_iff_bit_witness :
    CFE_ES_DTEST 32 0x80000000 31 = true ∧ CFE_ES_DTEST 32 0x80000000 30 = false :=
  ⟨(C20_DTEST_iff_bit 32 (by decide) 0x80000000 (by decide) 31 (by decide)).trans (by decide),
   (C20_DTEST_iff_bit 32 (by decide) 0x80000000 (by decide) 30 (by decide)).trans (by decide)⟩

/-!
## Theorems: block memory pool allocator
-/

theorem selectClass_none_iff (size : Nat) : ∀ (sizes : List Nat),
    selectClass size sizes = none ↔ ∀ s ∈ sizes, s < size
  | [] => by simp [selectClass]
  | s :: rest => by
    unfold selectClass
    cases hr : selectClass size rest with
    | none =>
      have ih := (selectClass_none_iff size rest).1 hr
      simp only []
      constructor
      · intro h
        split_ifs at h with hs
        intro x hx
        rcases List.mem_cons.1 hx with rfl | hx2
        · omega
        · exact ih x hx2
      · intro h
        have := h s (by simp)
        rw [if_neg (by omega)]
    | some j =>
      have ih := selectClass_none_iff size rest
      simp only []
      constructor
      · intro h
        split_ifs at h
      · intro h
        have hall : ∀ x ∈ rest, x < size := fun x hx => h x (List.mem_cons_of_mem _ hx)
        rw [ih.2 hall] at hr
        cases hr

theorem selectClass_spec : ∀ (sizes : List Nat) (size i : Nat),
    selectClass size sizes = some i →
    ∃ s, sizes[i]? = some s ∧ size ≤ s ∧ ∀ s2 ∈ sizes, size ≤ s2 → s ≤ s2
  | [], _, _, h => by simp [selectClass] at h
  | s :: rest, size, i, h => by
    unfold selectClass at h
    cases hr : selectClass size rest with
    | none =>
      have hnone : ∀ s2 ∈ rest, ¬ size ≤ s2 := by
        intro s2 hs2 hle
        have := (selectClass_none_iff size rest).1 hr s2 hs2
        omega
      simp only [hr] at h
      split_ifs at h with hs
      simp only [Option.some.injEq] at h
      subst h
      refine ⟨s, by simp, hs, ?_⟩
      intro s2 hs2 hle
      rcases List.mem_cons.1 hs2 with rfl | hs3
      · exact le_refl _
      · exact absurd hle (hnone s2 hs3)
    | some j =>
      obtain ⟨t, ht, hle, hmin⟩ := selectClass_spec rest size j hr
      have hget : rest.getD j 0 = t := by
        rw [List.getD_eq_getElem?_getD, ht]; rfl
      simp only [hr, hget] at h
      split_ifs at h with hs
      · simp only [Option.some.injEq] at h
        subst h
        refine ⟨s, by simp, hs.1, ?_⟩
        intro s2 hs2 hle2
        rcases List.mem_cons.1 hs2 with rfl | hs3
        · exact le_refl _
        · exact le_trans hs.2 (hmin s2 hs3 hle2)
      · simp only [Option.some.injEq] at h
        subst h
        refine ⟨t, by simpa using ht, hle, ?_⟩
        intro s2 hs2 hle2
        rcases List.mem_cons.1 hs2 with rfl | hs3
        · by_contra hlt
          exact hs ⟨hle2, by omega⟩
        · exact hmin s2 hs3 hle2

theorem sizes_getElem? (p : Pool) (i : Nat) :
    p.sizes[i]? = (p.classes[i]?).map (fun c => c.blockSize) := by
  unfold Pool.sizes
  exact List.getElem?_map _ _ _

theorem classAt_of_getElem? {cs : List SizeClass} {i : Nat} {c : SizeClass}
    (h : cs[i]? = some c) : classAt cs i = c := by
  unfold classAt
  rw [List.getD_eq_getElem?_getD, h]; rfl

theorem classAt_of_none {cs : List SizeClass} {i : Nat}
    (h : cs[i]? = none) : classAt cs i = SizeClass.mk 0 0 [] := by
  unfold classAt
  rw [List.getD_eq_getElem?_getD, h]; rfl

theorem selectClass_pool {p : Pool} {size i : Nat} (h : selectClass size p.sizes = some i) :
    ∃ c, p.classes[i]? = some c ∧ size ≤ c.blockSize ∧
      ∀ c2 ∈ p.classes, size ≤ c2.blockSize → c.blockSize ≤ c2.blockSize := by
  obtain ⟨s, hs, hle, hmin⟩ := selectClass_spec p.sizes size i h
  rw [sizes_getElem?] at hs
  cases hc : p.classes[i]? with
  | none => rw [hc] at hs; cases hs
  | some c =>
    rw [hc] at hs
    simp only [Option.map_some', Option.some.injEq] at hs
    subst hs
    refine ⟨c, rfl, hle, ?_⟩
    intro c2 hc2 hle2
    exact hmin c2.blockSize (List.mem_map.2 ⟨c2, hc2, rfl⟩) hle2

theorem Allocate_ok {chk : HeaderCheck} {p : Pool} {size : Nat} {b : Block} {p2 : Pool}
    (h : p.Allocate chk size = (.ok b, p2)) :
    selectClass size p.sizes = some b.classIdx ∧ b.poolId = p.poolId ∧
    b.check = chk b.poolId b.classIdx b.addr ∧
    ((∃ rest, (classAt p.classes b.classIdx).freeList = b.addr :: rest ∧
        p2 = p.popFree b.classIdx rest) ∨
     ((classAt p.classes b.classIdx).freeList = [] ∧
        b.addr = p.bump + POOL_BLOCK_OVERHEAD ∧
        p.bump + POOL_BLOCK_OVERHEAD + (classAt p.classes b.classIdx).blockSize ≤ p.poolSize ∧
        p2 = p.carve b.classIdx)) := by
  unfold Pool.Allocate at h
  cases hs : selectClass size p.sizes with
  | none => simp [hs] at h
  | some i =>
    simp only [hs] at h
    cases hf : (classAt p.classes i).freeList with
    | cons a rest =>
      simp only [hf, Prod.mk.injEq, Except.ok.injEq] at h
      obtain ⟨hb, hp⟩ := h
      subst hb
      exact ⟨rfl, rfl, rfl, Or.inl ⟨rest, hf, hp.symm⟩⟩
    | nil =>
      simp only [hf] at h
      split_ifs at h with hroom
      · simp only [Prod.mk.injEq, Except.ok.injEq] at h
        obtain ⟨hb, hp⟩ := h
        subst hb
        exact ⟨rfl, rfl, rfl, Or.inr ⟨hf, rfl, hroom, hp.symm⟩⟩
      · simp at h

theorem Allocate_too_large (chk : HeaderCheck) (p : Pool) (size : Nat)
    (h : ∀ c ∈ p.classes, c.blockSize < size) :
    p.Allocate chk size = (.error .BlockSizeUnavailable, p) := by
  have hn : selectClass size p.sizes = none := by
    apply (selectClass_none_iff size p.sizes).2
    intro s hs
    obtain ⟨c, hc, rfl⟩ := List.mem_map.1 hs
    exact h c hc
  unfold Pool.Allocate
  rw [hn]

theorem Allocate_succeeds (chk : HeaderCheck) (p : Pool) (size : Nat)
    (hfit : ∃ c ∈ p.classes, size ≤ c.blockSize)
    (hroom : ∀ c ∈ p.classes,
      c.freeList ≠ [] ∨ p.bump + POOL_BLOCK_OVERHEAD + c.blockSize ≤ p.poolSize) :
    ∃ b p2, p.Allocate chk size = (.ok b, p2) := by
  cases hs : selectClass size p.sizes with
  | none =>
    obtain ⟨c, hc, hle⟩ := hfit
    have := (selectClass_none_iff size p.sizes).1 hs c.blockSize (List.mem_map.2 ⟨c, hc, rfl⟩)
    omega
  | some i =>
    obtain ⟨c, hc, -, -⟩ := selectClass_pool hs
    have hcl := classAt_of_getElem? hc
    have hmem : c ∈ p.classes := List.getElem?_mem hc
    unfold Pool.Allocate
    simp only [hs, hcl]
    cases hf : c.freeList with
    | cons a rest => exact ⟨_, _, rfl⟩
    | nil =>
      rcases hroom c hmem with h1 | h2
      · exact absurd hf h1
      · simp only [if_pos h2]
        exact ⟨_, _, rfl⟩

/-- C11: for every pool (whatever its class list) and every requested size, a
block returned by `Allocate` is of a configured class whose size is at least
the request and at most that of every configured class that fits the request;
the allocation does return a block when some class fits and the selected
class has a free block or the remainder has room; a request larger than every
class fails with `BlockSizeUnavailable` and leaves the pool, its free lists
included, as it was.  With the classes 16, 32 and 64, a request of 20 is
served from the 32-byte class and a request of 100 fails. -/
theorem C11_smallest_fitting_class (chk : HeaderCheck) (p : Pool) :
    (∀ (size : Nat) (b : Block) (p2 : Pool), p.Allocate chk size = (.ok b, p2) →
      ∃ c, p.classes[b.classIdx]? = some c ∧ size ≤ c.blockSize ∧
        ∀ c2 ∈ p.classes, size ≤ c2.blockSize → c.blockSize ≤ c2.blockSize) ∧
    (∀ size : Nat, (∃ c ∈ p.classes, size ≤ c.blockSize) →
      (∀ c ∈ p.classes,
        c.freeList ≠ [] ∨ p.bump + POOL_BLOCK_OVERHEAD + c.blockSize ≤ p.poolSize) →
      ∃ b p2, p.Allocate chk size = (.ok b, p2)) ∧
    (∀ size : Nat, (∀ c ∈ p.classes, c.blockSize < size) →
      p.Allocate chk size = (.error .BlockSizeUnavailable, p)) ∧
    ((∀ s : Nat, s ∈ p.sizes ↔ s ∈ [16, 32, 64]) →
      (∀ (b : Block) (p2 : Pool), p.Allocate chk 20 = (.ok b, p2) →
        (classAt p.classes b.classIdx).blockSize = 32) ∧
      p.Allocate chk 100 = (.error .BlockSizeUnavailable, p)) := by
  have h1 : ∀ (size : Nat) (b : Block) (p2 : Pool), p.Allocate chk size = (.ok b, p2) →
      ∃ c, p.classes[b.classIdx]? = some c ∧ size ≤ c.blockSize ∧
        ∀ c2 ∈ p.classes, size ≤ c2.blockSize → c.blockSize ≤ c2.blockSize := by
    intro size b p2 h
    exact selectClass_pool (Allocate_ok h).1
  refine ⟨h1, Allocate_succeeds chk p, Allocate_too_large chk p, ?_⟩
  intro hs
  constructor
  · intro b p2 h
    obtain ⟨c, hc, hle, hmin⟩ := h1 20 b p2 h
    rw [classAt_of_getElem? hc]
    have hmem : c.blockSize ∈ p.sizes :=
      List.mem_map.2 ⟨c, List.getElem?_mem hc, rfl⟩
    have h32 : (32 : Nat) ∈ p.sizes := (hs 32).2 (by simp)
    obtain ⟨c32, hc32, he32⟩ := List.mem_map.1 h32
    have hle32 := hmin c32 hc32 (by simp only [he32]; omega)
    simp only [he32] at hle32
    have hin := (hs c.blockSize).1 hmem
    simp only [List.mem_cons, List.mem_singleton, List.not_mem_nil, or_false] at hin
    omega
  · apply Allocate_too_large
    intro c hc
    have hin := (hs c.blockSize).1 (List.mem_map.2 ⟨c, hc, rfl⟩)
    simp only [List.mem_cons, List.mem_singleton, List.not_mem_nil, or_false] at hin
    omega

/-- Witness of C11 on the example pool with classes 16, 32 and 64: a request
of 20 returns the block at offset 180 of class 1, the 32-byte class, and a
request of 100 fails and leaves the pool as it was. -/
theorem C11_smallest_fitting_class_witness :
    (examplePool.Allocate exampleCheck 20).1
      = .ok (Block.mk 180 0x05010000 1 (exampleCheck 0x05010000 1 180)) ∧
    (classAt examplePool.classes 1).blockSize = 32 ∧
    examplePool.Allocate exampleCheck 100 = (.error .BlockSizeUnavailable, examplePool) :=
  ⟨rfl,
   ((C11_smallest_fitting_class exampleCheck examplePool).2.2.2 (fun _ => Iff.rfl)).1
     (Block.mk 180 0x05010000 1 (exampleCheck 0x05010000 1 180))
     (examplePool.Allocate exampleCheck 20).2 rfl,
   ((C11_smallest_fitting_class exampleCheck examplePool).2.2.2 (fun _ => Iff.rfl)).2⟩

theorem map_blockSize_set (l : List SizeClass) (i : Nat) (c : SizeClass)
    (h : c.blockSize = (classAt l i).blockSize) :
    (l.set i c).map (fun c => c.blockSize) = l.map (fun c => c.blockSize) := by
  induction l generalizing i with
  | nil => rfl
  | cons x xs ih =>
    cases i with
    | zero =>
      simp only [List.set_cons_zero, List.map_cons, List.cons.injEq, and_true]
      rw [h]; rfl
    | succ j =>
      simp only [List.set_cons_succ, List.map_cons, List.cons.injEq, true_and]
      apply ih
      rw [h]; rfl

theorem popFree_frame (p : Pool) (i : Nat) (rest : List Nat) :
    (p.popFree i rest).sizes = p.sizes ∧ (p.popFree i rest).poolId = p.poolId ∧
    (p.popFree i rest).bump = p.bump ∧ (p.popFree i rest).checkErrCtr = p.checkErrCtr :=
  ⟨map_blockSize_set _ _ _ rfl, rfl, rfl, rfl⟩

theorem carve_frame (p : Pool) (i : Nat) :
    (p.carve i).sizes = p.sizes ∧ (p.carve i).poolId = p.poolId ∧
    (p.carve i).checkErrCtr = p.checkErrCtr :=
  ⟨map_blockSize_set _ _ _ rfl, rfl, rfl⟩

theorem pushFree_frame (p : Pool) (i a : Nat) :
    (p.pushFree i a).sizes = p.sizes ∧ (p.pushFree i a).poolId = p.poolId ∧
    (p.pushFree i a).bump = p.bump ∧ (p.pushFree i a).checkErrCtr = p.checkErrCtr :=
  ⟨map_blockSize_set _ _ _ rfl, rfl, rfl, rfl⟩

theorem Allocate_frame (chk : HeaderCheck) (p : Pool) (size : Nat) :
    (p.Allocate chk size).2.sizes = p.sizes ∧
    (p.Allocate chk size).2.poolId = p.poolId ∧
    (p.Allocate chk size).2.checkErrCtr = p.checkErrCtr := by
  unfold Pool.Allocate
  cases hs : selectClass size p.sizes with
  | none => exact ⟨rfl, rfl, rfl⟩
  | some i =>
    dsimp only
    cases hf : (classAt p.classes i).freeList with
    | cons a rest =>
      dsimp only
      exact ⟨(popFree_frame p i rest).1, rfl, rfl⟩
    | nil =>
      dsimp only
      split_ifs with hroom
      · exact ⟨(carve_frame p i).1, rfl, rfl⟩
      · exact ⟨rfl, rfl, rfl⟩

theorem Free_frame (chk : HeaderCheck) (p : Pool) (b : Block) :
    (p.Free chk b).2.sizes = p.sizes ∧
    (p.Free chk b).2.poolId = p.poolId ∧
    (p.Free chk b).2.bump = p.bump := by
  unfold Pool.Free
  split_ifs with h
  · exact ⟨(pushFree_frame p _ _).1, rfl, rfl⟩
  · exact ⟨rfl, rfl, rfl⟩

theorem step_frame (chk : HeaderCheck) (p : Pool) (op : PoolOp) :
    (p.step chk op).sizes = p.sizes ∧ (p.step chk op).poolId = p.poolId := by
  cases op with
  | alloc size => exact ⟨(Allocate_frame chk p size).1, (Allocate_frame chk p size).2.1⟩
  | free b => exact ⟨(Free_frame chk p b).1, (Free_frame chk p b).2.1⟩

theorem run_frame (chk : HeaderCheck) : ∀ (ops : List PoolOp) (p : Pool),
    (p.run chk ops).sizes = p.sizes ∧ (p.run chk ops).poolId = p.poolId
  | [], _ => ⟨rfl, rfl⟩
  | op :: ops, p => by
    have h1 := run_frame chk ops (p.step chk op)
    have h2 := step_frame chk p op
    exact ⟨h1.1.trans h2.1, h1.2.trans h2.2⟩

theorem GetStats_getElem? (p : Pool) (i : Nat) :
    p.GetStats.BlockStats[i]? = (p.classes[i]?).map
      (fun c => CFE_ES_BlockStats_t.mk c.blockSize c.numCreated c.freeList.length) := by
  unfold Pool.GetStats
  exact List.getElem?_map _ _ _

theorem Free_ok (chk : HeaderCheck) (p : Pool) (b : Block)
    (h : b.check = chk b.poolId b.classIdx b.addr) :
    p.Free chk b = (.Success, p.pushFree b.classIdx b.addr) := by
  unfold Pool.Free
  rw [if_pos h]

theorem Free_corrupt (chk : HeaderCheck) (p : Pool) (b : Block)
    (h : b.check ≠ chk b.poolId b.classIdx b.addr) :
    p.Free chk b = (.CorruptionDetected, p.countCheckError) := by
  unfold Pool.Free
  rw [if_neg h]

theorem Allocate_pop (chk : HeaderCheck) (p : Pool) (size i a : Nat) (rest : List Nat)
    (hs : selectClass size p.sizes = some i)
    (hf : (classAt p.classes i).freeList = a :: rest) :
    p.Allocate chk size = (.ok (p.mkBlock chk i a), p.popFree i rest) := by
  unfold Pool.Allocate
  simp only [hs, hf]

theorem classes_pushFree (p : Pool) (i a : Nat) (h : i < p.classes.length) :
    (p.pushFree i a).classes[i]? =
      some { classAt p.classes i with freeList := a :: (classAt p.classes i).freeList } := by
  unfold Pool.pushFree
  simp [h]

theorem classes_popFree (p : Pool) (i : Nat) (rest : List Nat) (h : i < p.classes.length) :
    (p.popFree i rest).classes[i]? = some { classAt p.classes i with freeList := rest } := by
  unfold Pool.popFree
  simp [h]

/-- C12: a block obtained from a pool by an allocation of some size is, after
any further operations, accepted by `Free`; the free count of its class is
then one more than before; allocating the same size again returns that same
block, after which the free count of the class is one less than after the
free and its created count is unchanged. -/
theorem C12_free_then_allocate_recycles (chk : HeaderCheck) (p0 : Pool) (size : Nat)
    (b : Block) (p1 : Pool) (hA : p0.Allocate chk size = (.ok b, p1))
    (ops : List PoolOp) :
    ((p1.run chk ops).Free chk b).1 = .Success ∧
    ∃ (p3 : Pool) (s1 s2 s3 : CFE_ES_BlockStats_t),
      ((p1.run chk ops).Free chk b).2.Allocate chk size = (.ok b, p3) ∧
      (p1.run chk ops).GetStats.BlockStats[b.classIdx]? = some s1 ∧
      ((p1.run chk ops).Free chk b).2.GetStats.BlockStats[b.classIdx]? = some s2 ∧
      p3.GetStats.BlockStats[b.classIdx]? = some s3 ∧
      s2.NumFree = s1.NumFree + 1 ∧ s2.NumCreated = s1.NumCreated ∧
      s3.NumFree + 1 = s2.NumFree ∧ s3.NumCreated = s2.NumCreated ∧
      s3.BlockSize = s2.BlockSize ∧ size ≤ s3.BlockSize := by
  obtain ⟨hsel, hpid, hchk, -⟩ := Allocate_ok hA
  have hp1 : (p0.Allocate chk size).2 = p1 := by rw [hA]
  have hfr0 := Allocate_frame chk p0 size
  rw [hp1] at hfr0
  have hfr := run_frame chk ops p1
  have hsizes : (p1.run chk ops).sizes = p0.sizes := hfr.1.trans hfr0.1
  have hid : (p1.run chk ops).poolId = b.poolId := (hfr.2.trans hfr0.2.1).trans hpid.symm
  generalize p1.run chk ops = q at hsizes hid ⊢
  have hselq : selectClass size q.sizes = some b.classIdx := by rw [hsizes]; exact hsel
  obtain ⟨c, hc, hle, -⟩ := selectClass_pool hselq
  have hcl : classAt q.classes b.classIdx = c := classAt_of_getElem? hc
  have hlt : b.classIdx < q.classes.length := by
    rcases List.getElem?_eq_some.1 hc with ⟨h, -⟩
    exact h
  have hc2 := classes_pushFree q b.classIdx b.addr hlt
  rw [hcl] at hc2
  have hcl2 := classAt_of_getElem? hc2
  have hsel2 : selectClass size (q.pushFree b.classIdx b.addr).sizes = some b.classIdx := by
    rw [(pushFree_frame q _ _).1]; exact hselq
  have hlt2 : b.classIdx < (q.pushFree b.classIdx b.addr).classes.length := by
    rcases List.getElem?_eq_some.1 hc2 with ⟨h, -⟩
    exact h
  have hc3 := classes_popFree (q.pushFree b.classIdx b.addr) b.classIdx c.freeList hlt2
  rw [hcl2] at hc3
  have hpop := Allocate_pop chk (q.pushFree b.classIdx b.addr) size b.classIdx b.addr
    c.freeList hsel2 (by rw [hcl2])
  have hb : (q.pushFree b.classIdx b.addr).mkBlock chk b.classIdx b.addr = b := by
    unfold Pool.mkBlock
    rw [(pushFree_frame q _ _).2.1, hid, ← hchk]
  rw [hb] at hpop
  rw [Free_ok chk q b hchk]
  refine ⟨rfl, (q.pushFree b.classIdx b.addr).popFree b.classIdx c.freeList,
    CFE_ES_BlockStats_t.mk c.blockSize c.numCreated c.freeList.length,
    CFE_ES_BlockStats_t.mk c.blockSize c.numCreated (c.freeList.length + 1),
    CFE_ES_BlockStats_t.mk c.blockSize c.numCreated c.freeList.length, hpop, ?_, ?_, ?_,
    rfl, rfl, rfl, rfl, rfl, hle⟩
  · rw [GetStats_getElem?, hc]; rfl
  · rw [GetStats_getElem?, hc2]; rfl
  · rw [GetStats_getElem?, hc3]; rfl

/-- Witness of C12 on the example pool: the block at offset 180 obtained for a
request of 20 is freed after another allocation, and is accepted. -/
theorem C12_free_then_allocate_recycles_witness :
    examplePool.Allocate exampleCheck 20
      = (.ok (Block.mk 180 0x05010000 1 (exampleCheck 0x05010000 1 180)),
         examplePool.carve 1) ∧
    (((examplePool.carve 1).run exampleCheck [.alloc 64]).Free exampleCheck
      (Block.mk 180 0x05010000 1 (exampleCheck 0x05010000 1 180))).1 = .Success :=
  ⟨rfl, (C12_free_then_allocate_recycles exampleCheck examplePool 20
      (Block.mk 180 0x05010000 1 (exampleCheck 0x05010000 1 180)) (examplePool.carve 1) rfl
      [.alloc 64]).1⟩

theorem classAt_mem_or_default (cs : List SizeClass) (i : Nat) :
    classAt cs i ∈ cs ∨ classAt cs i = SizeClass.mk 0 0 [] := by
  cases h : cs[i]? with
  | none => exact Or.inr (classAt_of_none h)
  | some c =>
    rw [classAt_of_getElem? h]
    exact Or.inl (List.getElem?_mem h)

theorem not_mem_classAt {p : Pool} {a : Nat} (h : p.Outstanding a) (i : Nat) :
    a ∉ (classAt p.classes i).freeList := by
  rcases classAt_mem_or_default p.classes i with hm | hd
  · exact h.2 _ hm
  · rw [hd]; simp

theorem Outstanding_popFree {p : Pool} {a : Nat} (h : p.Outstanding a) (i x : Nat)
    (rest : List Nat) (hf : (classAt p.classes i).freeList = x :: rest) :
    (p.popFree i rest).Outstanding a ∧ x ≠ a := by
  have hn := not_mem_classAt h i
  rw [hf] at hn
  simp only [List.mem_cons, not_or] at hn
  refine ⟨⟨h.1, ?_⟩, fun e => hn.1 e.symm⟩
  intro c hc
  rcases List.mem_or_eq_of_mem_set hc with hm | he
  · exact h.2 c hm
  · rw [he]; exact hn.2

theorem Outstanding_carve {p : Pool} {a : Nat} (h : p.Outstanding a) (i : Nat) :
    (p.carve i).Outstanding a ∧ p.bump + POOL_BLOCK_OVERHEAD ≠ a := by
  have hb : a ≤ p.bump := h.1
  refine ⟨⟨?_, ?_⟩, ?_⟩
  · show a ≤ p.bump + POOL_BLOCK_OVERHEAD + (classAt p.classes i).blockSize
    omega
  · intro c hc
    rcases List.mem_or_eq_of_mem_set hc with hm | he
    · exact h.2 c hm
    · rw [he]; exact not_mem_classAt h i
  · unfold POOL_BLOCK_OVERHEAD
    omega

theorem Outstanding_pushFree {p : Pool} {a : Nat} (h : p.Outstanding a) (i x : Nat)
    (hx : x ≠ a) : (p.pushFree i x).Outstanding a := by
  refine ⟨h.1, ?_⟩
  intro c hc
  rcases List.mem_or_eq_of_mem_set hc with hm | he
  · exact h.2 c hm
  · rw [he]
    have hn := not_mem_classAt h i
    simp only [List.mem_cons, not_or]
    exact ⟨fun e => hx e.symm, hn⟩

theorem Outstanding_Allocate (chk : HeaderCheck) {p : Pool} {a : Nat} (h : p.Outstanding a)
    (size : Nat) :
    (p.Allocate chk size).2.Outstanding a ∧
    ∀ b, (p.Allocate chk size).1 = .ok b → b.addr ≠ a := by
  unfold Pool.Allocate
  cases hs : selectClass size p.sizes with
  | none =>
    refine ⟨h, ?_⟩
    intro b hb
    cases hb
  | some i =>
    dsimp only
    cases hf : (classAt p.classes i).freeList with
    | cons x rest =>
      dsimp only
      obtain ⟨h1, h2⟩ := Outstanding_popFree h i x rest hf
      refine ⟨h1, ?_⟩
      intro b hb
      simp only [Except.ok.injEq] at hb
      rw [← hb]
      exact h2
    | nil =>
      dsimp only
      split_ifs with hroom
      · obtain ⟨h1, h2⟩ := Outstanding_carve h i
        refine ⟨h1, ?_⟩
        intro b hb
        simp only [Except.ok.injEq] at hb
        rw [← hb]
        exact h2
      · refine ⟨h, ?_⟩
        intro b hb
        cases hb

theorem Outstanding_Free (chk : HeaderCheck) {p : Pool} {a : Nat} (h : p.Outstanding a)
    (b : Block) (hb : b.addr = a → b.check ≠ chk b.poolId b.classIdx b.addr) :
    (p.Free chk b).2.Outstanding a := by
  unfold Pool.Free
  split_ifs with hc
  · exact Outstanding_pushFree h _ _ (fun e => hb e hc)
  · exact h

theorem Outstanding_run (chk : HeaderCheck) (a : Nat) : ∀ (ops : List PoolOp) (p : Pool),
    p.Outstanding a →
    (∀ b, PoolOp.free b ∈ ops → b.addr = a → b.check ≠ chk b.poolId b.classIdx b.addr) →
    (p.run chk ops).Outstanding a
  | [], _, h, _ => h
  | op :: ops, p, h, hops => by
    have hstep : (p.step chk op).Outstanding a := by
      cases op with
      | alloc size => exact (Outstanding_Allocate chk h size).1
      | free b => exact Outstanding_Free chk h b (hops b (List.mem_cons_self _ _))
    exact Outstanding_run chk a ops (p.step chk op) hstep
      (fun b hb => hops b (List.mem_cons_of_mem _ hb))

theorem Allocate_countCheckError (chk : HeaderCheck) (p : Pool) (size : Nat) :
    (p.countCheckError.Allocate chk size).1 = (p.Allocate chk size).1 := by
  unfold Pool.Allocate
  have hs : p.countCheckError.sizes = p.sizes := rfl
  have hc : p.countCheckError.classes = p.classes := rfl
  rw [hs, hc]
  cases selectClass size p.sizes with
  | none => rfl
  | some i =>
    dsimp only
    cases (classAt p.classes i).freeList with
    | cons x rest => rfl
    | nil =>
      dsimp only
      have hb : p.countCheckError.bump = p.bump := rfl
      have hp : p.countCheckError.poolSize = p.poolSize := rfl
      rw [hb, hp]
      split_ifs <;> rfl

/-- C13: for every pool and every block whose header check value does not
match when it is freed, `Free` returns `CorruptionDetected`, the pool's
check-error counter (`CheckErrCtr` of the statistics) goes up by one, and the
classes with their free lists, created and free counts are left as they were,
as is the bump offset, so that a later allocation returns what it would have
returned without the call.  If the block was outstanding (carved and in no
free list), then after any further operations in which it is not freed with
a matching header, no allocation returns it. -/
theorem C13_corrupt_block_rejected (chk : HeaderCheck) (p : Pool) (b : Block)
    (hbad : b.check ≠ chk b.poolId b.classIdx b.addr) :
    (p.Free chk b).1 = .CorruptionDetected ∧
    (p.Free chk b).2.checkErrCtr = p.checkErrCtr + 1 ∧
    (p.Free chk b).2.GetStats.CheckErrCtr = p.GetStats.CheckErrCtr + 1 ∧
    (p.Free chk b).2.classes = p.classes ∧
    (p.Free chk b).2.GetStats.BlockStats = p.GetStats.BlockStats ∧
    (p.Free chk b).2.bump = p.bump ∧
    (∀ size : Nat, ((p.Free chk b).2.Allocate chk size).1 = (p.Allocate chk size).1) ∧
    (p.Outstanding b.addr → ∀ ops : List PoolOp,
      (∀ b2, PoolOp.free b2 ∈ ops → b2.addr = b.addr →
        b2.check ≠ chk b2.poolId b2.classIdx b2.addr) →
      ∀ (size : Nat) (b3 : Block),
        (((p.Free chk b).2.run chk ops).Allocate chk size).1 = .ok b3 → b3.addr ≠ b.addr) := by
  rw [Free_corrupt chk p b hbad]
  refine ⟨rfl, rfl, rfl, rfl, rfl, rfl, Allocate_countCheckError chk p, ?_⟩
  intro hout ops hops size b3 h3
  have h1 : p.countCheckError.Outstanding b.addr := hout
  have h2 := Outstanding_run chk b.addr ops p.countCheckError h1 hops
  exact (Outstanding_Allocate chk h2 size).2 b3 h3

/-- Witness of C13: in the example pool after the block at offset 180 was
carved, that block comes back with its check value overwritten by 0. -/
theorem C13_corrupt_block_rejected_witness :
    (0 : Nat) ≠ exampleCheck 0x05010000 1 180 ∧
    ((examplePool.carve 1).Free exampleCheck (Block.mk 180 0x05010000 1 0)).1
      = .CorruptionDetected ∧
    ((examplePool.carve 1).Free exampleCheck (Block.mk 180 0x05010000 1 0)).2.checkErrCtr
      = 1 :=
  ⟨by decide,
   (C13_corrupt_block_rejected exampleCheck (examplePool.carve 1)
      (Block.mk 180 0x05010000 1 0) (by decide)).1,
   (C13_corrupt_block_rejected exampleCheck (examplePool.carve 1)
      (Block.mk 180 0x05010000 1 0) (by decide)).2.1⟩

theorem poolBlockSizes_length (defaults : Nat → Nat) (n : Nat) (bs : Option (Nat → Nat)) :
    (poolBlockSizes defaults n bs).length ≤ 17 := by
  unfold poolBlockSizes CFE_ES_DEFAULT_MEMPOOL_BLOCK_SIZES
  cases bs with
  | none => simp
  | some f =>
    dsimp only
    split_ifs with h
    · simp
    · simp only [List.length_map, List.length_range]
      omega

theorem PoolCreateEx_ok {defaults : Nat → Nat} {r : Registry} {MemPtr Size n : Nat}
    {bs : Option (Nat → Nat)} {um : Nat} {h : CFE_ES_MemHandle_t} {pool : Pool}
    {r2 : Registry}
    (hok : CFE_ES_PoolCreateEx defaults r MemPtr Size n bs um = .ok (h, pool, r2)) :
    MemPtr % 4 = 0 ∧ Size % 4 = 0 ∧ r.Allocate .pool = some (h, r2) ∧ pool.poolId = h ∧
    pool.sizes = poolBlockSizes defaults n bs ∧ pool.poolSize = Size ∧
    pool.bump = POOL_BOOKKEEPING_BYTES ∧
    (∀ c ∈ pool.classes, c.numCreated = 0 ∧ c.freeList = []) := by
  unfold CFE_ES_PoolCreateEx at hok
  split_ifs at hok with hal
  have hal2 : MemPtr % 4 = 0 ∧ Size % 4 = 0 := by
    dsimp only [CFE_ES_MemOffset_t] at hal
    omega
  cases hA : r.Allocate .pool with
  | none => simp [hA] at hok
  | some pr =>
    obtain ⟨id, r3⟩ := pr
    simp only [hA, Except.ok.injEq, Prod.mk.injEq] at hok
    obtain ⟨h1, h2, h3⟩ := hok
    subst h1 h2 h3
    refine ⟨hal2.1, hal2.2, rfl, rfl, ?_, rfl, rfl, ?_⟩
    · unfold Pool.sizes
      simp only [List.map_map]
      exact List.map_id _
    · intro c hc
      obtain ⟨s, -, rfl⟩ := List.mem_map.1 hc
      exact ⟨rfl, rfl⟩

theorem classes_length_eq_sizes (p : Pool) : p.classes.length = p.sizes.length := by
  unfold Pool.sizes
  simp

/-- C14: `CFE_ES_PoolCreateEx` succeeds on an aligned buffer of a whole
number of words when the registry has a free pool slot; the pool it creates
has the default block sizes whenever `NumBlockSizes` is zero, `NumBlockSizes`
is greater than 17, or `BlockSizes` is NULL, and in every other case the
`NumBlockSizes` sizes the caller supplied; so the pool has at most 17 size
classes, and keeps that number through every sequence of operations. -/
theorem C14_PoolCreateEx_block_sizes (defaults : Nat → CFE_ES_MemOffset_t) (r : Registry)
    (MemPtr : Nat) (Size : CFE_ES_MemOffset_t) (NumBlockSizes : Nat)
    (BlockSizes : Option (Nat → CFE_ES_MemOffset_t)) (UseMutex : Nat) :
    (MemPtr % 4 = 0 → Size % 4 = 0 → (r.Allocate .pool).isSome = true →
      ∃ h pool r2, CFE_ES_PoolCreateEx defaults r MemPtr Size NumBlockSizes BlockSizes UseMutex
        = .ok (h, pool, r2)) ∧
    (∀ (h : CFE_ES_MemHandle_t) (pool : Pool) (r2 : Registry),
      CFE_ES_PoolCreateEx defaults r MemPtr Size NumBlockSizes BlockSizes UseMutex
        = .ok (h, pool, r2) →
      ((NumBlockSizes = 0 ∨ CFE_ES_DEFAULT_MEMPOOL_BLOCK_SIZES < NumBlockSizes ∨
          BlockSizes = none) →
        pool.sizes = (List.range CFE_ES_DEFAULT_MEMPOOL_BLOCK_SIZES).map defaults) ∧
      (¬ (NumBlockSizes = 0 ∨ CFE_ES_DEFAULT_MEMPOOL_BLOCK_SIZES < NumBlockSizes ∨
          BlockSizes = none) →
        ∃ sizes, BlockSizes = some sizes ∧
          pool.sizes = (List.range NumBlockSizes).map sizes) ∧
      pool.classes.length ≤ CFE_ES_DEFAULT_MEMPOOL_BLOCK_SIZES ∧
      (∀ (chk : HeaderCheck) (ops : List PoolOp),
        (pool.run chk ops).classes.length ≤ CFE_ES_DEFAULT_MEMPOOL_BLOCK_SIZES)) := by
  constructor
  · intro h1 h2 h3
    unfold CFE_ES_PoolCreateEx
    have hal : ¬ (MemPtr % 4 ≠ 0 ∨ Size % 4 ≠ 0) := by
      dsimp only [CFE_ES_MemOffset_t] at h2 ⊢
      omega
    rw [if_neg hal]
    cases hA : r.Allocate .pool with
    | none => rw [hA] at h3; cases h3
    | some pr =>
      obtain ⟨id, r3⟩ := pr
      exact ⟨_, _, _, rfl⟩
  · intro h pool r2 hok
    obtain ⟨-, -, -, -, hsz, -, -, -⟩ := PoolCreateEx_ok hok
    have hlen : pool.classes.length ≤ CFE_ES_DEFAULT_MEMPOOL_BLOCK_SIZES := by
      rw [classes_length_eq_sizes, hsz]
      exact poolBlockSizes_length defaults NumBlockSizes BlockSizes
    refine ⟨?_, ?_, hlen, ?_⟩
    · intro hd
      rw [hsz]
      unfold poolBlockSizes
      cases BlockSizes with
      | none => rfl
      | some f =>
        dsimp only
        rcases hd with h0 | h17 | hn
        · rw [if_pos (Or.inl h0)]
        · rw [if_pos (Or.inr h17)]
        · cases hn
    · intro hd
      cases hb : BlockSizes with
      | none => exact absurd (Or.inr (Or.inr hb)) hd
      | some f =>
        refine ⟨f, rfl, ?_⟩
        rw [hsz, hb]
        unfold poolBlockSizes
        dsimp only
        rw [if_neg]
        intro hc
        rcases hc with h0 | h17
        · exact hd (Or.inl h0)
        · exact hd (Or.inr (Or.inl h17))
    · intro chk ops
      rw [classes_length_eq_sizes, (run_frame chk ops pool).1, ← classes_length_eq_sizes]
      exact hlen

/-- Witness of C14: with 18 sizes supplied the 17 default sizes are used, and
with the three sizes 16, 32 and 64 supplied the pool has those three classes. -/
theorem C14_PoolCreateEx_block_sizes_witness :
    (∃ h pool r2, CFE_ES_PoolCreateEx (fun i => 8 * (i + 1)) (Registry.init (fun _ => 2))
        4096 1024 18 (some (fun i => 16 * 2 ^ i)) CFE_ES_USE_MUTEX = .ok (h, pool, r2) ∧
      pool.sizes = (List.range 17).map (fun i => 8 * (i + 1))) ∧
    (∃ h pool r2, CFE_ES_PoolCreateEx (fun i => 8 * (i + 1)) (Registry.init (fun _ => 2))
        4096 1024 3 (some (fun i => 16 * 2 ^ i)) CFE_ES_USE_MUTEX = .ok (h, pool, r2) ∧
      pool.sizes = [16, 32, 64]) :=
  ⟨⟨_, _, _, rfl,
     ((C14_PoolCreateEx_block_sizes (fun i => 8 * (i + 1)) (Registry.init (fun _ => 2))
        4096 1024 18 (some (fun i => 16 * 2 ^ i)) CFE_ES_USE_MUTEX).2 _ _ _ rfl).1
       (Or.inr (Or.inl (by decide)))⟩,
   ⟨_, _, _, rfl, rfl⟩⟩

/-!
## Theorems: critical data store
-/

theorem crc16Step_xor (a b : Nat) : crc16Step (a ^^^ b) = crc16Step a ^^^ crc16Step b := by
  unfold crc16Step
  rw [Nat.xor_div_two]
  have hm := @Nat.xor_mod_two_eq a b
  by_cases ha : a % 2 = 1 <;> by_cases hb : b % 2 = 1
  · have hx : ¬ (a ^^^ b) % 2 = 1 := by omega
    rw [if_pos ha, if_pos hb, if_neg hx]
    rw [Nat.xor_assoc, Nat.xor_comm 40961, Nat.xor_cancel_right]
  · have hx : (a ^^^ b) % 2 = 1 := by omega
    rw [if_pos ha, if_neg hb, if_pos hx]
    rw [Nat.xor_assoc, Nat.xor_comm (b / 2), ← Nat.xor_assoc]
  · have hx : (a ^^^ b) % 2 = 1 := by omega
    rw [if_neg ha, if_pos hb, if_pos hx]
    rw [Nat.xor_assoc]
  · have hx : ¬ (a ^^^ b) % 2 = 1 := by omega
    rw [if_neg ha, if_neg hb, if_neg hx]

theorem crc16Step_lt {c : Nat} (h : c < 65536) : crc16Step c < 65536 := by
  unfold crc16Step
  have h2 : c / 2 < 2 ^ 16 := by omega
  split_ifs
  · exact Nat.xor_lt_two_pow h2 (by norm_num)
  · omega

theorem crc16Step_eq_zero {c : Nat} (h : c < 65536) (h0 : crc16Step c = 0) : c = 0 := by
  unfold crc16Step at h0
  split_ifs at h0 with hodd
  · have he : c / 2 = 40961 := Nat.xor_eq_zero.1 h0
    omega
  · omega

theorem crc16Step_iterate_xor (n : Nat) (a b : Nat) :
    crc16Step^[n] (a ^^^ b) = crc16Step^[n] a ^^^ crc16Step^[n] b := by
  induction n generalizing a b with
  | zero => rfl
  | succ m ih =>
    simp only [Function.iterate_succ, Function.comp_apply]
    rw [crc16Step_xor, ih]

theorem crc16Step_iterate_lt (n : Nat) {c : Nat} (h : c < 65536) :
    crc16Step^[n] c < 65536 := by
  induction n generalizing c with
  | zero => exact h
  | succ m ih =>
    simp only [Function.iterate_succ, Function.comp_apply]
    exact ih (crc16Step_lt h)

theorem crc16Step_iterate_eq_zero (n : Nat) {c : Nat} (h : c < 65536)
    (h0 : crc16Step^[n] c = 0) : c = 0 := by
  induction n generalizing c with
  | zero => exact h0
  | succ m ih =>
    simp only [Function.iterate_succ, Function.comp_apply] at h0
    exact crc16Step_eq_zero h (ih (crc16Step_lt h) h0)

theorem crc16Step_iterate_injective (n : Nat) {x y : Nat} (hx : x < 65536) (hy : y < 65536)
    (h : crc16Step^[n] x = crc16Step^[n] y) : x = y := by
  have hxy : x ^^^ y < 65536 := Nat.xor_lt_two_pow (n := 16) hx hy
  have h0 : crc16Step^[n] (x ^^^ y) = 0 := by
    rw [crc16Step_iterate_xor, h]
    exact Nat.xor_self _
  exact Nat.xor_eq_zero.1 (crc16Step_iterate_eq_zero n hxy h0)

theorem byte_lt (b : Nat) : b % 256 < 65536 := by omega

theorem crc16Byte_lt {c : Nat} (h : c < 65536) (b : Nat) : crc16Byte c b < 65536 := by
  unfold crc16Byte
  exact crc16Step_iterate_lt 8 (Nat.xor_lt_two_pow (n := 16) h (byte_lt b))

theorem crc16Byte_state_injective {c1 c2 : Nat} (h1 : c1 < 65536) (h2 : c2 < 65536)
    (b : Nat) (h : crc16Byte c1 b = crc16Byte c2 b) : c1 = c2 := by
  unfold crc16Byte at h
  have hx := crc16Step_iterate_injective 8
    (Nat.xor_lt_two_pow (n := 16) h1 (byte_lt b))
    (Nat.xor_lt_two_pow (n := 16) h2 (byte_lt b)) h
  exact Nat.xor_left_inj.1 hx

theorem flipped_byte_ne (b k : Nat) (hk : k < 8) : (b ^^^ 2 ^ k) % 256 ≠ b % 256 := by
  intro h
  have h2 := congrArg (fun x => Nat.testBit x k) h
  have e : (256 : Nat) = 2 ^ 8 := by norm_num
  simp only [e, Nat.testBit_mod_two_pow, Nat.testBit_xor, Nat.testBit_two_pow_self, hk,
    decide_True, Bool.true_and, Bool.xor_true] at h2
  cases hb : b.testBit k <;> simp [hb] at h2

theorem crc16Byte_flip {c : Nat} (h : c < 65536) (b k : Nat) (hk : k < 8) :
    crc16Byte c (b ^^^ 2 ^ k) ≠ crc16Byte c b := by
  intro he
  unfold crc16Byte at he
  have hx := crc16Step_iterate_injective 8
    (Nat.xor_lt_two_pow (n := 16) h (byte_lt _))
    (Nat.xor_lt_two_pow (n := 16) h (byte_lt _)) he
  exact flipped_byte_ne b k hk (Nat.xor_right_inj.1 hx)

theorem crc16_foldl_lt : ∀ (d : List Nat) {c : Nat}, c < 65536 →
    d.foldl crc16Byte c < 65536
  | [], _, h => h
  | b :: rest, _, h => crc16_foldl_lt rest (crc16Byte_lt h b)

theorem crc16_foldl_injective : ∀ (d : List Nat) {c1 c2 : Nat}, c1 < 65536 → c2 < 65536 →
    d.foldl crc16Byte c1 = d.foldl crc16Byte c2 → c1 = c2
  | [], _, _, _, _, h => h
  | b :: rest, _, _, h1, h2, h =>
    crc16Byte_state_injective h1 h2 b
      (crc16_foldl_injective rest (crc16Byte_lt h1 b) (crc16Byte_lt h2 b) h)

theorem crc16_foldl_flip (k : Nat) (hk : k < 8) : ∀ (d : List Nat) (j : Nat) {c : Nat},
    c < 65536 → j < d.length →
    (flipBit d j k).foldl crc16Byte c ≠ d.foldl crc16Byte c
  | [], _, _, _, hj => by simp at hj
  | b :: rest, 0, c, hc, _ => by
    intro h
    have h2 : ((b ^^^ 2 ^ k) :: rest).foldl crc16Byte c = (b :: rest).foldl crc16Byte c := h
    simp only [List.foldl_cons] at h2
    exact crc16Byte_flip hc b k hk
      (crc16_foldl_injective rest (crc16Byte_lt hc _) (crc16Byte_lt hc _) h2)
  | b :: rest, j + 1, c, hc, hj => by
    intro h
    have h2 : (b :: flipBit rest j k).foldl crc16Byte c = (b :: rest).foldl crc16Byte c := h
    simp only [List.foldl_cons] at h2
    exact crc16_foldl_flip k hk rest j (crc16Byte_lt hc b)
      (by simpa using hj) h2

theorem crc16_detects : DetectsSingleBitFlips crc16 := by
  intro d j k hj hk
  exact crc16_foldl_flip k hk d j (by norm_num) hj

theorem flipBit_length (d : List Nat) (j k : Nat) : (flipBit d j k).length = d.length := by
  unfold flipBit
  simp

theorem setEntry_same (entries : Nat → CDSEntry) (i : Nat) (e : CDSEntry) :
    setEntry entries i e i = e := by
  simp [setEntry]

theorem setEntry_other (entries : Nat → CDSEntry) {i j : Nat} (e : CDSEntry) (h : j ≠ i) :
    setEntry entries i e j = entries j := by
  simp [setEntry, h]

theorem Save_ok (crc : IntegrityCode) (s : CDS) (h : CFE_ES_CDSHandle_t) (i : Nat)
    (d : List Nat) (hv : s.reg.ToIndex h .cds = some i) (hlen : d.length = (s.entries i).size) :
    s.Save crc h d = (.Success,
      { s with
        entries := setEntry s.entries i
          { s.entries i with payload := d, code := crc d } }) := by
  unfold CDS.Save
  simp only [hv, hlen, if_true]

/-- C15: for every handle of a registered CDS block and every data of the
registered size, `Save` succeeds and a following `Restore` succeeds and
copies out exactly the data saved. -/
theorem C15_save_restore_roundtrip (crc : IntegrityCode) (s : CDS) (h : CFE_ES_CDSHandle_t)
    (i : Nat) (hv : s.reg.ToIndex h .cds = some i) (d : List Nat)
    (hlen : d.length = (s.entries i).size) :
    (s.Save crc h d).1 = .Success ∧
    (s.Save crc h d).2.Restore crc h = (.Success, some d) := by
  rw [Save_ok crc s h i d hv hlen]
  refine ⟨rfl, ?_⟩
  unfold CDS.Restore
  simp only [hv, setEntry_same, if_true]

/-- Witness of C15: in the example store, "App.Blk" is registered with size 8
and gets the handle `0x06010000`; saving the bytes 1 to 8 and restoring gives
them back with success. -/
theorem C15_save_restore_roundtrip_witness :
    (exampleCDS.Register crc16 "App.Blk" 8).1 = .ok 0x06010000 ∧
    (exampleCDS.Register crc16 "App.Blk" 8).2.reg.ToIndex 0x06010000 .cds = some 0 ∧
    (((exampleCDS.Register crc16 "App.Blk" 8).2.Save crc16 0x06010000
        [1, 2, 3, 4, 5, 6, 7, 8]).2.Restore crc16 0x06010000)
      = (.Success, some [1, 2, 3, 4, 5, 6, 7, 8]) :=
  ⟨rfl, by decide,
   (C15_save_restore_roundtrip crc16 (exampleCDS.Register crc16 "App.Blk" 8).2 0x06010000 0
      (by decide) [1, 2, 3, 4, 5, 6, 7, 8] (by decide)).2⟩

theorem bit_flip_detected (crc : IntegrityCode) (hdet : DetectsSingleBitFlips crc)
    (s : CDS) (h : CFE_ES_CDSHandle_t) (i : Nat) (hv : s.reg.ToIndex h .cds = some i)
    (d : List Nat) (hlen : d.length = (s.entries i).size)
    (j k : Nat) (hj : j < d.length) (hk : k < 8) :
    (s.Save crc h d).1 = .Success ∧
    ((s.Save crc h d).2.flipStoredBit i j k).Restore crc h
      = (.CorruptionDetected, some (flipBit d j k)) ∧
    flipBit d j k ≠ d := by
  rw [Save_ok crc s h i d hv hlen]
  have hne := hdet d j k hj hk
  refine ⟨rfl, ?_, ?_⟩
  · unfold CDS.Restore CDS.flipStoredBit
    simp only [hv, setEntry_same, if_neg hne]
  · intro e
    rw [e] at hne
    exact hne rfl

/-- C16: for every saved CDS block, flipping any one bit of the stored
payload makes the next `Restore` return the integrity error
(`CorruptionDetected`, that is `IntegrityCheckFailed`), while what is copied
into the caller's buffer is the stored payload with that bit flipped, of the
same length as the data saved and different from it.  This holds for every
integrity code that detects single-bit flips, and the CRC-16 is one. -/
theorem C16_bit_flip_detected (s : CDS) (h : CFE_ES_CDSHandle_t) (i : Nat)
    (hv : s.reg.ToIndex h .cds = some i) (d : List Nat)
    (hlen : d.length = (s.entries i).size) (j k : Nat) (hj : j < d.length) (hk : k < 8) :
    (∀ crc : IntegrityCode, DetectsSingleBitFlips crc →
      (s.Save crc h d).1 = .Success ∧
      ((s.Save crc h d).2.flipStoredBit i j k).Restore crc h
        = (.CorruptionDetected, some (flipBit d j k))) ∧
    DetectsSingleBitFlips crc16 ∧
    (s.Save crc16 h d).1 = .Success ∧
    ((s.Save crc16 h d).2.flipStoredBit i j k).Restore crc16 h
      = (.CorruptionDetected, some (flipBit d j k)) ∧
    flipBit d j k ≠ d ∧ (flipBit d j k).length = d.length := by
  have h16 := bit_flip_detected crc16 crc16_detects s h i hv d hlen j k hj hk
  refine ⟨?_, crc16_detects, h16.1, h16.2.1, h16.2.2, flipBit_length d j k⟩
  intro crc hdet
  have hc := bit_flip_detected crc hdet s h i hv d hlen j k hj hk
  exact ⟨hc.1, hc.2.1⟩

/-- Witness of C16 with the CRC-16 as integrity code: after the bytes 1 to 8
are saved in "App.Blk", bit 2 of the fourth stored byte is flipped. -/
theorem C16_bit_flip_detected_witness :
    (exampleCDS.Register crc16 "App.Blk" 8).2.reg.ToIndex 0x06010000 .cds = some 0 ∧
    (((exampleCDS.Register crc16 "App.Blk" 8).2.Save crc16 0x06010000
        [1, 2, 3, 4, 5, 6, 7, 8]).2.flipStoredBit 0 3 2).Restore crc16 0x06010000
      = (.CorruptionDetected, some (flipBit [1, 2, 3, 4, 5, 6, 7, 8] 3 2)) ∧
    flipBit [1, 2, 3, 4, 5, 6, 7, 8] 3 2 = [1, 2, 3, 0, 5, 6, 7, 8] :=
  ⟨by decide,
   (C16_bit_flip_detected (exampleCDS.Register crc16 "App.Blk" 8).2
      0x06010000 0 (by decide) [1, 2, 3, 4, 5, 6, 7, 8] (by decide) 3 2 (by decide)
      (by decide)).2.2.2.1,
   by decide⟩

theorem find?_congr {p q : Nat → Bool} : ∀ {l : List Nat}, (∀ x ∈ l, p x = q x) →
    l.find? p = l.find? q
  | [], _ => rfl
  | x :: xs, h => by
    have hx : p x = q x := h x (List.mem_cons_self _ _)
    have ih : xs.find? p = xs.find? q :=
      find?_congr (fun y hy => h y (List.mem_cons_of_mem _ hy))
    simp only [List.find?_cons, hx, ih]

theorem find?_unique {p : Nat → Bool} {x : Nat} : ∀ {l : List Nat}, x ∈ l → p x = true →
    (∀ y ∈ l, y ≠ x → p y = false) → l.find? p = some x
  | [], hx, _, _ => by simp at hx
  | y :: ys, hx, hp, hu => by
    by_cases hy : y = x
    · subst hy
      simp only [List.find?_cons, hp]
    · have hpy : p y = false := hu y (List.mem_cons_self _ _) hy
      have hx2 : x ∈ ys := by
        rcases List.mem_cons.1 hx with h | h
        · exact absurd h.symm hy
        · exact h
      simp only [List.find?_cons, hpy]
      exact find?_unique hx2 hp (fun z hz => hu z (List.mem_cons_of_mem _ hz))

theorem findSlot_some {s : CDS} {name : String} {i : Nat} (h : s.findSlot name = some i) :
    i < (s.reg .cds).length ∧ s.holdsName name i = true := by
  unfold CDS.findSlot at h
  have h1 := List.mem_of_find?_eq_some h
  have h2 := List.find?_some h
  exact ⟨List.mem_range.1 h1, h2⟩

theorem findSlot_none {s : CDS} {name : String} (h : s.findSlot name = none) (j : Nat)
    (hj : j < (s.reg .cds).length) : s.holdsName name j = false := by
  unfold CDS.findSlot at h
  have := List.find?_eq_none.1 h j (List.mem_range.2 hj)
  simpa using this

theorem holdsName_iff {s : CDS} {name : String} {i : Nat} :
    s.holdsName name i = true ↔
      ((s.reg .cds).getD i (Slot.mk false 0)).occupied = true ∧ (s.entries i).name = name := by
  unfold CDS.holdsName
  simp

theorem Register_of_Registered (crc : IntegrityCode) {s : CDS} {name : String}
    {h : CFE_ES_CDSHandle_t} {size : Nat} (hr : s.Registered name h size) :
    s.Register crc name size = (.ok h, s) ∧
    ∀ size2, size2 ≠ size → s.Register crc name size2 = (.error .NameConflict, s) := by
  obtain ⟨i, hf, hh, hs, hl⟩ := hr
  have hl2 : ¬ s.maxNameLen < name.length := by omega
  constructor
  · unfold CDS.Register
    simp only [if_neg hl2, hf, hs, if_true, hh]
  · intro size2 hne
    unfold CDS.Register
    have hne2 : ¬ (s.entries i).size = size2 := by
      rw [hs]; exact fun e => hne e.symm
    simp only [if_neg hl2, hf, if_neg hne2]

theorem getD_set_same (l : List Slot) (i : Nat) (x d : Slot) (h : i < l.length) :
    (l.set i x).getD i d = x := by
  rw [List.getD_eq_getElem?_getD]
  simp [h]

theorem getD_set_other (l : List Slot) {i j : Nat} (x d : Slot) (h : j ≠ i) :
    (l.set i x).getD j d = l.getD j d := by
  rw [List.getD_eq_getElem?_getD, List.getD_eq_getElem?_getD,
    List.getElem?_set_ne (Ne.symm h)]

theorem getD_of_getElem? {l : List Slot} {i : Nat} {x : Slot} (d : Slot)
    (h : l[i]? = some x) : l.getD i d = x := by
  rw [List.getD_eq_getElem?_getD, h]; rfl

theorem register_new_facts {s : CDS} (hwf : s.WF) {h : CFE_ES_CDSHandle_t} {r2 : Registry}
    (hA : s.reg.Allocate .cds = some (h, r2)) (e : CDSEntry) :
    ({ s with reg := r2, entries := setEntry s.entries (idxOf h) e } : CDS).WF ∧
    idxOf h < (s.reg .cds).length ∧
    ((s.reg .cds).getD (idxOf h) (Slot.mk false 0)).occupied = false ∧
    (r2 .cds).length = (s.reg .cds).length ∧
    (∀ j, j ≠ idxOf h →
      (r2 .cds).getD j (Slot.mk false 0) = (s.reg .cds).getD j (Slot.mk false 0)) ∧
    (r2 .cds).getD (idxOf h) (Slot.mk false 0) = Slot.mk true (genOf h) ∧
    packID Kind.cds.tag (genOf h) (idxOf h) = h ∧
    r2.Validate h .cds = true := by
  obtain ⟨sl, hsl, hocc, htag, hgen, hlt, hr2⟩ := Allocate_fields hwf.1 hA
  have hi : idxOf h < (s.reg .cds).length := by
    rcases List.getElem?_eq_some.1 hsl with ⟨hh, -⟩
    exact hh
  have hcds : r2 .cds = (s.reg .cds).set (idxOf h) (Slot.mk true (genOf h)) := by
    rw [hr2, setTable_same]
  have hlen : ∀ k, (r2 k).length = (s.reg k).length := Allocate_length hA
  refine ⟨⟨WF_of_length hwf.1 hlen, ?_⟩, hi, ?_, hlen .cds, ?_, ?_, ?_,
    (Validate_after_Allocate_new hwf.1 hA).2⟩
  · intro x hx
    have hx2 : x ∈ (s.reg .cds).set (idxOf h) (Slot.mk true (genOf h)) := by
      rw [← hcds]; exact hx
    rcases List.mem_or_eq_of_mem_set hx2 with hm | he
    · exact hwf.2 x hm
    · rw [he]
      exact genOf_lt h
  · rw [getD_of_getElem? _ hsl]; exact hocc
  · intro j hj
    rw [hcds]
    exact getD_set_other _ _ _ hj
  · rw [hcds]
    exact getD_set_same _ _ _ _ hi
  · rw [← htag]
    exact packID_fields h hlt

theorem Registered_of_same_names {s s2 : CDS} (hreg : s2.reg = s.reg)
    (hmax : s2.maxNameLen = s.maxNameLen)
    (hent : ∀ j, (s2.entries j).name = (s.entries j).name ∧
      (s2.entries j).size = (s.entries j).size)
    {name : String} {h : CFE_ES_CDSHandle_t} {size : Nat} (hr : s.Registered name h size) :
    s2.Registered name h size := by
  obtain ⟨i, hf, hh, hs, hl⟩ := hr
  have hp : ∀ j, s2.holdsName name j = s.holdsName name j := by
    intro j
    unfold CDS.holdsName
    rw [hreg, (hent j).1]
  refine ⟨i, ?_, ?_, ?_, ?_⟩
  · unfold CDS.findSlot
    rw [hreg, find?_congr (fun x _ => hp x)]
    exact hf
  · unfold CDS.handleOf
    rw [hreg]
    exact hh
  · rw [(hent i).2]; exact hs
  · rw [hmax]; exact hl

theorem Save_same_names (crc : IntegrityCode) (s : CDS) (h : CFE_ES_CDSHandle_t)
    (d : List Nat) :
    (s.Save crc h d).2.reg = s.reg ∧ (s.Save crc h d).2.maxNameLen = s.maxNameLen ∧
    ∀ j, ((s.Save crc h d).2.entries j).name = (s.entries j).name ∧
      ((s.Save crc h d).2.entries j).size = (s.entries j).size := by
  unfold CDS.Save
  cases hv : s.reg.ToIndex h .cds with
  | none => exact ⟨rfl, rfl, fun _ => ⟨rfl, rfl⟩⟩
  | some i =>
    dsimp only
    split_ifs with hlen
    · refine ⟨rfl, rfl, ?_⟩
      intro j
      by_cases hj : j = i
      · subst hj
        dsimp only
        rw [setEntry_same]
        exact ⟨rfl, rfl⟩
      · dsimp only
        rw [setEntry_other _ _ hj]
        exact ⟨rfl, rfl⟩
    · exact ⟨rfl, rfl, fun _ => ⟨rfl, rfl⟩⟩

theorem flip_same_names (s : CDS) (i j k : Nat) :
    (s.flipStoredBit i j k).reg = s.reg ∧
    (s.flipStoredBit i j k).maxNameLen = s.maxNameLen ∧
    ∀ n, ((s.flipStoredBit i j k).entries n).name = (s.entries n).name ∧
      ((s.flipStoredBit i j k).entries n).size = (s.entries n).size := by
  unfold CDS.flipStoredBit
  refine ⟨rfl, rfl, ?_⟩
  intro n
  by_cases hn : n = i
  · subst hn
    dsimp only
    rw [setEntry_same]
    exact ⟨rfl, rfl⟩
  · dsimp only
    rw [setEntry_other _ _ hn]
    exact ⟨rfl, rfl⟩

theorem WF_of_same_reg {s s2 : CDS} (hreg : s2.reg = s.reg) (h : s.WF) : s2.WF := by
  unfold CDS.WF at h ⊢
  rw [hreg]
  exact h

theorem Register_cases (crc : IntegrityCode) (s : CDS) (name : String) (size : Nat) :
    ((s.Register crc name size).2 = s ∧
      ∀ h, (s.Register crc name size).1 = .ok h → s.Registered name h size) ∨
    (∃ h r2, name.length ≤ s.maxNameLen ∧ s.findSlot name = none ∧
      s.reg.Allocate .cds = some (h, r2) ∧
      s.Register crc name size = (.ok h,
        { s with
          reg := r2
          entries := setEntry s.entries (idxOf h)
            { name := name
              size := size
              payload := List.replicate size 0
              code := crc (List.replicate size 0) } })) := by
  unfold CDS.Register
  split_ifs with hl
  · left
    refine ⟨rfl, ?_⟩
    intro h hh
    cases hh
  · cases hf : s.findSlot name with
    | some i =>
      left
      dsimp only
      split_ifs with hs
      · refine ⟨rfl, ?_⟩
        intro h hh
        simp only [Except.ok.injEq] at hh
        exact ⟨i, hf, hh, hs, by omega⟩
      · refine ⟨rfl, ?_⟩
        intro h hh
        cases hh
    | none =>
      dsimp only
      cases hA : s.reg.Allocate .cds with
      | none =>
        left
        refine ⟨rfl, ?_⟩
        intro h hh
        cases hh
      | some pr =>
        obtain ⟨h, r2⟩ := pr
        right
        exact ⟨h, r2, by omega, rfl, rfl, rfl⟩

theorem register_new_Registered {s : CDS} (hwf : s.WF) {name : String} {size : Nat}
    {h : CFE_ES_CDSHandle_t} {r2 : Registry} (hl : name.length ≤ s.maxNameLen)
    (hf : s.findSlot name = none) (hA : s.reg.Allocate .cds = some (h, r2))
    (payload : List Nat) (code : Nat) :
    ({ s with
       reg := r2
       entries := setEntry s.entries (idxOf h) (CDSEntry.mk name size payload code) }
      : CDS).Registered name h size := by
  obtain ⟨-, hi, -, hlen, hother, hself, hpack, -⟩ :=
    register_new_facts hwf hA (CDSEntry.mk name size payload code)
  refine ⟨idxOf h, ?_, ?_, ?_, hl⟩
  · unfold CDS.findSlot
    dsimp only
    apply find?_unique
    · rw [hlen]; exact List.mem_range.2 hi
    · apply holdsName_iff.2
      dsimp only
      rw [hself, setEntry_same]
      exact ⟨rfl, rfl⟩
    · intro y hy hne
      rw [hlen] at hy
      have hold := findSlot_none hf y (List.mem_range.1 hy)
      unfold CDS.holdsName at hold ⊢
      dsimp only
      rw [hother y hne, setEntry_other _ _ hne]
      exact hold
  · unfold CDS.handleOf
    dsimp only
    rw [hself]
    exact hpack
  · dsimp only
    rw [setEntry_same]

theorem register_new_keeps {s : CDS} (hwf : s.WF) {name : String}
    {h : CFE_ES_CDSHandle_t} {r2 : Registry}
    (hf : s.findSlot name = none) (hA : s.reg.Allocate .cds = some (h, r2))
    (e : CDSEntry) (he : e.name = name)
    {nm : String} {h0 : CFE_ES_CDSHandle_t} {sz : Nat} (hr : s.Registered nm h0 sz) :
    ({ s with reg := r2, entries := setEntry s.entries (idxOf h) e } : CDS).Registered
      nm h0 sz := by
  obtain ⟨-, hi, hfree, hlen, hother, hself, -, -⟩ := register_new_facts hwf hA e
  obtain ⟨i, hfi, hh, hs, hl⟩ := hr
  obtain ⟨hilt, hhold⟩ := findSlot_some hfi
  have hocc := (holdsName_iff.1 hhold).1
  have hne : i ≠ idxOf h := by
    intro e2
    rw [e2, hfree] at hocc
    cases hocc
  have hnm : name ≠ nm := by
    intro e2
    rw [e2, hfi] at hf
    cases hf
  refine ⟨i, ?_, ?_, ?_, hl⟩
  · unfold CDS.findSlot
    dsimp only
    rw [hlen]
    rw [find?_congr (q := s.holdsName nm)]
    · exact hfi
    · intro y _
      unfold CDS.holdsName
      dsimp only
      by_cases hy : y = idxOf h
      · subst hy
        rw [hself, setEntry_same, hfree, he]
        simp [hnm]
      · rw [hother y hy, setEntry_other _ _ hy]
  · unfold CDS.handleOf
    dsimp only
    rw [hother i hne]
    exact hh
  · dsimp only
    rw [setEntry_other _ _ hne]
    exact hs

theorem step_keeps (crc : IntegrityCode) {s : CDS} (hwf : s.WF) (op : CDSOp)
    {nm : String} {h0 : CFE_ES_CDSHandle_t} {sz : Nat} (hr : s.Registered nm h0 sz) :
    (s.step crc op).WF ∧ (s.step crc op).Registered nm h0 sz := by
  cases op with
  | register name size =>
    show (s.Register crc name size).2.WF ∧ (s.Register crc name size).2.Registered nm h0 sz
    rcases Register_cases crc s name size with ⟨hsame, -⟩ | ⟨h, r2, -, hf, hA, heq⟩
    · rw [hsame]; exact ⟨hwf, hr⟩
    · rw [heq]
      exact ⟨(register_new_facts hwf hA _).1, register_new_keeps hwf hf hA _ rfl hr⟩
  | save h d =>
    obtain ⟨h1, h2, h3⟩ := Save_same_names crc s h d
    exact ⟨WF_of_same_reg h1 hwf, Registered_of_same_names h1 h2 h3 hr⟩
  | flip i j k =>
    obtain ⟨h1, h2, h3⟩ := flip_same_names s i j k
    exact ⟨WF_of_same_reg h1 hwf, Registered_of_same_names h1 h2 h3 hr⟩

theorem run_keeps (crc : IntegrityCode) : ∀ (ops : List CDSOp) {s : CDS}, s.WF →
    ∀ {nm : String} {h0 : CFE_ES_CDSHandle_t} {sz : Nat}, s.Registered nm h0 sz →
    (s.run crc ops).WF ∧ (s.run crc ops).Registered nm h0 sz
  | [], _, hwf, _, _, _, hr => ⟨hwf, hr⟩
  | op :: ops, s, hwf, _, _, _, hr => by
    obtain ⟨h1, h2⟩ := step_keeps crc hwf op hr
    exact run_keeps crc ops h1 h2

theorem Register_ok_Registered (crc : IntegrityCode) {s : CDS} (hwf : s.WF)
    {name : String} {size : Nat} {h : CFE_ES_CDSHandle_t} {s1 : CDS}
    (hR : s.Register crc name size = (.ok h, s1)) :
    s1.WF ∧ s1.Registered name h size := by
  rcases Register_cases crc s name size with ⟨hsame, hreg⟩ | ⟨h2, r2, hl, hf, hA, heq⟩
  · rw [hR] at hsame hreg
    dsimp only at hsame hreg
    rw [hsame]
    exact ⟨hwf, hreg h rfl⟩
  · rw [hR] at heq
    simp only [Prod.mk.injEq, Except.ok.injEq] at heq
    obtain ⟨e1, e2⟩ := heq
    subst e1
    rw [e2]
    exact ⟨(register_new_facts hwf hA _).1, register_new_Registered hwf hl hf hA _ _⟩

/-- C17: once a name has been registered with a size and a handle returned,
then after any further registrations, saves and bit flips, registering that
name with the same size returns the identical handle and leaves the whole
store, the stored payload included, as it is (a following `Restore` copies
out what it would have), whereas registering it with a different size fails
with the size-conflict error (`NameConflict`) and changes nothing. -/
theorem C17_register_idempotent (crc : IntegrityCode) (s0 : CDS) (hwf : s0.WF)
    (name : String) (size : Nat) (h : CFE_ES_CDSHandle_t) (s1 : CDS)
    (hR : s0.Register crc name size = (.ok h, s1)) (ops : List CDSOp) :
    (s1.run crc ops).Register crc name size = (.ok h, s1.run crc ops) ∧
    ((s1.run crc ops).Register crc name size).2.Restore crc h
      = (s1.run crc ops).Restore crc h ∧
    (∀ size2, size2 ≠ size →
      (s1.run crc ops).Register crc name size2 = (.error .NameConflict, s1.run crc ops)) := by
  obtain ⟨hwf1, hr1⟩ := Register_ok_Registered crc hwf hR
  obtain ⟨-, hr2⟩ := run_keeps crc ops hwf1 hr1
  obtain ⟨ha, hb⟩ := Register_of_Registered crc hr2
  refine ⟨ha, ?_, hb⟩
  rw [ha]

/-- Witness of C17: in the example store "App.Blk" is registered with size 8,
the bytes 1 to 8 are saved, and "App.Blk" is registered a second time with
size 8, then with size 9. -/
theorem C17_register_idempotent_witness :
    exampleCDS.WF ∧
    (exampleCDS.Register crc16 "App.Blk" 8).1 = .ok 0x06010000 ∧
    (((exampleCDS.Register crc16 "App.Blk" 8).2.run crc16
        [.save 0x06010000 [1, 2, 3, 4, 5, 6, 7, 8]]).Register crc16 "App.Blk" 8).1
      = .ok 0x06010000 ∧
    ((((exampleCDS.Register crc16 "App.Blk" 8).2.run crc16
        [.save 0x06010000 [1, 2, 3, 4, 5, 6, 7, 8]]).Register crc16 "App.Blk" 8).2.Restore
        crc16 0x06010000).2 = some [1, 2, 3, 4, 5, 6, 7, 8] ∧
    (((exampleCDS.Register crc16 "App.Blk" 8).2.run crc16
        [.save 0x06010000 [1, 2, 3, 4, 5, 6, 7, 8]]).Register crc16 "App.Blk" 9).1
      = .error .NameConflict :=
  have hc := C17_register_idempotent crc16 exampleCDS (by decide) "App.Blk" 8 0x06010000
    (exampleCDS.Register crc16 "App.Blk" 8).2 rfl [.save 0x06010000 [1, 2, 3, 4, 5, 6, 7, 8]]
  ⟨by decide, rfl, congrArg Prod.fst hc.1, (congrArg Prod.snd hc.2.1).trans rfl,
   congrArg Prod.fst (hc.2.2 9 (by decide))⟩

/-!
## Theorems: generic counters
-/

theorem setCounter_same (table : Nat → GenCounter) (i : Nat) (c : GenCounter) :
    setCounter table i c i = c := by
  simp [setCounter]

theorem Validate_of_ToIndex {r : Registry} {id : Nat} {k : Kind} {i : Nat}
    (h : r.ToIndex id k = some i) : r.Validate id k = true ∧ i = idxOf id := by
  unfold Registry.ToIndex at h
  split_ifs at h with hv
  simp only [Option.some.injEq] at h
  exact ⟨hv, h.symm⟩

theorem Release_of_valid {r : Registry} {id : Nat} {k : Kind}
    (hv : r.Validate id k = true) :
    ∃ r2, r.Release id = some r2 ∧ r2.Validate id k = false := by
  obtain ⟨ht, sl, hsl, -, hg⟩ := Validate_iff.1 hv
  have hk : kindOfTag (tagOf id) = some k := by rw [ht]; exact kindOfTag_tag k
  have hd : ((r k).getD (idxOf id) (Slot.mk false 0)) = sl := by
    rw [List.getD_eq_getElem?_getD, hsl]; rfl
  have hi : idxOf id < (r k).length := idxOf_lt_of_valid hv
  refine ⟨r.setTable k ((r k).set (idxOf id) (Slot.mk false sl.gen)), ?_, ?_⟩
  · unfold Registry.Release
    simp only [hk, hv, if_true, hd]
  · cases hv2 : (r.setTable k ((r k).set (idxOf id) (Slot.mk false sl.gen))).Validate id k with
    | false => rfl
    | true =>
      obtain ⟨-, s2, hs2, ho, -⟩ := Validate_iff.1 hv2
      rw [setTable_same] at hs2
      simp only [List.getElem?_set_self, hi, List.getElem?_eq_getElem, Option.some.injEq,
        List.getElem_set_self] at hs2
      rw [← hs2] at ho
      cases ho

/-- C18: for every live counter ID and every 32-bit value `v`,
`CFE_ES_SetGenCount` succeeds and a following `CFE_ES_GetGenCount` yields `v`;
`CFE_ES_IncrementGenCounter` succeeds and the value read afterwards is one
greater, modulo `2 ^ 32`, than the value read before; on an ID that is not a
live counter (one that fails validation, as does the ID of a counter just
deleted) each of the three operations returns `CFE_ES_BAD_ARGUMENT`
(`BadArgument`) and leaves the registry and every counter value as they were. -/
theorem C18_counter_set_get_increment (s : GenCounters) :
    (∀ (id : CFE_ES_ResourceID_t) (i : Nat), s.reg.ToIndex id .counter = some i →
      (∀ v : Nat, v < 2 ^ 32 →
        (CFE_ES_SetGenCount s id v).1 = .Success ∧
        CFE_ES_GetGenCount (CFE_ES_SetGenCount s id v).2 id = (.Success, some v)) ∧
      (CFE_ES_IncrementGenCounter s id).1 = .Success ∧
      (∃ c : Nat, CFE_ES_GetGenCount s id = (.Success, some c) ∧ c < 2 ^ 32 ∧
        CFE_ES_GetGenCount (CFE_ES_IncrementGenCounter s id).2 id
          = (.Success, some ((c + 1) % 2 ^ 32))) ∧
      (CFE_ES_DeleteGenCounter s id).1 = .Success ∧
      (CFE_ES_DeleteGenCounter s id).2.reg.Validate id .counter = false) ∧
    (∀ id : CFE_ES_ResourceID_t, s.reg.Validate id .counter = false →
      (∀ v : Nat, CFE_ES_SetGenCount s id v = (.BadArgument, s)) ∧
      CFE_ES_IncrementGenCounter s id = (.BadArgument, s) ∧
      CFE_ES_GetGenCount s id = (.BadArgument, none)) := by
  constructor
  · intro id i hv
    obtain ⟨hval, -⟩ := Validate_of_ToIndex hv
    refine ⟨?_, ?_, ?_, ?_⟩
    · intro v hv32
      unfold CFE_ES_SetGenCount CFE_ES_GetGenCount
      simp only [hv, setCounter_same, Nat.mod_mod, Nat.mod_eq_of_lt hv32, and_self]
    · unfold CFE_ES_IncrementGenCounter
      simp only [hv]
    · refine ⟨(s.table i).count % 2 ^ 32, ?_, Nat.mod_lt _ (by norm_num), ?_⟩
      · unfold CFE_ES_GetGenCount
        simp only [hv]
      · unfold CFE_ES_IncrementGenCounter CFE_ES_GetGenCount
        simp only [hv, setCounter_same, Nat.mod_mod]
        congr 2
        omega
    · obtain ⟨r2, hrel, hinv⟩ := Release_of_valid hval
      unfold CFE_ES_DeleteGenCounter
      simp only [hv, hrel]
      exact ⟨trivial, hinv⟩
  · intro id hinv
    have hn := ToIndex_of_invalid hinv
    refine ⟨?_, ?_, ?_⟩
    · intro v
      unfold CFE_ES_SetGenCount
      simp only [hn]
    · unfold CFE_ES_IncrementGenCounter
      simp only [hn]
    · unfold CFE_ES_GetGenCount
      simp only [hn]

/-- Witness of C18: in the example table the counter "cnt" is registered as
`0x04010000` and set to `0xFFFFFFFF`; it reads back `0xFFFFFFFF`, and after an
increment it reads 0. -/
theorem C18_counter_set_get_increment_witness :
    (CFE_ES_RegisterGenCounter exampleCounters "cnt").1 = .ok 0x04010000 ∧
    CFE_ES_GetGenCount
      (CFE_ES_SetGenCount (CFE_ES_RegisterGenCounter exampleCounters "cnt").2
        0x04010000 0xFFFFFFFF).2 0x04010000 = (.Success, some 0xFFFFFFFF) ∧
    (∃ c : Nat,
      CFE_ES_GetGenCount
        (CFE_ES_SetGenCount (CFE_ES_RegisterGenCounter exampleCounters "cnt").2
          0x04010000 0xFFFFFFFF).2 0x04010000 = (.Success, some c) ∧ c < 2 ^ 32 ∧
      CFE_ES_GetGenCount
        (CFE_ES_IncrementGenCounter
          (CFE_ES_SetGenCount (CFE_ES_RegisterGenCounter exampleCounters "cnt").2
            0x04010000 0xFFFFFFFF).2 0x04010000).2 0x04010000
        = (.Success, some ((c + 1) % 2 ^ 32))) :=
  ⟨rfl,
   (((C18_counter_set_get_increment
        (CFE_ES_RegisterGenCounter exampleCounters "cnt").2).1 0x04010000 0 (by decide)).1
      0xFFFFFFFF (by decide)).2,
   ((C18_counter_set_get_increment
        (CFE_ES_SetGenCount (CFE_ES_RegisterGenCounter exampleCounters "cnt").2
          0x04010000 0xFFFFFFFF).2).1 0x04010000 0 (by decide)).2.2.1⟩

/-!
## Theorems: long bit masks and the full CDS name length
-/

theorem DTEST_eq_testBit (longBits : Nat) (hw : 32 ≤ longBits) (i : Nat)
    (hi : i < 2 ^ 32) (x : Nat) (hx : x ≤ 31) :
    CFE_ES_DTEST longBits i x = i.testBit x := by
  have hi2 : i < 2 ^ longBits :=
    lt_of_lt_of_le hi (Nat.pow_le_pow_right (by decide) hw)
  unfold CFE_ES_DTEST
  rw [bitsOfLong_natCast longBits i hi2, bitsOfLong_DBIT longBits x (by omega),
    Nat.and_two_pow]
  cases h : i.testBit x with
  | false => simp
  | true => simp

/-- C21: for every array `m` of unsigned 32-bit words and every bit number `s`
below `32 * length m` (and every width of `long` of at least 32 bits),
`CFE_ES_TEST_LONG_MASK(m, s)` reads the word at index `s / 32`, which is
inside the array, and is true exactly when bit `s mod 32` of that word is set;
two bit numbers with the same word index and bit index are equal. -/
theorem C21_TEST_LONG_MASK (longBits : Nat) (hw : 32 ≤ longBits) (m : List Nat)
    (hm : ∀ w ∈ m, w < 2 ^ 32) (s : Nat) (hs : s < 32 * m.length) :
    s / 32 < m.length ∧ s % 32 ≤ 31 ∧
    (∃ w, m[s / 32]? = some w ∧
      CFE_ES_TEST_LONG_MASK longBits m s = some (w.testBit (s % 32))) ∧
    (∀ s2 : Nat, longMaskPosition s2 = longMaskPosition s → s2 = s) ∧
    (∀ s2 : Nat, s2 ≠ s → longMaskPosition s2 ≠ longMaskPosition s) := by
  have hidx : s / 32 < m.length := by omega
  have hbit : s % 32 ≤ 31 := by omega
  have hinj : ∀ s2 : Nat, longMaskPosition s2 = longMaskPosition s → s2 = s := by
    intro s2 h
    unfold longMaskPosition at h
    simp only [Prod.mk.injEq] at h
    omega
  refine ⟨hidx, hbit, ?_, hinj, fun s2 hne h => hne (hinj s2 h)⟩
  have hget : m[s / 32]? = some (m[s / 32]) := List.getElem?_eq_getElem hidx
  refine ⟨m[s / 32], hget, ?_⟩
  unfold CFE_ES_TEST_LONG_MASK
  rw [hget]
  have hwlt : m[s / 32] < 2 ^ 32 := hm _ (List.getElem_mem _)
  simp only []
  rw [DTEST_eq_testBit longBits hw _ hwlt _ hbit]

/-- Witness of C21: in the two-word mask `[0, 0x80000001]`, bit number 63 (word
1, bit 31) is set and bit number 31 (word 0, bit 31) is clear. -/
theorem C21_TEST_LONG_MASK_witness :
    CFE_ES_TEST_LONG_MASK 32 [0, 0x80000001] 63 = some true ∧
    CFE_ES_TEST_LONG_MASK 32 [0, 0x80000001] 31 = some false :=
  have h63 := (C21_TEST_LONG_MASK 32 (by decide) [0, 0x80000001] (by decide) 63
    (by decide)).2.2.1
  have h31 := (C21_TEST_LONG_MASK 32 (by decide) [0, 0x80000001] (by decide) 31
    (by decide)).2.2.1
  ⟨by
    obtain ⟨w, hw1, hw2⟩ := h63
    have e : w = 0x80000001 := by
      have : ([0, 0x80000001] : List Nat)[63 / 32]? = some 0x80000001 := by decide
      rw [this] at hw1
      exact (Option.some.inj hw1).symm
    rw [hw2, e]
    decide,
   by
    obtain ⟨w, hw1, hw2⟩ := h31
    have e : w = 0 := by
      have : ([0, 0x80000001] : List Nat)[31 / 32]? = some 0 := by decide
      rw [this] at hw1
      exact (Option.some.inj hw1).symm
    rw [hw2, e]
    decide⟩

/-- C22: for every application name of at most `CFE_MISSION_MAX_API_LEN`
characters and every CDS name of at most `CFE_MISSION_ES_CDS_MAX_NAME_LENGTH`
characters, the full name "AppName.CDSName" with its terminating NUL occupies
at most `CFE_ES_CDS_MAX_FULL_NAME_LEN` bytes, and exactly that many when both
names have the maximal length. -/
theorem C22_full_name_fits (CFE_MISSION_ES_CDS_MAX_NAME_LENGTH CFE_MISSION_MAX_API_LEN : Nat)
    (AppName CDSName : String) (hApp : AppName.length ≤ CFE_MISSION_MAX_API_LEN)
    (hCDS : CDSName.length ≤ CFE_MISSION_ES_CDS_MAX_NAME_LENGTH) :
    cStringBytes (cdsFullName AppName CDSName)
      ≤ CFE_ES_CDS_MAX_FULL_NAME_LEN CFE_MISSION_ES_CDS_MAX_NAME_LENGTH
          CFE_MISSION_MAX_API_LEN ∧
    (AppName.length = CFE_MISSION_MAX_API_LEN →
      CDSName.length = CFE_MISSION_ES_CDS_MAX_NAME_LENGTH →
      cStringBytes (cdsFullName AppName CDSName)
        = CFE_ES_CDS_MAX_FULL_NAME_LEN CFE_MISSION_ES_CDS_MAX_NAME_LENGTH
            CFE_MISSION_MAX_API_LEN) := by
  have hlen : (cdsFullName AppName CDSName).length = AppName.length + 1 + CDSName.length := by
    unfold cdsFullName
    rw [String.length_append, String.length_append]
    rfl
  unfold cStringBytes CFE_ES_CDS_MAX_FULL_NAME_LEN
  rw [hlen]
  constructor
  · omega
  · intro h1 h2
    omega

/-- Witness of C22 with names of at most 20 and 16 characters: "SAMPLE_APP.Blk"
with its NUL takes 15 bytes of the 38 available. -/
theorem C22_full_name_fits_witness :
    cStringBytes (cdsFullName "SAMPLE_APP" "Blk") ≤ CFE_ES_CDS_MAX_FULL_NAME_LEN 16 20 ∧
    cStringBytes (cdsFullName "SAMPLE_APP" "Blk") = 15 :=
  ⟨(C22_full_name_fits 16 20 "SAMPLE_APP" "Blk" (by decide) (by decide)).1, by decide⟩

/-!
## Theorems: software bus message identifiers
-/

theorem MsgIdToValue_of_IsMsgId (cfg : SBConfig) {m : Nat} (hm : cfg.IsMsgId m) :
    CFE_SB_MsgIdToValue cfg m = m := by
  unfold CFE_SB_MsgIdToValue CFE_SB_MSGID_UNWRAP_VALUE
  exact Nat.mod_eq_of_lt hm

theorem MsgId_Equal_iff (cfg : SBConfig) {a b : Nat} (ha : cfg.IsMsgId a)
    (hb : cfg.IsMsgId b) : CFE_SB_MsgId_Equal cfg a b = true ↔ a = b := by
  unfold CFE_SB_MsgId_Equal CFE_SB_MSGID_UNWRAP_VALUE
  rw [Nat.mod_eq_of_lt ha, Nat.mod_eq_of_lt hb]
  simp

theorem IsValidMsgId_iff (cfg : SBConfig) (m : Nat) :
    CFE_SB_IsValidMsgId cfg m = true ↔
      CFE_SB_MsgId_Equal cfg m cfg.CFE_SB_INVALID_MSG_ID = false ∧
      CFE_SB_MsgIdToValue cfg m ≤ cfg.CFE_PLATFORM_SB_HIGHEST_VALID_MSGID := by
  unfold CFE_SB_IsValidMsgId
  simp

/-- C23: when the integer type of a key is at least as wide as
`CFE_SB_MsgId_Atom_t`, `CFE_SB_ConvertMsgIdtoMsgKey` returns for every message
ID a key that holds the numeric value of the ID unchanged, so two message IDs
with the same key are the same ID; this holds in the default message format
and with `MESSAGE_FORMAT_IS_CCSDS_VER_2`. -/
theorem C23_ConvertMsgIdtoMsgKey_identity (cfg : SBConfig)
    (hkey : cfg.atomBits ≤ cfg.msgKeyBits) (m : CFE_SB_MsgId_t) (hm : cfg.IsMsgId m) :
    (CFE_SB_ConvertMsgIdtoMsgKey cfg m).KeyIdx = CFE_SB_MsgIdToValue cfg m ∧
    (CFE_SB_ConvertMsgIdtoMsgKey cfg m).KeyIdx = m ∧
    (∀ m2 : CFE_SB_MsgId_t, cfg.IsMsgId m2 →
      CFE_SB_ConvertMsgIdtoMsgKey cfg m2 = CFE_SB_ConvertMsgIdtoMsgKey cfg m → m2 = m) ∧
    (∀ m2 : CFE_SB_MsgId_t, cfg.IsMsgId m2 → m2 ≠ m →
      CFE_SB_ConvertMsgIdtoMsgKey cfg m2 ≠ CFE_SB_ConvertMsgIdtoMsgKey cfg m) := by
  have key : ∀ x : Nat, cfg.IsMsgId x → (CFE_SB_ConvertMsgIdtoMsgKey cfg x).KeyIdx = x := by
    intro x hx
    unfold CFE_SB_ConvertMsgIdtoMsgKey CFE_SB_ValueToMsgKey
    rw [MsgIdToValue_of_IsMsgId cfg hx]
    have hx2 : x < 2 ^ cfg.atomBits := hx
    exact Nat.mod_eq_of_lt (lt_of_lt_of_le hx2 (Nat.pow_le_pow_right (by decide) hkey))
  have hinj : ∀ m2 : Nat, cfg.IsMsgId m2 →
      CFE_SB_ConvertMsgIdtoMsgKey cfg m2 = CFE_SB_ConvertMsgIdtoMsgKey cfg m → m2 = m := by
    intro m2 hm2 h
    have h2 := congrArg CFE_SB_MsgKey_t.KeyIdx h
    rw [key m2 hm2, key m hm] at h2
    exact h2
  refine ⟨?_, key m hm, hinj, fun m2 hm2 hne h => hne (hinj m2 hm2 h)⟩
  rw [key m hm, MsgIdToValue_of_IsMsgId cfg hm]

/-- Witness of C23 in the example configuration (16-bit message IDs, 32-bit
keys): the key of the message ID `0x1880` holds `0x1880`. -/
theorem C23_ConvertMsgIdtoMsgKey_identity_witness :
    exampleSBConfig.atomBits ≤ exampleSBConfig.msgKeyBits ∧
    exampleSBConfig.IsMsgId 0x1880 ∧
    (CFE_SB_ConvertMsgIdtoMsgKey exampleSBConfig 0x1880).KeyIdx = 0x1880 :=
  ⟨by decide, by decide,
   (C23_ConvertMsgIdtoMsgKey_identity exampleSBConfig (by decide) 0x1880 (by decide)).2.1⟩

/-- C24: for every message ID `m` (the invalid ID being a message ID too),
`CFE_SB_IsValidMsgId(m)` is true exactly when `m` is not
`CFE_SB_INVALID_MSG_ID` and the numeric value of `m` is at most
`CFE_PLATFORM_SB_HIGHEST_VALID_MSGID`; so when `m` is valid, every message ID
of smaller value other than `CFE_SB_INVALID_MSG_ID` is valid, the value 0
included. -/
theorem C24_IsValidMsgId_iff (cfg : SBConfig)
    (hinv : cfg.IsMsgId cfg.CFE_SB_INVALID_MSG_ID) (m : CFE_SB_MsgId_t)
    (hm : cfg.IsMsgId m) :
    (CFE_SB_IsValidMsgId cfg m = true ↔
      m ≠ cfg.CFE_SB_INVALID_MSG_ID ∧
      CFE_SB_MsgIdToValue cfg m ≤ cfg.CFE_PLATFORM_SB_HIGHEST_VALID_MSGID) ∧
    (CFE_SB_IsValidMsgId cfg m = true ↔
      CFE_SB_MsgId_Equal cfg m cfg.CFE_SB_INVALID_MSG_ID = false ∧
      m ≤ cfg.CFE_PLATFORM_SB_HIGHEST_VALID_MSGID) ∧
    (CFE_SB_IsValidMsgId cfg m = true →
      ∀ m2 : CFE_SB_MsgId_t, cfg.IsMsgId m2 →
        CFE_SB_MsgIdToValue cfg m2 < CFE_SB_MsgIdToValue cfg m →
        m2 ≠ cfg.CFE_SB_INVALID_MSG_ID → CFE_SB_IsValidMsgId cfg m2 = true) ∧
    (CFE_SB_IsValidMsgId cfg m = true → 0 ≠ cfg.CFE_SB_INVALID_MSG_ID →
      CFE_SB_IsValidMsgId cfg 0 = true) := by
  have hne : ∀ x : Nat, cfg.IsMsgId x →
      (CFE_SB_MsgId_Equal cfg x cfg.CFE_SB_INVALID_MSG_ID = false ↔
        x ≠ cfg.CFE_SB_INVALID_MSG_ID) := by
    intro x hx
    have h := MsgId_Equal_iff cfg hx hinv
    constructor
    · intro hf e
      rw [h.2 e] at hf
      cases hf
    · intro hn
      cases hE : CFE_SB_MsgId_Equal cfg x cfg.CFE_SB_INVALID_MSG_ID with
      | false => rfl
      | true => exact absurd (h.1 hE) hn
  have hiff : ∀ x : Nat, cfg.IsMsgId x →
      (CFE_SB_IsValidMsgId cfg x = true ↔
        x ≠ cfg.CFE_SB_INVALID_MSG_ID ∧ x ≤ cfg.CFE_PLATFORM_SB_HIGHEST_VALID_MSGID) := by
    intro x hx
    rw [IsValidMsgId_iff, hne x hx, MsgIdToValue_of_IsMsgId cfg hx]
  have hv := MsgIdToValue_of_IsMsgId cfg hm
  have h0 : cfg.IsMsgId 0 := by
    show 0 < 2 ^ cfg.atomBits
    exact Nat.pos_of_ne_zero (by positivity)
  refine ⟨?_, ?_, ?_, ?_⟩
  · rw [hv]; exact hiff m hm
  · rw [hne m hm]; exact hiff m hm
  · intro hvalid m2 hm2 hlt hne2
    rw [hv, MsgIdToValue_of_IsMsgId cfg hm2] at hlt
    have h1 := (hiff m hm).1 hvalid
    exact (hiff m2 hm2).2 ⟨hne2, by omega⟩
  · intro hvalid hne0
    exact (hiff 0 h0).2 ⟨hne0, Nat.zero_le _⟩

/-- Witness of C24 in the example configuration: `0x1880` is valid, `0x2000`
and the invalid ID `0xFFFF` are not. -/
theorem C24_IsValidMsgId_iff_witness :
    exampleSBConfig.IsMsgId exampleSBConfig.CFE_SB_INVALID_MSG_ID ∧
    CFE_SB_IsValidMsgId exampleSBConfig 0x1880 = true ∧
    CFE_SB_IsValidMsgId exampleSBConfig 0x2000 = false ∧
    CFE_SB_IsValidMsgId exampleSBConfig 0xFFFF = false ∧
    CFE_SB_IsValidMsgId exampleSBConfig 0 = true :=
  ⟨by decide, by decide, by decide, by decide,
   (C24_IsValidMsgId_iff exampleSBConfig (by decide) 0x1880 (by decide)).2.2.2
     (by decide) (by decide)⟩

theorem CFE_TST_eq_testBit (i x : Nat) : CFE_TST i x = i.testBit x := by
  unfold CFE_TST
  rw [Nat.one_shiftLeft, Nat.and_two_pow]
  cases h : i.testBit x with
  | false => simp
  | true => simp

theorem GetPktType_of_fit (cfg : SBConfig) (m : Nat) (h : pktTypeOf cfg m < 256) :
    CFE_SB_GetPktType cfg m = pktTypeOf cfg m := by
  unfold CFE_SB_GetPktType
  omega

theorem pktTypeOf_invalid (cfg : SBConfig) (m : Nat) (h : CFE_SB_IsValidMsgId cfg m = false) :
    pktTypeOf cfg m = cfg.CFE_SB_PKTTYPE_INVALID := by
  unfold pktTypeOf
  simp [h]

theorem pktTypeOf_valid (cfg : SBConfig) (m : Nat) (h : CFE_SB_IsValidMsgId cfg m = true) :
    pktTypeOf cfg m = cfg.CFE_SB_PKTTYPE_CMD ∨ pktTypeOf cfg m = cfg.CFE_SB_PKTTYPE_TLM := by
  unfold pktTypeOf
  simp only [h, if_true]
  split_ifs <;> simp

/-- C25: the three packet type constants fitting the `uint8` they are stored
in, `CFE_SB_GetPktType(m)` is for every message ID `m` one of
`CFE_SB_PKTTYPE_CMD`, `CFE_SB_PKTTYPE_TLM` and `CFE_SB_PKTTYPE_INVALID`; it is
`CFE_SB_PKTTYPE_INVALID` when `CFE_SB_IsValidMsgId(m)` is false and, the
invalid constant differing from the other two, only then. -/
theorem C25_GetPktType_cases (cfg : SBConfig) (hcmd : cfg.CFE_SB_PKTTYPE_CMD < 256)
    (htlm : cfg.CFE_SB_PKTTYPE_TLM < 256) (hinv : cfg.CFE_SB_PKTTYPE_INVALID < 256)
    (m : CFE_SB_MsgId_t) :
    (CFE_SB_GetPktType cfg m = cfg.CFE_SB_PKTTYPE_CMD ∨
      CFE_SB_GetPktType cfg m = cfg.CFE_SB_PKTTYPE_TLM ∨
      CFE_SB_GetPktType cfg m = cfg.CFE_SB_PKTTYPE_INVALID) ∧
    (CFE_SB_IsValidMsgId cfg m = false →
      CFE_SB_GetPktType cfg m = cfg.CFE_SB_PKTTYPE_INVALID) ∧
    (cfg.CFE_SB_PKTTYPE_INVALID ≠ cfg.CFE_SB_PKTTYPE_CMD →
      cfg.CFE_SB_PKTTYPE_INVALID ≠ cfg.CFE_SB_PKTTYPE_TLM →
      (CFE_SB_GetPktType cfg m = cfg.CFE_SB_PKTTYPE_INVALID ↔
        CFE_SB_IsValidMsgId cfg m = false)) := by
  cases hv : CFE_SB_IsValidMsgId cfg m with
  | false =>
    have hp := pktTypeOf_invalid cfg m hv
    have hg := GetPktType_of_fit cfg m (by rw [hp]; exact hinv)
    rw [hp] at hg
    exact ⟨Or.inr (Or.inr hg), fun _ => hg, fun _ _ => ⟨fun _ => rfl, fun _ => hg⟩⟩
  | true =>
    rcases pktTypeOf_valid cfg m hv with hp | hp
    · have hg := GetPktType_of_fit cfg m (by rw [hp]; exact hcmd)
      rw [hp] at hg
      refine ⟨Or.inl hg, fun h => (by cases h), fun h1 _ => ⟨fun h => ?_, fun h => (by cases h)⟩⟩
      rw [hg] at h
      exact absurd h.symm h1
    · have hg := GetPktType_of_fit cfg m (by rw [hp]; exact htlm)
      rw [hp] at hg
      refine ⟨Or.inr (Or.inl hg), fun h => (by cases h),
        fun _ h2 => ⟨fun h => ?_, fun h => (by cases h)⟩⟩
      rw [hg] at h
      exact absurd h.symm h2

/-- Witness of C25 in the example configuration, with the constants 1, 2 and
0: `0x1880` is a command, `0x0880` is telemetry, `0x2000` is invalid. -/
theorem C25_GetPktType_cases_witness :
    CFE_SB_GetPktType exampleSBConfig 0x1880 = 1 ∧
    CFE_SB_GetPktType exampleSBConfig 0x0880 = 2 ∧
    CFE_SB_IsValidMsgId exampleSBConfig 0x2000 = false ∧
    CFE_SB_GetPktType exampleSBConfig 0x2000 = exampleSBConfig.CFE_SB_PKTTYPE_INVALID :=
  ⟨by decide, by decide, by decide,
   (C25_GetPktType_cases exampleSBConfig (by decide) (by decide) (by decide) 0x2000).2.1
     (by decide)⟩

/-- C26: in the default message format, the command and telemetry constants
fitting the `uint8` they are stored in, `CFE_SB_GetPktType(m)` is for every
valid message ID `m` `CFE_SB_PKTTYPE_CMD` when bit 12 (mask `0x1000`) of the
numeric value of `m` is set and `CFE_SB_PKTTYPE_TLM` when it is clear; the two
constants differing, it is `CFE_SB_PKTTYPE_CMD` exactly when the bit is set;
and two valid message IDs that agree in bit 12 have the same packet type. -/
theorem C26_GetPktType_bit12 (cfg : SBConfig)
    (hdef : cfg.MESSAGE_FORMAT_IS_CCSDS_VER_2 = false)
    (hcmd : cfg.CFE_SB_PKTTYPE_CMD < 256) (htlm : cfg.CFE_SB_PKTTYPE_TLM < 256)
    (m : CFE_SB_MsgId_t) (hvalid : CFE_SB_IsValidMsgId cfg m = true) :
    ((CFE_SB_MsgIdToValue cfg m).testBit 12 = true →
      CFE_SB_GetPktType cfg m = cfg.CFE_SB_PKTTYPE_CMD) ∧
    ((CFE_SB_MsgIdToValue cfg m).testBit 12 = false →
      CFE_SB_GetPktType cfg m = cfg.CFE_SB_PKTTYPE_TLM) ∧
    (cfg.CFE_SB_PKTTYPE_CMD ≠ cfg.CFE_SB_PKTTYPE_TLM →
      (CFE_SB_GetPktType cfg m = cfg.CFE_SB_PKTTYPE_CMD ↔
        (CFE_SB_MsgIdToValue cfg m).testBit 12 = true)) ∧
    ((CFE_SB_MsgIdToValue cfg m).testBit 12 = true ↔
      CFE_SB_MsgIdToValue cfg m &&& 0x1000 ≠ 0) ∧
    (∀ m2 : CFE_SB_MsgId_t, CFE_SB_IsValidMsgId cfg m2 = true →
      (CFE_SB_MsgIdToValue cfg m2).testBit 12 = (CFE_SB_MsgIdToValue cfg m).testBit 12 →
      CFE_SB_GetPktType cfg m2 = CFE_SB_GetPktType cfg m) := by
  have hp : ∀ x : Nat, CFE_SB_IsValidMsgId cfg x = true →
      pktTypeOf cfg x = if (CFE_SB_MsgIdToValue cfg x).testBit 12 = true
        then cfg.CFE_SB_PKTTYPE_CMD else cfg.CFE_SB_PKTTYPE_TLM := by
    intro x hx
    unfold pktTypeOf
    simp only [hx, hdef, if_true, Bool.not_false, CFE_TST_eq_testBit]
  have hg : ∀ x : Nat, CFE_SB_IsValidMsgId cfg x = true →
      CFE_SB_GetPktType cfg x = if (CFE_SB_MsgIdToValue cfg x).testBit 12 = true
        then cfg.CFE_SB_PKTTYPE_CMD else cfg.CFE_SB_PKTTYPE_TLM := by
    intro x hx
    have h1 := hp x hx
    rw [← h1]
    apply GetPktType_of_fit
    rw [h1]
    split_ifs
    · exact hcmd
    · exact htlm
  refine ⟨?_, ?_, ?_, ?_, ?_⟩
  · intro hb
    rw [hg m hvalid, if_pos hb]
  · intro hb
    rw [hg m hvalid, hb]
    simp
  · intro hne
    rw [hg m hvalid]
    constructor
    · intro h
      by_contra hb
      rw [if_neg hb] at h
      exact hne h.symm
    · intro hb
      rw [if_pos hb]
  · have e : (0x1000 : Nat) = 2 ^ 12 := by norm_num
    rw [e, Nat.and_two_pow]
    cases (CFE_SB_MsgIdToValue cfg m).testBit 12 <;> simp
  · intro m2 hv2 hbit
    rw [hg m2 hv2, hg m hvalid, hbit]

/-- Witness of C26 in the example configuration: the valid ID `0x1880` has
bit 12 set and is a command, the valid ID `0x0880` has it clear and is
telemetry. -/
theorem C26_GetPktType_bit12_witness :
    CFE_SB_IsValidMsgId exampleSBConfig 0x1880 = true ∧
    (CFE_SB_MsgIdToValue exampleSBConfig 0x1880).testBit 12 = true ∧
    CFE_SB_GetPktType exampleSBConfig 0x1880 = exampleSBConfig.CFE_SB_PKTTYPE_CMD ∧
    CFE_SB_GetPktType exampleSBConfig 0x0880 = exampleSBConfig.CFE_SB_PKTTYPE_TLM :=
  ⟨by decide, by decide,
   (C26_GetPktType_bit12 exampleSBConfig rfl (by decide) (by decide) 0x1880 (by decide)).1
     (by decide),
   (C26_GetPktType_bit12 exampleSBConfig rfl (by decide) (by decide) 0x0880 (by decide)).2.1
     (by decide)⟩

end CFE
